import Mathlib

/-! HTTP download engine (`src/engine/httpcontrolsocket.cpp`)

A shallow embedding of `CHttpControlSocket`: the receive buffer, the header
parser (`ParseHeader`), the chunk decoder (`OnChunkedData`), the request
sender (`FileTransferSend`), the termination paths (`DoReceive`, `OnClose`,
`ResetOperation`) and the replies to asynchronous requests
(`SetAsyncRequestReply`).

Conventions of the embedding

* a byte (`char`) is a natural number; every comparison the source makes on a
  `char` gives the same answer for signed and unsigned `char`, because all of
  them compare against ASCII constants and bytes above 127 fail each of them;
* `m_pRecvBuffer` is the list of the first `m_recvBufferPos` bytes of the
  buffer, so `m_recvBufferPos` is the length of that list (the source never
  reads the buffer past `m_recvBufferPos`);
* `int64_t` fields are integers reduced with `wrap64` after every arithmetic
  step, `int` fields with `wrap32`;
* collaborators that are not part of this file of the source (URI handling,
  files, the socket, the base class) are fields of `Env`; the calls made to
  them are appended, in order, to the `trace` of the socket;
* a function returns `none` where the embedding has no answer: a loop that ran
  out of fuel, a null or wrongly typed operation pointer, a `Read` longer than
  the space it was given, or a slice that would leave the receive buffer.
-/

namespace Http

/-! ## Bytes and machine integers -/

/-- The bytes of an ASCII string literal. -/
def str (s : String) : List Nat := s.toList.map Char.toNat

/-- Reduction modulo two to the word size, signed, to `int64_t`. -/
def wrap64 (x : Int) : Int := (x + 2 ^ 63) % 2 ^ 64 - 2 ^ 63

/-- Reduction modulo two to the word size, signed, to `int`. -/
def wrap32 (x : Int) : Int := (x + 2 ^ 31) % 2 ^ 32 - 2 ^ 31

/-- Size of the receive buffer; the source names it `m_recvBufferLen` and its comments
(`header lines larger than 4096` are not supported) give the value. -/
def m_recvBufferLen : Nat := 4096

/-- The C string starting at `p`: the bytes before the first NUL. -/
def cstr (p : List Nat) : List Nat := p.takeWhile (fun c => c != 0)

/-! ## Collaborators -/

/-- The fields of `fz::uri` that the source reads; `rest_` stands for the other components. -/
structure uri where
  scheme_ : List Nat := []
  host_ : List Nat := []
  port_ : Nat := 0
  rest_ : List Nat := []
deriving DecidableEq, Repr

inductive ServerProtocol
  | HTTP
  | HTTPS
  | UNKNOWN
deriving DecidableEq, Repr

/-- The reply codes the source uses. `FZ_REPLY_ERROR_DISCONNECTED` is
`FZ_REPLY_ERROR | FZ_REPLY_DISCONNECTED` and `FZ_REPLY_WOULDBLOCK_REDIRECTED` is
`FZ_REPLY_WOULDBLOCK | FZ_REPLY_REDIRECTED`. -/
inductive Reply
  | FZ_REPLY_OK
  | FZ_REPLY_WOULDBLOCK
  | FZ_REPLY_ERROR
  | FZ_REPLY_ERROR_DISCONNECTED
  | FZ_REPLY_INTERNALERROR
  | FZ_REPLY_REDIRECTED
  | FZ_REPLY_WOULDBLOCK_REDIRECTED
deriving DecidableEq, Repr

open Reply

/-- The texts of the `MessageType::Error` log lines that name a failure. -/
inductive Msg
  | Malformed_reply_line_endings
  | Too_long_header_line
  | Invalid_HTTP_Response
  | Invalid_response_code
  | Unsupported_redirect
  | Too_many_redirects
  | Redirection_to_invalid_or_unsupported_URI
  | Redirection_to_invalid_or_unsupported_address
  | Invalid_hostname
  | Invalid_Content_Length
  | Wrong_line_endings
  | Line_length_exceeded
  | Chunk_data_improperly_terminated
  | Invalid_chunk_size
  | Failed_to_write_to_file
  | Failed_to_open_for_writing
deriving DecidableEq, Repr

/-- Result of `CSocket::Connect`: `0`, `EINPROGRESS`, or another error number. -/
inductive ConnectResult
  | connected
  | EINPROGRESS
  | failed
deriving DecidableEq, Repr

/-- Calls that leave this file of the source, in the order they are made. -/
inductive Event
  | LogError (m : Msg)
  | ProcessData (p : Option (List Nat))
  | OpenFile (existing : Bool)
  | InternalConnect (host : List Nat) (port : Nat) (tls : Bool)
  | Send (command : List Nat)
  | ResetSocket
  | ResetOperation (nErrorCode : Reply)
  | TrustCurrentCert (trusted : Bool)
deriving DecidableEq, Repr

/-- The collaborators of the control socket. The answers of the file system and of the
network may depend on everything that happened before, so they take the trace. -/
structure Env where
  /-- `fz::uri(char const*)`. -/
  uri_parse : List Nat → uri
  /-- `a.resolve(base)`, the value of `a` afterwards. -/
  uri_resolve : uri → uri → uri
  uri_empty : uri → Bool
  uri_is_absolute : uri → Bool
  uri_get_request : uri → List Nat
  /-- `get_authority(false)`. -/
  uri_get_authority : uri → List Nat
  GetProtocolFromPrefix : List Nat → ServerProtocol
  GetDefaultPort : ServerProtocol → Nat
  to_wstring_from_utf8 : List Nat → List Nat
  ConvertDomainName : List Nat → List Nat
  PACKAGE_STRING : List Nat
  /-- `fz::sprintf("%d", n)`. -/
  sprintf_d : Int → List Nat
  /-- `file.open(name, writing, existing or empty)`. -/
  file_open : List Event → List Nat → Bool → Bool
  /-- `file.seek(0, fz::file::end)`. -/
  file_seek_end : List Event → Int
  get_size : List Event → List Nat → Int
  /-- Whether `file.write(p, len)` wrote all `len` bytes. -/
  file_write : List Event → List Nat → Bool
  socket_Connect : List Event → List Nat → Nat → ConnectResult
  /-- Result of `CRealControlSocket::Send`. -/
  Send : List Event → List Nat → Bool

/-! ## Operation data -/

inductive transferEncodings
  | identity
  | chunked
  | unknown
deriving DecidableEq, Repr

structure t_chunkData where
  getTrailer : Bool := false
  terminateChunk : Bool := false
  size : Int := 0
deriving DecidableEq, Repr

inductive filetransferStates
  | filetransfer_init
  | filetransfer_waitfileexists
  | filetransfer_transfer
deriving DecidableEq, Repr

/-- `CHttpConnectOpData`, with the fields of `CConnectOpData` and `COpData` that the source
uses. -/
structure CHttpConnectOpData where
  host : List Nat := []
  port : Nat := 0
  tls : Bool := false
  waitForAsyncRequest : Bool := false
deriving DecidableEq, Repr

/-- The parts of `CServer` that the source asks `currentServer_` for. -/
structure CServer where
  host : List Nat := []
  port : Nat := 0
  protocol : ServerProtocol := ServerProtocol.HTTP
deriving DecidableEq, Repr

/-- `CHttpFileTransferOpData`: the members of `CHttpOpData` with their initial values,
followed by the members of `CFileTransferOpData` and `COpData` that the source uses.
`file_opened` is the state of the member `file`. -/
structure CHttpFileTransferOpData where
  m_gotHeader : Bool := false
  m_responseCode : Int := -1
  m_responseString : List Nat := []
  m_newLocation : uri := {}
  m_redirectionCount : Int := 0
  m_totalSize : Int := -1
  m_receivedData : Int := 0
  m_transferEncoding : transferEncodings := transferEncodings.unknown
  m_chunkData : t_chunkData := {}
  localFile : List Nat := []
  localFileSize : Int := 0
  resume : Bool := false
  opState : filetransferStates := filetransferStates.filetransfer_init
  waitForAsyncRequest : Bool := false
  file_opened : Bool := false
deriving DecidableEq, Repr

/-- The control socket. The operation stack of an HTTP socket holds at most a transfer
operation and, pushed on top of it, a connect operation: `m_pCurOpData` is `pConnect` when
there is one and `pTransfer` otherwise, `pNextOpData` of the connect operation is
`pTransfer`, and `m_pHttpOpData` points to `pTransfer`. -/
structure CHttpControlSocket where
  m_pRecvBuffer : List Nat := []
  m_current_uri : uri := {}
  currentServer_ : CServer := {}
  pConnect : Option CHttpConnectOpData := none
  pTransfer : Option CHttpFileTransferOpData := none
  trace : List Event := []
deriving DecidableEq, Repr

namespace CHttpControlSocket

def m_recvBufferPos (s : CHttpControlSocket) : Nat := s.m_pRecvBuffer.length

def emit (s : CHttpControlSocket) (e : Event) : CHttpControlSocket :=
  { s with trace := s.trace ++ [e] }

def LogMessage (s : CHttpControlSocket) (m : Msg) : CHttpControlSocket :=
  s.emit (Event.LogError m)

end CHttpControlSocket

/-! ## Reset -/

/-- `CHttpControlSocket::ResetSocket`: the buffer is released and the socket closed. -/
def ResetSocket (s : CHttpControlSocket) : CHttpControlSocket :=
  { s with m_pRecvBuffer := [], trace := s.trace ++ [Event.ResetSocket] }

/-- `CHttpControlSocket::ResetHttpData`. -/
def ResetHttpData (pData : CHttpFileTransferOpData) : CHttpFileTransferOpData :=
  { pData with
    m_gotHeader := false
    m_responseCode := -1
    m_transferEncoding := transferEncodings.unknown
    m_chunkData := { getTrailer := false, size := 0, terminateChunk := false }
    m_totalSize := -1
    m_receivedData := 0 }

/-- Modelled from the spec: `CControlSocket::ResetOperation` belongs to the base class,
whose file is not part of the sources. The operation stack is "an explicit stack (each
frame exclusively owned by its pusher, popped on completion)": the current operation is
removed and the call is recorded. What the base class then does with the operation
underneath (it is handed the result through `ParseSubcommandResult`) is a separate step of
the embedding. -/
def CControlSocket_ResetOperation (s : CHttpControlSocket) (nErrorCode : Reply) :
    Reply × CHttpControlSocket :=
  match s.pConnect with
  | some _ => (nErrorCode, { s with pConnect := none, trace := s.trace ++ [Event.ResetOperation nErrorCode] })
  | none => (nErrorCode, { s with pTransfer := none, trace := s.trace ++ [Event.ResetOperation nErrorCode] })

/-- `CHttpControlSocket::ResetOperation`. -/
def ResetOperation (s : CHttpControlSocket) (nErrorCode : Reply) : Reply × CHttpControlSocket :=
  match s.pConnect, s.pTransfer with
  | some _, some _ =>
    -- the current operation is a connect operation with a next operation
    CControlSocket_ResetOperation s nErrorCode
  | some _, none =>
    CControlSocket_ResetOperation (ResetSocket s) nErrorCode
  | none, some t =>
    -- the current operation is the transfer: `pData->file.close()`
    let s := { s with pTransfer := some { t with file_opened := false } }
    CControlSocket_ResetOperation (ResetSocket s) nErrorCode
  | none, none =>
    CControlSocket_ResetOperation (ResetSocket s) nErrorCode


/-! ## Output sink -/

/-- `CHttpControlSocket::FileTransferParseResponse`. A null `p` is `none`. -/
def FileTransferParseResponse (env : Env) (s : CHttpControlSocket) (p : Option (List Nat)) :
    Option (Reply × CHttpControlSocket) :=
  match s.pConnect, s.pTransfer with
  | none, none =>
    -- `!m_pCurOpData`
    some (FZ_REPLY_ERROR, (ResetOperation s FZ_REPLY_INTERNALERROR).2)
  | some _, _ => none
  | none, some pData =>
    match p with
    | none => some (FZ_REPLY_OK, (ResetOperation s FZ_REPLY_OK).2)
    | some data =>
      if pData.localFile = [] then
        -- a `CDataNotification` carrying a copy of the data
        some (FZ_REPLY_WOULDBLOCK, s)
      else if env.file_write s.trace data then
        some (FZ_REPLY_WOULDBLOCK, s)
      else
        some (FZ_REPLY_ERROR, (ResetOperation (s.LogMessage Msg.Failed_to_write_to_file) FZ_REPLY_ERROR).2)

/-- `CHttpControlSocket::ProcessData`. The call is recorded with its argument. -/
def ProcessData (env : Env) (s : CHttpControlSocket) (p : Option (List Nat)) :
    Option (Reply × CHttpControlSocket) :=
  let s := s.emit (Event.ProcessData p)
  match s.pConnect, s.pTransfer with
  | none, some _ =>
    -- `GetCurrentCommandId() == Command::transfer`
    FileTransferParseResponse env s p
  | _, _ => some (FZ_REPLY_ERROR, (ResetOperation s FZ_REPLY_INTERNALERROR).2)

/-! ## Files and connections -/

/-- `CHttpControlSocket::OpenFile`, applied to the transfer operation of the socket. -/
def OpenFile (env : Env) (s : CHttpControlSocket) : Option (Reply × CHttpControlSocket) :=
  match s.pTransfer with
  | none => none
  | some pData =>
    let s := { s with pTransfer := some { pData with file_opened := false } }
    let s := s.emit (Event.OpenFile pData.resume)
    if !env.file_open s.trace pData.localFile pData.resume then
      some (FZ_REPLY_ERROR, (ResetOperation (s.LogMessage Msg.Failed_to_open_for_writing) FZ_REPLY_ERROR).2)
    else
      let end_ := env.file_seek_end s.trace
      let resume := if end_ = 0 then false else pData.resume
      some (FZ_REPLY_OK,
        { s with pTransfer := some { pData with
            file_opened := true
            resume := resume
            localFileSize := env.get_size s.trace pData.localFile } })

/-- `CHttpControlSocket::DoInternalConnect`. The current operation is cast to a connect
operation, so there is no answer when it is the transfer operation. -/
def DoInternalConnect (env : Env) (s : CHttpControlSocket) : Option (Reply × CHttpControlSocket) :=
  match s.pConnect with
  | none =>
    match s.pTransfer with
    | none => some (FZ_REPLY_ERROR, (ResetOperation s FZ_REPLY_INTERNALERROR).2)
    | some _ => none
  | some pData =>
    match env.socket_Connect s.trace pData.host pData.port with
    | ConnectResult.connected => some (FZ_REPLY_OK, s)
    | ConnectResult.failed => some (ResetOperation s FZ_REPLY_ERROR)
    | ConnectResult.EINPROGRESS => some (FZ_REPLY_WOULDBLOCK, s)

/-- `CHttpControlSocket::InternalConnect`: a connect operation is pushed on the stack. -/
def InternalConnect (env : Env) (s : CHttpControlSocket) (host : List Nat) (port : Nat)
    (tls : Bool) : Option (Reply × CHttpControlSocket) :=
  let s := s.emit (Event.InternalConnect host port tls)
  let s := { s with pConnect := some { host := env.ConvertDomainName host, port := port, tls := tls } }
  DoInternalConnect env s

/-! ## Lines -/

/-- Outcome of the search for a line ending (`for (i = 0; (i + 1) < len; i++)`):
`found i` when the loop stopped at a CR followed by LF at `i`, `malformed` when the CR is
followed by something else, `incomplete` when the loop ran to `(i + 1) >= len`. -/
inductive LineEnding
  | malformed
  | found (i : Nat)
  | incomplete
deriving DecidableEq, Repr

def findLineEnding : List Nat → LineEnding
  | c :: d :: rest =>
    if c = 13 then
      if d = 10 then LineEnding.found 0 else LineEnding.malformed
    else
      match findLineEnding (d :: rest) with
      | LineEnding.found i => LineEnding.found (i + 1)
      | r => r
  | _ => LineEnding.incomplete

/-! ## Chunk decoder -/

/-- What one pass through a part of a loop body ends with. -/
inductive Step
  | ret (res : Reply) (s : CHttpControlSocket)
  | brk (s : CHttpControlSocket) (p : List Nat)
  | next (s : CHttpControlSocket) (p : List Nat)
deriving DecidableEq, Repr

/-- The loop `Read chunk size` of `OnChunkedData`, started with the current value of
`m_chunkData.size`; `none` is the branch `Invalid chunk size`. -/
def readChunkSize : List Nat → Int → Option Int
  | [], size => some size
  | c :: q, size =>
    if c = 0 ∨ c = 59 ∨ c = 32 then some size
    else if 48 ≤ c ∧ c ≤ 57 then readChunkSize q (wrap64 (wrap64 (size * 16) + (c - 48 : Nat)))
    else if 65 ≤ c ∧ c ≤ 70 then readChunkSize q (wrap64 (wrap64 (size * 16) + (c - 65 + 10 : Nat)))
    else if 97 ≤ c ∧ c ≤ 102 then readChunkSize q (wrap64 (wrap64 (size * 16) + (c - 97 + 10 : Nat)))
    else none

/-- The first half of the loop body of `OnChunkedData`: `if (pData->m_chunkData.size != 0)`.
`p` is the part of the buffer from the pointer `p` on, so `len` is its length. -/
def OnChunkedData_data (env : Env) (s : CHttpControlSocket) (p : List Nat) : Option Step :=
  match s.pTransfer with
  | none => none
  | some pData =>
    if pData.m_chunkData.size ≠ 0 then
      let len := p.length
      let dataLen : Nat :=
        if pData.m_chunkData.size < (len : Int) then (pData.m_chunkData.size % 2 ^ 32).toNat else len
      if len < dataLen then none
      else
        let s := { s with pTransfer := some { pData with
                    m_receivedData := wrap64 (pData.m_receivedData + (dataLen : Int)) } }
        match ProcessData env s (some (p.take dataLen)) with
        | none => none
        | some (res, s) =>
          if res ≠ FZ_REPLY_WOULDBLOCK then some (Step.ret res s)
          else
            match s.pTransfer with
            | none => none
            | some pData =>
              let size := wrap64 (pData.m_chunkData.size - (dataLen : Int))
              let cd := { pData.m_chunkData with
                          size := size
                          terminateChunk := if size = 0 then true else pData.m_chunkData.terminateChunk }
              let s := { s with pTransfer := some { pData with m_chunkData := cd } }
              let p := p.drop dataLen
              if p.length = 0 then some (Step.brk s p) else some (Step.next s p)
    else some (Step.next s p)

/-- The second half of the loop body of `OnChunkedData`, from `Find line ending` on. -/
def OnChunkedData_line (env : Env) (s : CHttpControlSocket) (p : List Nat) : Option Step :=
  match s.pTransfer with
  | none => none
  | some pData =>
    match findLineEnding p with
    | LineEnding.malformed =>
      some (Step.ret FZ_REPLY_ERROR (ResetOperation (s.LogMessage Msg.Wrong_line_endings) FZ_REPLY_ERROR).2)
    | LineEnding.incomplete =>
      if p.length = m_recvBufferLen then
        some (Step.ret FZ_REPLY_ERROR (ResetOperation (s.LogMessage Msg.Line_length_exceeded) FZ_REPLY_ERROR).2)
      else some (Step.brk s p)
    | LineEnding.found i =>
      -- `p[i] = 0`
      let line := p.set i 0
      let advance (s : CHttpControlSocket) : Option Step :=
        let p := p.drop (i + 2)
        if p.length = 0 then some (Step.brk s p) else some (Step.next s p)
      if pData.m_chunkData.terminateChunk then
        if i ≠ 0 then
          some (Step.ret FZ_REPLY_ERROR
            (ResetOperation (s.LogMessage Msg.Chunk_data_improperly_terminated) FZ_REPLY_ERROR).2)
        else
          advance { s with pTransfer := some { pData with
                      m_chunkData := { pData.m_chunkData with terminateChunk := false } } }
      else if pData.m_chunkData.getTrailer then
        if i = 0 then
          match ProcessData env s none with
          | none => none
          | some (res, s) => some (Step.ret res s)
        else advance s
      else
        match readChunkSize line pData.m_chunkData.size with
        | none =>
          some (Step.ret FZ_REPLY_ERROR (ResetOperation (s.LogMessage Msg.Invalid_chunk_size) FZ_REPLY_ERROR).2)
        | some size =>
          advance { s with pTransfer := some { pData with
                      m_chunkData := { pData.m_chunkData with
                        size := size
                        getTrailer := if size = 0 then true else pData.m_chunkData.getTrailer } } }

/-- One pass through the body of the loop of `OnChunkedData`. -/
def OnChunkedData_iter (env : Env) (s : CHttpControlSocket) (p : List Nat) : Option Step :=
  match OnChunkedData_data env s p with
  | some (Step.next s p) => OnChunkedData_line env s p
  | r => r

/-- The loop `for (;;)` of `OnChunkedData`, with fuel. -/
def OnChunkedData_loop (env : Env) : Nat → CHttpControlSocket → List Nat → Option Step
  | 0, _, _ => none
  | fuel + 1, s, p =>
    match OnChunkedData_iter env s p with
    | some (Step.next s p) => OnChunkedData_loop env fuel s p
    | r => r

/-- `CHttpControlSocket::OnChunkedData`. Every pass that continues consumes bytes, so
`m_recvBufferPos + 1` passes always suffice. After the loop `p != m_pRecvBuffer` holds when
bytes were consumed; the bytes from `p` on are then moved to the front. The NUL bytes the
source writes over the CR of a line are gone from the buffer by then. -/
def OnChunkedData (env : Env) (s : CHttpControlSocket) : Option (Reply × CHttpControlSocket) :=
  match OnChunkedData_loop env (s.m_pRecvBuffer.length + 1) s s.m_pRecvBuffer with
  | some (Step.ret res s) => some (res, s)
  | some (Step.brk s p) =>
    if p.length ≠ s.m_pRecvBuffer.length then some (FZ_REPLY_WOULDBLOCK, { s with m_pRecvBuffer := p })
    else some (FZ_REPLY_WOULDBLOCK, s)
  | _ => none

/-! ## Header parser -/

/-- What the handling of one header line ends with: `return res`, or falling through to
the removal of the line from the buffer. -/
inductive HStep
  | ret (res : Reply) (s : CHttpControlSocket)
  | next (s : CHttpControlSocket)
deriving DecidableEq, Repr

/-- The status line checks of `ParseHeader` and the computation of `m_responseCode`.
`buf` is the receive buffer after `m_pRecvBuffer[i] = 0`. -/
def statusCode (buf : List Nat) : Except Msg Int :=
  if buf.length < 16 ∨ buf.take 7 ≠ str "HTTP/1." then Except.error Msg.Invalid_HTTP_Response
  else if buf.getD 9 0 < 49 ∨ buf.getD 9 0 > 53 ∨
      buf.getD 10 0 < 48 ∨ buf.getD 10 0 > 57 ∨
      buf.getD 11 0 < 48 ∨ buf.getD 11 0 > 57 then
    Except.error Msg.Invalid_response_code
  else
    Except.ok (((buf.getD 9 0 : Int) - 48) * 100 + ((buf.getD 10 0 : Int) - 48) * 10 + (buf.getD 11 0 : Int) - 48)

/-- The branch `if (pData->m_responseCode == -1)` of `ParseHeader`. -/
def ParseHeader_status (env : Env) (s : CHttpControlSocket) (pData : CHttpFileTransferOpData)
    (buf : List Nat) : Option HStep :=
  let pData := { pData with m_responseString := cstr buf }
  let s := { s with pTransfer := some pData }
  match statusCode buf with
  | Except.error m => some (HStep.ret FZ_REPLY_ERROR (ResetOperation (s.LogMessage m) FZ_REPLY_ERROR).2)
  | Except.ok code =>
    let pData := { pData with m_responseCode := code }
    let s := { s with pTransfer := some pData }
    let after416 : Option (Option Reply × CHttpControlSocket) :=
      if code = 416 ∧ pData.resume = true then
        -- the server does not like the attempt to resume: get the full file instead
        match OpenFile env { s with pTransfer := some { pData with resume := false } } with
        | none => none
        | some (res, s) =>
          if res ≠ FZ_REPLY_OK then some (some res, s)
          else
            match s.pTransfer with
            | none => none
            | some pData =>
              some (none, { s with pTransfer := some { pData with
                              m_newLocation := s.m_current_uri
                              m_responseCode := 300 } })
      else some (none, s)
    match after416 with
    | none => none
    | some (some res, s) => some (HStep.ret res s)
    | some (none, s) =>
      match s.pTransfer with
      | none => none
      | some pData =>
        if pData.m_responseCode ≥ 400 then
          some (HStep.ret FZ_REPLY_ERROR (ResetOperation s FZ_REPLY_ERROR).2)
        else if pData.m_responseCode = 305 then
          some (HStep.ret FZ_REPLY_ERROR (ResetOperation (s.LogMessage Msg.Unsupported_redirect) FZ_REPLY_ERROR).2)
        else some (HStep.next s)

/-- The redirect at the end of the header: `if (pData->m_responseCode >= 300)`. -/
def ParseHeader_redirect (env : Env) (s : CHttpControlSocket) (pData : CHttpFileTransferOpData) :
    Option HStep :=
  let count := pData.m_redirectionCount
  let pData := { pData with m_redirectionCount := wrap32 (count + 1) }
  let s := { s with pTransfer := some pData }
  if count = 6 then
    some (HStep.ret FZ_REPLY_ERROR (ResetOperation (s.LogMessage Msg.Too_many_redirects) FZ_REPLY_ERROR).2)
  else
    let s := ResetSocket s
    let pData := ResetHttpData pData
    let s := { s with pTransfer := some pData }
    if pData.m_newLocation.scheme_ = [] ∨ pData.m_newLocation.host_ = [] ∨
        env.uri_is_absolute pData.m_newLocation = false then
      some (HStep.ret FZ_REPLY_ERROR
        (ResetOperation (s.LogMessage Msg.Redirection_to_invalid_or_unsupported_URI) FZ_REPLY_ERROR).2)
    else
      let protocol := env.GetProtocolFromPrefix pData.m_newLocation.scheme_
      if protocol ≠ ServerProtocol.HTTP ∧ protocol ≠ ServerProtocol.HTTPS then
        some (HStep.ret FZ_REPLY_ERROR
          (ResetOperation (s.LogMessage Msg.Redirection_to_invalid_or_unsupported_address) FZ_REPLY_ERROR).2)
      else
        let port := if pData.m_newLocation.port_ ≠ 0 then pData.m_newLocation.port_
                    else env.GetDefaultPort protocol
        let s := { s with m_current_uri := pData.m_newLocation }
        let host := env.to_wstring_from_utf8 s.m_current_uri.host_
        if host = [] then
          some (HStep.ret FZ_REPLY_ERROR (ResetOperation (s.LogMessage Msg.Invalid_hostname) FZ_REPLY_ERROR).2)
        else
          match InternalConnect env s host port (decide (protocol = ServerProtocol.HTTPS)) with
          | none => none
          | some (res, s) =>
            some (HStep.ret (if res = FZ_REPLY_WOULDBLOCK then FZ_REPLY_WOULDBLOCK_REDIRECTED else res) s)

/-- The end of the branch `if (!i)`, after `m_recvBufferPos -= 2`: the bytes that follow the
blank line go to the chunk decoder or to the output sink. -/
def ParseHeader_body (env : Env) (s : CHttpControlSocket) (pData : CHttpFileTransferOpData) :
    Option HStep :=
  if s.m_pRecvBuffer.length ≠ 0 then
    if pData.m_transferEncoding = transferEncodings.chunked then
      match OnChunkedData env s with
      | none => none
      | some (res, s) => some (HStep.ret res s)
    else
      let s := { s with pTransfer := some { pData with
                  m_receivedData := wrap64 (pData.m_receivedData + (s.m_pRecvBuffer.length : Int)) } }
      match ProcessData env s (some s.m_pRecvBuffer) with
      | none => none
      | some (res, s) => some (HStep.ret res { s with m_pRecvBuffer := [] })
  else some (HStep.ret FZ_REPLY_WOULDBLOCK s)

/-- The branch `if (!i)` of `ParseHeader`: end of header, data from now on. -/
def ParseHeader_end (env : Env) (s : CHttpControlSocket) (pData : CHttpFileTransferOpData) :
    Option HStep :=
  if pData.m_responseCode ≥ 300 then ParseHeader_redirect env s pData
  else
    -- `pData->m_pOpData` is the transfer operation itself
    let afterResume : Option (Option Reply × CHttpControlSocket) :=
      if pData.resume = true ∧ pData.m_responseCode ≠ 206 then
        match OpenFile env { s with pTransfer := some { pData with resume := false } } with
        | none => none
        | some (res, s) => if res ≠ FZ_REPLY_OK then some (some res, s) else some (none, s)
      else some (none, s)
    match afterResume with
    | none => none
    | some (some res, s) => some (HStep.ret res s)
    | some (none, s) =>
      match s.pTransfer with
      | none => none
      | some pData =>
        let pData := { pData with m_gotHeader := true }
        let s := { s with pTransfer := some pData, m_pRecvBuffer := s.m_pRecvBuffer.drop 2 }
        ParseHeader_body env s pData

/-- The loop `while (*p)` over the digits of `Content-Length`; `none` is the branch
`Invalid Content-Length`. -/
def parseContentLength : List Nat → Int → Option Int
  | [], total => some total
  | c :: p, total =>
    if c = 0 then some total
    else if c < 48 ∨ c > 57 then none
    else parseContentLength p (wrap64 (total * 10 + (c : Int) - 48))

/-- The header fields `ParseHeader` recognises. `buf` is the receive buffer after
`m_pRecvBuffer[i] = 0`. -/
def ParseHeader_field (env : Env) (s : CHttpControlSocket) (pData : CHttpFileTransferOpData)
    (buf : List Nat) (i : Nat) : Option HStep :=
  if buf.length > 12 ∧ buf.take 10 = str "Location: " then
    let loc := env.uri_parse (cstr (buf.drop 10))
    let loc := if env.uri_empty loc = false then env.uri_resolve loc s.m_current_uri else loc
    some (HStep.next { s with pTransfer := some { pData with m_newLocation := loc } })
  else if buf.length > 21 ∧ buf.take 19 = str "Transfer-Encoding: " then
    let enc :=
      if cstr (buf.drop 19) = str "chunked" then transferEncodings.chunked
      else if cstr (buf.drop 19) = str "identity" then transferEncodings.identity
      else transferEncodings.unknown
    some (HStep.next { s with pTransfer := some { pData with m_transferEncoding := enc } })
  else if i > 16 ∧ buf.take 16 = str "Content-Length: " then
    match parseContentLength (buf.drop 16) 0 with
    | none =>
      some (HStep.ret FZ_REPLY_ERROR
        (ResetOperation ({ s with pTransfer := some { pData with m_totalSize := 0 } }.LogMessage
          Msg.Invalid_Content_Length) FZ_REPLY_ERROR).2)
    | some total => some (HStep.next { s with pTransfer := some { pData with m_totalSize := total } })
  else some (HStep.next s)

/-- The handling of the line that ends at `i`, between `m_pRecvBuffer[i] = 0` and the
removal of the line. -/
def ParseHeader_line (env : Env) (s : CHttpControlSocket) (pData : CHttpFileTransferOpData)
    (i : Nat) : Option HStep :=
  let buf := s.m_pRecvBuffer.set i 0
  if pData.m_responseCode = -1 then ParseHeader_status env s pData buf
  else if i = 0 then ParseHeader_end env s pData
  else ParseHeader_field env s pData buf i

/-- The loop `for (;;)` of `ParseHeader`, with fuel. -/
def ParseHeader_loop (env : Env) : Nat → CHttpControlSocket → Option (Reply × CHttpControlSocket)
  | 0, _ => none
  | fuel + 1, s =>
    match s.pTransfer with
    | none => none
    | some pData =>
      match findLineEnding s.m_pRecvBuffer with
      | LineEnding.malformed =>
        some (FZ_REPLY_ERROR, (ResetOperation (s.LogMessage Msg.Malformed_reply_line_endings) FZ_REPLY_ERROR).2)
      | LineEnding.incomplete =>
        if s.m_pRecvBuffer.length = m_recvBufferLen then
          some (FZ_REPLY_ERROR, (ResetOperation (s.LogMessage Msg.Too_long_header_line) FZ_REPLY_ERROR).2)
        else some (FZ_REPLY_WOULDBLOCK, s)
      | LineEnding.found i =>
        match ParseHeader_line env s pData i with
        | none => none
        | some (HStep.ret res s) => some (res, s)
        | some (HStep.next s) =>
          let s := { s with m_pRecvBuffer := s.m_pRecvBuffer.drop (i + 2) }
          if s.m_pRecvBuffer.length = 0 then some (FZ_REPLY_WOULDBLOCK, s)
          else ParseHeader_loop env fuel s

/-- `CHttpControlSocket::ParseHeader`, for the transfer operation of the socket. Every
pass that continues removes a line of at least two bytes, so `m_recvBufferPos + 1` passes
always suffice. -/
def ParseHeader (env : Env) (s : CHttpControlSocket) : Option (Reply × CHttpControlSocket) :=
  ParseHeader_loop env (s.m_pRecvBuffer.length + 1) s

/-! ## Request sender -/

/-- The command `FileTransferSend` builds for the request. -/
def requestCommand (env : Env) (m_current_uri : uri) (resume : Bool) (localFileSize : Int) :
    List Nat :=
  let action := str "GET " ++ env.uri_get_request m_current_uri ++ str " HTTP/1.1"
  let host := env.uri_get_authority m_current_uri
  let command := action ++ str "\r\nHost: " ++ host ++ str "\r\nUser-Agent: " ++ env.PACKAGE_STRING ++
    str "\r\nConnection: close\r\n"
  let command := if resume then command ++ (str "Range: bytes=" ++ env.sprintf_d localFileSize ++ str "-\r\n")
                 else command
  command ++ str "\r\n"

/-- `CHttpControlSocket::FileTransferSend`. The current operation is cast to the transfer
operation, so there is no answer when it is a connect operation. -/
def FileTransferSend (env : Env) (s : CHttpControlSocket) : Option (Reply × CHttpControlSocket) :=
  if s.pConnect = none ∧ s.pTransfer = none then
    some (FZ_REPLY_ERROR, (ResetOperation s FZ_REPLY_INTERNALERROR).2)
  else if s.m_current_uri.scheme_ = [] ∨ s.m_current_uri.host_ = [] ∨
      env.uri_is_absolute s.m_current_uri = false then
    some (FZ_REPLY_ERROR, (ResetOperation s FZ_REPLY_INTERNALERROR).2)
  else
    match s.pConnect, s.pTransfer with
    | none, some pData =>
      let prepared : Option (Option Reply × CHttpControlSocket) :=
        if pData.opState = filetransferStates.filetransfer_waitfileexists then
          let s := { s with pTransfer := some { pData with
                      opState := filetransferStates.filetransfer_transfer } }
          match OpenFile env s with
          | none => none
          | some (res, s) =>
            if res ≠ FZ_REPLY_OK then some (some res, s)
            else
              match InternalConnect env s s.currentServer_.host s.currentServer_.port
                  (decide (s.currentServer_.protocol = ServerProtocol.HTTPS)) with
              | none => none
              | some (res, s) => if res ≠ FZ_REPLY_OK then some (some res, s) else some (none, s)
        else some (none, s)
      match prepared with
      | none => none
      | some (some res, s) => some (res, s)
      | some (none, s) =>
        match s.pTransfer with
        | none => none
        | some pData =>
          let command := requestCommand env s.m_current_uri pData.resume pData.localFileSize
          let ok := env.Send s.trace command
          let s := s.emit (Event.Send command)
          if !ok then some (FZ_REPLY_ERROR, s) else some (FZ_REPLY_WOULDBLOCK, s)
    | _, _ => none

/-- `CHttpControlSocket::FileTransferSubcommandResult`. -/
def FileTransferSubcommandResult (env : Env) (s : CHttpControlSocket) (prevResult : Reply) :
    Option (Reply × CHttpControlSocket) :=
  if s.pConnect = none ∧ s.pTransfer = none then
    some (FZ_REPLY_ERROR, (ResetOperation s FZ_REPLY_INTERNALERROR).2)
  else if prevResult ≠ FZ_REPLY_OK then
    some (FZ_REPLY_ERROR, (ResetOperation s prevResult).2)
  else FileTransferSend env s

/-- `CHttpControlSocket::ParseSubcommandResult`. -/
def ParseSubcommandResult (env : Env) (s : CHttpControlSocket) (prevResult : Reply) :
    Option (Reply × CHttpControlSocket) :=
  match s.pConnect, s.pTransfer with
  | none, none => some (FZ_REPLY_ERROR, (ResetOperation s FZ_REPLY_ERROR).2)
  | none, some _ => FileTransferSubcommandResult env s prevResult
  | some _, _ => some (FZ_REPLY_ERROR, (ResetOperation s FZ_REPLY_INTERNALERROR).2)

/-- `CHttpControlSocket::SendNextCommand`. -/
def SendNextCommand (env : Env) (s : CHttpControlSocket) : Option (Reply × CHttpControlSocket) :=
  match s.pConnect, s.pTransfer with
  | none, none => some (FZ_REPLY_ERROR, (ResetOperation s FZ_REPLY_ERROR).2)
  | none, some pData =>
    if pData.waitForAsyncRequest then some (FZ_REPLY_WOULDBLOCK, s)
    else FileTransferSend env s
  | some pData, _ =>
    if pData.waitForAsyncRequest then some (FZ_REPLY_WOULDBLOCK, s)
    else some (FZ_REPLY_ERROR, (ResetOperation s FZ_REPLY_INTERNALERROR).2)

/-- The request identifiers that `SetAsyncRequestReply` tells apart; `reqId_other` stands for
every other identifier. -/
inductive RequestId
  | reqId_fileexists
  | reqId_certificate
  | reqId_other
deriving DecidableEq, Repr

/-- `CAsyncRequestNotification`: the request identifier and, for a certificate
notification, `m_trusted`. -/
structure CAsyncRequestNotification where
  requestID : RequestId
  m_trusted : Bool := false
deriving DecidableEq, Repr

/-- `CHttpControlSocket::SetAsyncRequestReply`. `SetFileExistsAction` belongs to the base
class and is a parameter. The TLS layer is not part of the socket record: `verifycert` is
`none` when `m_pTlsSocket` is null, and otherwise tells whether the state of the TLS socket
is `verifycert`. -/
def SetAsyncRequestReply
    (SetFileExistsAction : CHttpControlSocket → CAsyncRequestNotification → Bool × CHttpControlSocket)
    (verifycert : Option Bool) (s : CHttpControlSocket)
    (pNotification : CAsyncRequestNotification) : Bool × CHttpControlSocket :=
  -- `if (m_pCurOpData)`: `none` is the branch `Not waiting for request reply`
  let entry : Option CHttpControlSocket :=
    match s.pConnect, s.pTransfer with
    | some pData, _ =>
      if !pData.waitForAsyncRequest then none
      else some { s with pConnect := some { pData with waitForAsyncRequest := false } }
    | none, some pData =>
      if !pData.waitForAsyncRequest then none
      else some { s with pTransfer := some { pData with waitForAsyncRequest := false } }
    | none, none => some s
  match entry with
  | none => (false, s)
  | some s =>
    match pNotification.requestID with
    | RequestId.reqId_fileexists =>
      match s.pConnect, s.pTransfer with
      | none, some _ => SetFileExistsAction s pNotification
      | _, _ => (false, s)
    | RequestId.reqId_certificate =>
      if verifycert ≠ some true then (false, s)
      else (true, s.emit (Event.TrustCurrentCert pNotification.m_trusted))
    | RequestId.reqId_other => (false, (ResetOperation s FZ_REPLY_INTERNALERROR).2)

/-- Modelled from the spec: the end of a connect operation. `OnConnect` finishes the
connect operation with `ResetOperation(FZ_REPLY_OK)`; the base class, whose file is not
part of the sources, then resumes the operation underneath ("this subtask must finish
before resuming the parent") by handing it the result through `ParseSubcommandResult`. -/
def connectionEstablished (env : Env) (s : CHttpControlSocket) : Option (Reply × CHttpControlSocket) :=
  ParseSubcommandResult env (ResetOperation s FZ_REPLY_OK).2 FZ_REPLY_OK

/-! ## Receiving and closing -/

/-- What `m_pBackend->Read` returned: `-1` with an error number that is `EAGAIN` or not, or
the bytes read (none at the end of the stream). -/
inductive ReadResult
  | failed (eagain : Bool)
  | bytes (data : List Nat)
deriving DecidableEq, Repr

/-- One pass through the body of the loop of `DoReceive`. The result is the value returned
(`return 0` is `FZ_REPLY_OK`), or `none` when the loop goes on. `Read` is given
`m_recvBufferLen - m_recvBufferPos` bytes of space and cannot return more. -/
def DoReceive_iter (env : Env) (s : CHttpControlSocket) (r : ReadResult) :
    Option (Option Reply × CHttpControlSocket) :=
  match r with
  | ReadResult.failed eagain =>
    if !eagain then some (some FZ_REPLY_OK, (ResetOperation s FZ_REPLY_ERROR_DISCONNECTED).2)
    else some (some FZ_REPLY_OK, s)
  | ReadResult.bytes data =>
    if m_recvBufferLen - s.m_pRecvBuffer.length < data.length then none
    else
      match s.pConnect, s.pTransfer with
      | none, some pData =>
        let read := data.length
        let s := { s with m_pRecvBuffer := s.m_pRecvBuffer ++ data }
        if pData.m_gotHeader = false then
          if read = 0 then some (some FZ_REPLY_OK, (ResetOperation s FZ_REPLY_ERROR_DISCONNECTED).2)
          else
            match ParseHeader env s with
            | none => none
            | some (res, s) =>
              -- `(res & FZ_REPLY_REDIRECTED) == FZ_REPLY_REDIRECTED`
              if res = FZ_REPLY_REDIRECTED ∨ res = FZ_REPLY_WOULDBLOCK_REDIRECTED then
                some (some FZ_REPLY_REDIRECTED, s)
              else if res ≠ FZ_REPLY_WOULDBLOCK then some (some FZ_REPLY_OK, s)
              else some (none, s)
        else if pData.m_transferEncoding = transferEncodings.chunked then
          if read = 0 then some (some FZ_REPLY_OK, (ResetOperation s FZ_REPLY_ERROR_DISCONNECTED).2)
          else
            match OnChunkedData env s with
            | none => none
            | some (_, s) => some (none, s)
        else
          if read = 0 then
            match ProcessData env s none with
            | none => none
            | some (_, s) => some (some FZ_REPLY_OK, s)
          else
            let s := { s with pTransfer := some { pData with
                        m_receivedData := wrap64 (pData.m_receivedData + (s.m_pRecvBuffer.length : Int)) } }
            match ProcessData env s (some s.m_pRecvBuffer) with
            | none => none
            | some (_, s) => some (none, { s with m_pRecvBuffer := [] })
      | _, _ =>
        -- no operation, or a connect operation: just ignore all further data
        some (some FZ_REPLY_OK, { s with m_pRecvBuffer := [] })

/-- `CHttpControlSocket::DoReceive`, given the results of the successive calls of `Read`;
when they are used up the next `Read` has nothing to deliver (`EAGAIN`). -/
def DoReceive (env : Env) : CHttpControlSocket → List ReadResult → Option (Reply × CHttpControlSocket)
  | s, [] => some (FZ_REPLY_OK, s)
  | s, r :: rs =>
    match DoReceive_iter env s r with
    | none => none
    | some (some res, s) => some (res, s)
    | some (none, s) => DoReceive env s rs

/-- `CHttpControlSocket::OnReceive` for a socket that delivers `data` in one `Read`. -/
def OnReceive (env : Env) (s : CHttpControlSocket) (data : List Nat) : Option CHttpControlSocket :=
  (DoReceive env s [ReadResult.bytes data]).map Prod.snd

/-- The socket is fed a response as a sequence of reads, one `OnReceive` each. -/
def feed (env : Env) : CHttpControlSocket → List (List Nat) → Option CHttpControlSocket
  | s, [] => some s
  | s, data :: reads =>
    match OnReceive env s data with
    | none => none
    | some s => feed env s reads

/-- The socket reads a byte stream: the `k`-th element of `sizes` is the number of bytes the
network has ready for the `k`-th `Read`, which takes what fits into the buffer. -/
def feedStream (env : Env) : List Nat → List Nat → CHttpControlSocket → Option CHttpControlSocket
  | [], _, s => some s
  | n :: sizes, stream, s =>
    let k := min n (m_recvBufferLen - s.m_pRecvBuffer.length)
    match OnReceive env s (stream.take k) with
    | none => none
    | some s => feedStream env sizes (stream.drop k) s

/-- `CHttpControlSocket::OnClose`. With a connect operation and nothing underneath,
`m_pHttpOpData` is null and there is no answer. -/
def OnClose (env : Env) (s : CHttpControlSocket) (error : Int) : Option CHttpControlSocket :=
  if error ≠ 0 then some (ResetOperation s FZ_REPLY_ERROR_DISCONNECTED).2
  else
    match s.pConnect, s.pTransfer with
    | none, none => some s
    | some _, some _ => some (ResetOperation s FZ_REPLY_ERROR_DISCONNECTED).2
    | some _, none => none
    | none, some pData =>
      if pData.m_gotHeader = false then some (ResetOperation s FZ_REPLY_ERROR_DISCONNECTED).2
      else if pData.m_transferEncoding = transferEncodings.chunked then
        if pData.m_chunkData.getTrailer = false then some (ResetOperation s FZ_REPLY_ERROR_DISCONNECTED).2
        else (ProcessData env s none).map Prod.snd
      else
        if pData.m_totalSize ≠ -1 ∧ pData.m_receivedData ≠ pData.m_totalSize then
          some (ResetOperation s FZ_REPLY_ERROR_DISCONNECTED).2
        else (ProcessData env s none).map Prod.snd

/-! ## A concrete environment -/

/-- Decimal digits of an integer, for `exampleEnv`. -/
def decimal (n : Int) : List Nat :=
  if n < 0 then 45 :: (Nat.toDigits 10 (-n).toNat).map Char.toNat
  else (Nat.toDigits 10 n.toNat).map Char.toNat

/-- A small URI reader for `exampleEnv`: `scheme://host/path`. -/
def exampleUri (b : List Nat) : uri :=
  { scheme_ := b.takeWhile (fun c => c != 58)
    host_ := ((b.dropWhile (fun c => c != 58)).drop 3).takeWhile (fun c => c != 47)
    rest_ := ((b.dropWhile (fun c => c != 58)).drop 3).dropWhile (fun c => c != 47) }

/-- An environment in which every file operation and every `Send` succeeds and every
connection attempt is in progress; it is used to run the embedding on concrete inputs. -/
def exampleEnv : Env where
  uri_parse := exampleUri
  uri_resolve := fun a _ => a
  uri_empty := fun a => a.scheme_ = [] && a.host_ = [] && a.rest_ = []
  uri_is_absolute := fun a => a.rest_.head? = some 47
  uri_get_request := fun a => a.rest_
  uri_get_authority := fun a => a.host_
  GetProtocolFromPrefix := fun sch =>
    if sch = str "http" then ServerProtocol.HTTP
    else if sch = str "https" then ServerProtocol.HTTPS
    else ServerProtocol.UNKNOWN
  GetDefaultPort := fun p => match p with
    | ServerProtocol.HTTPS => 443
    | _ => 80
  to_wstring_from_utf8 := id
  ConvertDomainName := id
  PACKAGE_STRING := str "FileZilla"
  sprintf_d := decimal
  file_open := fun _ _ _ => true
  file_seek_end := fun _ => 0
  get_size := fun _ _ => 0
  file_write := fun _ _ => true
  socket_Connect := fun _ _ _ => ConnectResult.EINPROGRESS
  Send := fun _ _ => true

/-- A socket whose transfer operation has just sent the request for `http://host/file` and
delivers the payload as data events (no local file). -/
def exampleSocket : CHttpControlSocket :=
  { m_current_uri := exampleUri (str "http://host/file")
    currentServer_ := { host := str "host", port := 80 }
    pTransfer := some { opState := filetransferStates.filetransfer_transfer } }

/-- The arguments of the calls of `ProcessData` in a trace. -/
def processDataCalls : List Event → List (Option (List Nat))
  | [] => []
  | Event.ProcessData p :: es => p :: processDataCalls es
  | _ :: es => processDataCalls es

/-- A response with `Content-Length: 100` and the first `n` bytes of its body. -/
def contentLength100 (n : Nat) : List Nat :=
  str "HTTP/1.1 200 OK\r\nContent-Length: 100\r\n\r\n" ++ List.replicate n 120

/-- The state of `exampleSocket` after it received `contentLength100 n` in one read. -/
def receivedBody (n : Nat) : CHttpControlSocket :=
  { exampleSocket with
    pTransfer := some
      { opState := filetransferStates.filetransfer_transfer
        m_gotHeader := true
        m_responseCode := 200
        m_responseString := str "HTTP/1.1 200 OK"
        m_totalSize := 100
        m_receivedData := n }
    trace := [Event.ProcessData (some (List.replicate n 120))] }

/-- The state of `exampleSocket` after the header of a chunked response, with the given
state of the chunk decoder and the given trace. -/
def chunkedBody (cd : t_chunkData) (received : Int) (tr : List Event) : CHttpControlSocket :=
  { exampleSocket with
    pTransfer := some
      { opState := filetransferStates.filetransfer_transfer
        m_gotHeader := true
        m_responseCode := 200
        m_responseString := str "HTTP/1.1 200 OK"
        m_transferEncoding := transferEncodings.chunked
        m_receivedData := received
        m_chunkData := cd }
    trace := tr }

/-- The request as the specification words it: `GET <request-target> HTTP/1.1`, `Host`,
`User-Agent`, `Connection: close`, optionally `Range: bytes=<offset>-`, and a blank line. -/
def wireRequest (target host product : List Nat) (range : Option (List Nat)) : List Nat :=
  str "GET " ++ target ++ str " HTTP/1.1\r\nHost: " ++ host ++ str "\r\nUser-Agent: " ++ product ++
    str "\r\nConnection: close\r\n" ++
    (match range with
     | some offset => str "Range: bytes=" ++ offset ++ str "-\r\n"
     | none => []) ++
    str "\r\n"

/-- A socket whose transfer operation resumes the local file `file` at offset 50. -/
def resumeSocket : CHttpControlSocket :=
  { exampleSocket with
    pTransfer := some
      { opState := filetransferStates.filetransfer_transfer
        localFile := str "file"
        localFileSize := 50
        resume := true
        file_opened := true } }

/-- One round of a redirect chain: the response arrives in one read, and the connection
that `ParseHeader` started for the new target is established. -/
def redirectRound (env : Env) (s : CHttpControlSocket) (response : List Nat) :
    Option CHttpControlSocket :=
  (OnReceive env s response).bind (fun s1 => (connectionEstablished env s1).map Prod.snd)

/-- A redirect to `https://other/next`. -/
def redirectResponse : List Nat :=
  str "HTTP/1.1 302 Found\r\nLocation: https://other/next\r\n\r\n"

/-- The bytes of a sequence of header lines, each followed by CRLF. -/
def headerLines : List (List Nat) → List Nat
  | [] => []
  | h :: hs => h ++ 13 :: 10 :: headerLines hs

/-- Operation data that differ from `d` at most in the transfer encoding and the declared
total size, the two fields a header line other than `Location` can set. -/
def withBody (d : CHttpFileTransferOpData) (e : transferEncodings) (t : Int) :
    CHttpFileTransferOpData :=
  { d with m_transferEncoding := e, m_totalSize := t }

/-- The port `ParseHeader` connects to for the redirect target `u`: the explicit port of
the target, else the default port of its scheme. -/
def targetPort (env : Env) (u : uri) : Nat :=
  if u.port_ ≠ 0 then u.port_ else env.GetDefaultPort (env.GetProtocolFromPrefix u.scheme_)

/-- The socket `resumeSocket` after `count` redirects, with `buffer` received. -/
def resumeSocketWith (count : Int) (buffer : List Nat) : CHttpControlSocket :=
  { resumeSocket with
    m_pRecvBuffer := buffer
    pTransfer := some
      { opState := filetransferStates.filetransfer_transfer
        localFile := str "file"
        localFileSize := 50
        resume := true
        file_opened := true
        m_redirectionCount := count } }

/-! ## Chunked encoding, as the specification describes it -/

/-- The character of the hexadecimal digit `d` (lower case). -/
def hexDigit (d : Nat) : Nat := if d < 10 then 48 + d else 87 + d

def hexSizeAux : Nat → Nat → List Nat → List Nat
  | 0, _, acc => acc
  | fuel + 1, n, acc =>
    if n < 16 then hexDigit n :: acc
    else hexSizeAux fuel (n / 16) (hexDigit (n % 16) :: acc)

/-- The chunk size `n` in hexadecimal digits, without leading zeros (sixteen digits cover
every 64-bit size). -/
def hexSize (n : Nat) : List Nat := hexSizeAux 16 n []

/-- The chunked encoding of a sequence of chunks: `<hex size>` CRLF `<data>` CRLF for each
chunk, then the zero-size chunk `0` CRLF and an empty trailer ended by CRLF. -/
def encodeChunks : List (List Nat) → List Nat
  | [] => [48, 13, 10, 13, 10]
  | c :: cs => hexSize c.length ++ 13 :: 10 :: (c ++ 13 :: 10 :: encodeChunks cs)

/-- The chunks are of positive size, and of a size a 64-bit machine can hold. -/
def GoodChunks (cs : List (List Nat)) : Prop := ∀ c ∈ cs, c ≠ [] ∧ c.length < 2 ^ 63

instance (cs : List (List Nat)) : Decidable (GoodChunks cs) := by
  unfold GoodChunks
  infer_instance

/-- The chunk decoder in state `cd` expects the bytes `R`, which carry the payload `out`:
it is before a chunk-size line, inside the data of a chunk, before the CRLF that ends a
chunk, or before the blank line that ends the trailer. -/
inductive Expect : t_chunkData → List Nat → List Nat → Prop
  | size (cs : List (List Nat)) (hcs : GoodChunks cs) :
      Expect {} (encodeChunks cs) cs.flatten
  | data (d : List Nat) (cs : List (List Nat)) (hd : d ≠ []) (hlen : d.length < 2 ^ 63)
      (hcs : GoodChunks cs) :
      Expect { size := d.length } (d ++ 13 :: 10 :: encodeChunks cs) (d ++ cs.flatten)
  | term (cs : List (List Nat)) (hcs : GoodChunks cs) :
      Expect { terminateChunk := true } (13 :: 10 :: encodeChunks cs) cs.flatten
  | trailer : Expect { getTrailer := true } [13, 10] []

/-- The events of the slices handed to `ProcessData`. -/
def sliceEvents (slices : List (List Nat)) : List Event :=
  slices.map (fun sl => Event.ProcessData (some sl))

/-- The socket `s0` with the transfer operation `d0` in the middle of a chunked body: the
state of the chunk decoder, the count of received bytes, the slices delivered so far and the
buffered bytes. -/
def chunkState (s0 : CHttpControlSocket) (d0 : CHttpFileTransferOpData) (cd : t_chunkData)
    (received : Int) (slices : List (List Nat)) (buffer : List Nat) : CHttpControlSocket :=
  { s0 with
    m_pRecvBuffer := buffer
    pConnect := none
    pTransfer := some { d0 with m_chunkData := cd, m_receivedData := received }
    trace := s0.trace ++ sliceEvents slices }

/-- The output sink takes every slice: the payload goes to data events, or every write to
the file succeeds. -/
def sinkAccepts (env : Env) (d : CHttpFileTransferOpData) : Prop :=
  d.localFile = [] ∨ ∀ tr data, env.file_write tr data = true

/-- The socket `s0` after the chunked body is complete: the slices and the end marker were
delivered and the operation was reset with `FZ_REPLY_OK`. -/
def doneState (s0 : CHttpControlSocket) (slices : List (List Nat)) : CHttpControlSocket :=
  { s0 with
    m_pRecvBuffer := []
    pConnect := none
    pTransfer := none
    trace := s0.trace ++ sliceEvents slices ++
      [Event.ProcessData none, Event.ResetSocket, Event.ResetOperation FZ_REPLY_OK] }

/-- What the loop of `OnChunkedData` does with the first `k` bytes of the expected bytes
`R` that carry the payload `out`: when these are all of `R` it delivers the rest of the
payload and the end marker; otherwise it delivers a part of the payload and stops in a state
that expects the bytes not consumed yet, at most 17 of them buffered (a chunk-size line of
sixteen digits and a CR). -/
def LoopResult (s0 : CHttpControlSocket) (d0 : CHttpFileTransferOpData) (sl : List (List Nat))
    (buf R out : List Nat) (k : Nat) (res : Option Step) : Prop :=
  (k = R.length ∧ ∃ sl', res = some (Step.ret FZ_REPLY_OK (doneState s0 (sl ++ sl'))) ∧
      sl'.flatten = out) ∨
  (k < R.length ∧ ∃ cd' rcv' sl' R' out' k',
      res = some (Step.brk (chunkState s0 d0 cd' rcv' (sl ++ sl') buf) (R'.take k')) ∧
      Expect cd' R' out' ∧ k' ≤ R'.length ∧ R'.drop k' = R.drop k ∧ k' ≤ 17 ∧
      k' ≤ k ∧ sl'.flatten ++ out' = out)

/-! ## Numbers, as the specification reads them -/

/-- The value of a string of decimal digits that follows the digits of value `n`. -/
def decimalValueFrom (n : Nat) : List Nat → Nat
  | [] => n
  | c :: ds => decimalValueFrom (n * 10 + (c - 48)) ds

/-- The value of a string of decimal digits. -/
def decimalValue (ds : List Nat) : Nat := decimalValueFrom 0 ds

/-- A hexadecimal digit, upper or lower case. -/
def isHexDigit (c : Nat) : Prop :=
  (48 ≤ c ∧ c ≤ 57) ∨ (65 ≤ c ∧ c ≤ 70) ∨ (97 ≤ c ∧ c ≤ 102)

instance (c : Nat) : Decidable (isHexDigit c) := by
  unfold isHexDigit
  infer_instance

/-- The value of a hexadecimal digit. -/
def hexDigitValue (c : Nat) : Nat :=
  if c ≤ 57 then c - 48 else if c ≤ 70 then c - 55 else c - 87

/-- The value of a string of hexadecimal digits that follows the digits of value `n`. -/
def hexValueFrom (n : Nat) : List Nat → Nat
  | [] => n
  | c :: ds => hexValueFrom (n * 16 + hexDigitValue c) ds

/-- The value of a string of hexadecimal digits. -/
def hexValue (ds : List Nat) : Nat := hexValueFrom 0 ds

/-- A character that ends the digits of a chunk-size line: NUL, `;` or a space. -/
def endsChunkSize (c : Nat) : Prop := c = 0 ∨ c = 59 ∨ c = 32

instance (c : Nat) : Decidable (endsChunkSize c) := by
  unfold endsChunkSize
  infer_instance

/-- An environment like `exampleEnv` in which no file can be opened. -/
def noFileEnv : Env := { exampleEnv with file_open := fun _ _ _ => false }

/-- The status codes on which `ParseHeader` fails at the status line: 305, and the codes
from 400 on, except that a 416 that answers a resumed request fails only when the
destination file cannot be opened again. -/
def failsAtStatusLine (env : Env) (s : CHttpControlSocket) (pData : CHttpFileTransferOpData)
    (c : Int) : Prop :=
  c = 305 ∨ (c ≥ 400 ∧ ¬ (c = 416 ∧ pData.resume = true)) ∨
    (c = 416 ∧ pData.resume = true ∧
      env.file_open (s.trace ++ [Event.OpenFile false]) pData.localFile false = false)

instance (env : Env) (s : CHttpControlSocket) (pData : CHttpFileTransferOpData) (c : Int) :
    Decidable (failsAtStatusLine env s pData c) := by
  unfold failsAtStatusLine
  infer_instance

/-- A socket whose transfer operation has asked whether the local file `file` may be
overwritten and is parked until the answer arrives. -/
def parkedSocket : CHttpControlSocket :=
  { exampleSocket with
    pTransfer := some
      { localFile := str "file"
        opState := filetransferStates.filetransfer_waitfileexists
        waitForAsyncRequest := true } }

/-- The remaining chunk size of the transfer operation, when there is one, is a 64-bit
value that is not negative. -/
def SizeOK (s : CHttpControlSocket) : Prop :=
  ∀ d, s.pTransfer = some d → 0 ≤ d.m_chunkData.size ∧ d.m_chunkData.size < 2 ^ 63

/-- Every line of the buffer, read as a chunk-size line from a chunk size of zero, gives a
value that is not negative. -/
def SizeLinesFit (p : List Nat) : Prop :=
  ∀ k i v, findLineEnding (p.drop k) = LineEnding.found i →
    readChunkSize ((p.drop k).set i 0) 0 = some v → 0 ≤ v

/-- What a pass through the loop of `OnChunkedData` over `p` ends with keeps the remaining
chunk size from being negative, and the pass goes on only with fewer bytes. -/
def StepOK (p : List Nat) : Step → Prop
  | Step.ret _ s => SizeOK s
  | Step.brk s _ => SizeOK s
  | Step.next s p' =>
    (∃ d, s.pTransfer = some d) ∧ SizeOK s ∧ (∃ m, p' = p.drop m) ∧ p'.length < p.length

/-- The value of `dataLen` in the first half of the loop body of `OnChunkedData`: `len`, or
the remaining chunk size converted to `unsigned int` when that size is below `len`. -/
def dataLen (size : Int) (len : Nat) : Nat :=
  if size < (len : Int) then (size % 2 ^ 32).toNat else len

/-- The number of payload bytes in the slices handed to `ProcessData` in a trace. -/
def payload : List Event → Int
  | [] => 0
  | Event.ProcessData (some p) :: es => (p.length : Int) + payload es
  | _ :: es => payload es

/-- The received-bytes counter of the transfer operation, when there is one, is `c` plus
the payload bytes of the trace (as a 64-bit value), and it is zero while the header is not
complete. -/
def Counted (c : Int) (s : CHttpControlSocket) : Prop :=
  ∀ d, s.pTransfer = some d →
    d.m_receivedData = wrap64 (c + payload s.trace) ∧
    (d.m_gotHeader = false → d.m_receivedData = 0)

/-- The header of the transfer operation, when there is one, is complete. -/
def InBody (s : CHttpControlSocket) : Prop :=
  ∀ d, s.pTransfer = some d → d.m_gotHeader = true

/-- What a pass through the loop of `OnChunkedData` ends with keeps the counter in step
with the trace. -/
def StepCounted (c : Int) : Step → Prop
  | Step.ret _ s => Counted c s
  | Step.brk s _ => Counted c s
  | Step.next s _ => Counted c s ∧ InBody s

/-- The header of the transfer operation, when there is one, is not complete. -/
def InHeader (s : CHttpControlSocket) : Prop :=
  ∀ d, s.pTransfer = some d → d.m_gotHeader = false

/-- What the handling of a header line ends with keeps the counter in step with the
trace, and parsing goes on in the header. -/
def HStepCounted (c : Int) : HStep → Prop
  | HStep.ret _ s => Counted c s
  | HStep.next s => Counted c s ∧ InHeader s

/-! ## Fragmentation of the reads -/

/-- C1. The response `HTTP/1.1 200 ` CRLF CRLF `hi` is accepted with status code 200 and
its body delivered when it arrives in one read, and rejected as an invalid response when
the status line arrives in a read of its own: the check `m_recvBufferPos < 16` looks at the
number of buffered bytes, not at the length of the line. -/
theorem fragmentation_changes_result :
    (feed exampleEnv exampleSocket [str "HTTP/1.1 200 \r\n\r\nhi"]).map
        (fun s => (s.pTransfer.map (fun d => (d.m_gotHeader, d.m_responseCode)), s.trace))
      = some (some (true, 200), [Event.ProcessData (some (str "hi"))]) ∧
    (feed exampleEnv exampleSocket [str "HTTP/1.1 200 \r\n", str "\r\nhi"]).map
        (fun s => (s.pTransfer.map (fun d => (d.m_gotHeader, d.m_responseCode)), s.trace))
      = some (none, [Event.LogError Msg.Invalid_HTTP_Response, Event.ResetSocket,
          Event.ResetOperation FZ_REPLY_ERROR]) := by
  decide

/-! ## Status line -/

/-- C3. The status line `HTTP/1.1 200 ` (empty reason) followed by CRLF is rejected as an
invalid response when nothing else is buffered, although it has the form
`HTTP/1.<minor> <d1><d2><d3> <reason>`; with one more byte in the buffer the same line gives
status code 200. -/
theorem status_line_with_empty_reason_rejected :
    (ParseHeader exampleEnv { exampleSocket with m_pRecvBuffer := str "HTTP/1.1 200 \r\n" }).map
        (fun r => (r.1, r.2.pTransfer.map (fun d => d.m_responseCode), r.2.trace))
      = some (FZ_REPLY_ERROR, none, [Event.LogError Msg.Invalid_HTTP_Response, Event.ResetSocket,
          Event.ResetOperation FZ_REPLY_ERROR]) ∧
    (ParseHeader exampleEnv { exampleSocket with m_pRecvBuffer := str "HTTP/1.1 200 \r\n\r" }).map
        (fun r => (r.1, r.2.pTransfer.map (fun d => d.m_responseCode), r.2.trace))
      = some (FZ_REPLY_WOULDBLOCK, some 200, []) := by
  decide

/-- C4, counterexample. The first line `HTTP/1.1X200 OK` has no space after the minor
version, yet `ParseHeader` accepts it and sets the status code 200. -/
theorem status_line_without_space_accepted :
    (ParseHeader exampleEnv { exampleSocket with m_pRecvBuffer := str "HTTP/1.1X200 OK\r\n" }).map
        (fun r => (r.1, r.2.pTransfer.map (fun d => d.m_responseCode), r.2.trace))
      = some (FZ_REPLY_WOULDBLOCK, some 200, []) ∧
    (str "HTTP/1.1X200 OK").getD 8 0 ≠ 32 := by
  decide


theorem findLineEnding_append (h rest : List Nat) (hcr : ∀ c ∈ h, c ≠ 13) :
    findLineEnding (h ++ 13 :: 10 :: rest) = LineEnding.found h.length := by
  induction h with
  | nil => simp [findLineEnding]
  | cons c h ih =>
    have hc : c ≠ 13 := hcr c (by simp)
    have ih' := ih (fun d hd => hcr d (by simp [hd]))
    cases h with
    | nil => simp [findLineEnding, hc] at ih' ⊢
    | cons d h => simp [findLineEnding, hc] at ih' ⊢; simp [ih']

theorem findLineEnding_found {buf : List Nat} {i : Nat}
    (h : findLineEnding buf = LineEnding.found i) :
    ∃ line rest, buf = line ++ 13 :: 10 :: rest ∧ line.length = i ∧ ∀ c ∈ line, c ≠ 13 := by
  induction buf generalizing i with
  | nil => simp [findLineEnding] at h
  | cons c buf ih =>
    cases buf with
    | nil => simp [findLineEnding] at h
    | cons d buf =>
      by_cases hc : c = 13
      · by_cases hd : d = 10
        · simp [findLineEnding, hc, hd] at h
          exact ⟨[], buf, by simp [hc, hd], by simp [h], by simp⟩
        · simp [findLineEnding, hc, hd] at h
      · simp only [findLineEnding, hc, if_false] at h
        cases hr : findLineEnding (d :: buf) with
        | malformed => simp [hr] at h
        | incomplete => simp [hr] at h
        | found j =>
          simp [hr] at h
          obtain ⟨line, rest, e, hl, hn⟩ := ih hr
          refine ⟨c :: line, rest, by simp [e], by simp [hl, h], ?_⟩
          intro x hx
          simp at hx
          rcases hx with rfl | hx
          · exact hc
          · exact hn x hx

theorem set_line_end (line rest : List Nat) (b : Nat) :
    (line ++ b :: rest).set line.length 0 = line ++ 0 :: rest := by
  induction line with
  | nil => simp
  | cons c line ih => simp [ih]

/-- A pattern without NUL that matches the start of a buffer whose line was ended with NUL
lies inside the line. -/
theorem take_eq_inside_line (line rest pat : List Nat) (hpat : ∀ c ∈ pat, c ≠ 0)
    (h : (line ++ 0 :: rest).take pat.length = pat) :
    pat.length ≤ line.length ∧ line.take pat.length = pat := by
  by_cases hlt : pat.length ≤ line.length
  · refine ⟨hlt, ?_⟩
    rw [List.take_append_of_le_length hlt] at h
    exact h
  · exfalso
    have hlt' : line.length < pat.length := Nat.lt_of_not_le hlt
    rw [List.take_append_eq_append_take] at h
    obtain ⟨k, hk⟩ : ∃ k, pat.length - line.length = k + 1 := ⟨pat.length - line.length - 1, by omega⟩
    rw [hk, List.take_succ_cons] at h
    have : (0 : Nat) ∈ pat := by
      rw [← h]
      simp
    exact hpat 0 this rfl

theorem str_HTTP_no_zero : ∀ c ∈ str "HTTP/1.", c ≠ 0 := by decide

theorem getD_line (line rest : List Nat) (n : Nat) (h : n < line.length) :
    (line ++ rest).getD n 0 = line.getD n 0 := by
  simp [List.getD_eq_getElem?_getD, List.getElem?_append_left h]

theorem statusCode_error_kind {buf : List Nat} {m : Msg} (h : statusCode buf = Except.error m) :
    m = Msg.Invalid_HTTP_Response ∨ m = Msg.Invalid_response_code := by
  unfold statusCode at h
  split at h
  · left; injection h with h; exact h.symm
  · split at h
    · right; injection h with h; exact h.symm
    · cases h

/-- C4, amended. A first line is either rejected with one of the two invalid-response
errors, or it has at least 7 bytes and starts with `HTTP/1.`; if it has at least 12 bytes,
its bytes at offsets 9, 10 and 11 are decimal digits, the first in 1..5, and the status
code is their value. The bytes at offsets 7 and 8 are not looked at. -/
theorem first_line_checked (env : Env) (s : CHttpControlSocket) (pData : CHttpFileTransferOpData)
    (i : Nat) (hcode : pData.m_responseCode = -1)
    (hi : findLineEnding s.m_pRecvBuffer = LineEnding.found i) :
    (∃ m, (m = Msg.Invalid_HTTP_Response ∨ m = Msg.Invalid_response_code) ∧
        ParseHeader_line env s pData i = some (HStep.ret FZ_REPLY_ERROR
          (ResetOperation (CHttpControlSocket.LogMessage
            { s with pTransfer := some { pData with
                m_responseString := cstr (s.m_pRecvBuffer.set i 0) } } m) FZ_REPLY_ERROR).2)) ∨
    (7 ≤ i ∧ (s.m_pRecvBuffer.take i).take 7 = str "HTTP/1." ∧
      (12 ≤ i → ∃ d1 d2 d3 : Nat, 1 ≤ d1 ∧ d1 ≤ 5 ∧ d2 ≤ 9 ∧ d3 ≤ 9 ∧
        (s.m_pRecvBuffer.take i).getD 9 0 = 48 + d1 ∧
        (s.m_pRecvBuffer.take i).getD 10 0 = 48 + d2 ∧
        (s.m_pRecvBuffer.take i).getD 11 0 = 48 + d3 ∧
        statusCode (s.m_pRecvBuffer.set i 0) = Except.ok ((100 * d1 + 10 * d2 + d3 : Nat) : Int))) := by
  cases hsc : statusCode (s.m_pRecvBuffer.set i 0) with
  | error m =>
    left
    refine ⟨m, statusCode_error_kind hsc, ?_⟩
    simp [ParseHeader_line, hcode, ParseHeader_status, hsc]
  | ok code =>
    right
    obtain ⟨line, rest, e, hl, _⟩ := findLineEnding_found hi
    subst hl
    rw [e, set_line_end] at hsc
    rw [e, List.take_left]
    unfold statusCode at hsc
    split at hsc
    · cases hsc
    · rename_i h1
      simp only [not_or, not_lt, ne_eq, not_not] at h1
      have hp := take_eq_inside_line line (10 :: rest) (str "HTTP/1.") str_HTTP_no_zero h1.2
      have hlen7 : (str "HTTP/1.").length = 7 := by decide
      rw [hlen7] at hp
      refine ⟨hp.1, hp.2, ?_⟩
      intro h12
      split at hsc
      · cases hsc
      · rename_i h2
        simp only [not_or, not_lt] at h2
        rw [getD_line line _ 9 (by omega), getD_line line _ 10 (by omega),
          getD_line line _ 11 (by omega)] at h2
        injection hsc with hsc
        rw [getD_line line _ 9 (by omega), getD_line line _ 10 (by omega),
          getD_line line _ 11 (by omega)] at hsc
        refine ⟨line.getD 9 0 - 48, line.getD 10 0 - 48, line.getD 11 0 - 48,
          by omega, by omega, by omega, by omega, by omega, by omega, by omega, ?_⟩
        congr 1
        omega

/-- Instance of `first_line_checked`: the line `HTTP/1.1X200 OK` is not rejected. -/
theorem first_line_checked_witness :
    findLineEnding (str "HTTP/1.1X200 OK\r\n") = LineEnding.found 15 ∧
    (7 ≤ 15 ∧ ((str "HTTP/1.1X200 OK\r\n").take 15).take 7 = str "HTTP/1." ∧
      (12 ≤ 15 → ∃ d1 d2 d3 : Nat, 1 ≤ d1 ∧ d1 ≤ 5 ∧ d2 ≤ 9 ∧ d3 ≤ 9 ∧
        ((str "HTTP/1.1X200 OK\r\n").take 15).getD 9 0 = 48 + d1 ∧
        ((str "HTTP/1.1X200 OK\r\n").take 15).getD 10 0 = 48 + d2 ∧
        ((str "HTTP/1.1X200 OK\r\n").take 15).getD 11 0 = 48 + d3 ∧
        statusCode ((str "HTTP/1.1X200 OK\r\n").set 15 0) = Except.ok ((100 * d1 + 10 * d2 + d3 : Nat) : Int))) := by
  refine ⟨by decide, ?_⟩
  have h := first_line_checked exampleEnv
    { exampleSocket with m_pRecvBuffer := str "HTTP/1.1X200 OK\r\n" } {} 15 rfl (by decide)
  have hn : (match ParseHeader_line exampleEnv
      { exampleSocket with m_pRecvBuffer := str "HTTP/1.1X200 OK\r\n" } {} 15 with
      | some (HStep.next _) => true
      | _ => false) = true := by decide
  rcases h with ⟨m, _, hm⟩ | h
  · rw [hm] at hn
    cases hn
  · exact h

/-! ## Closing -/

/-- C6. For a non-chunked response whose header is complete, a clean close on the
top-level transfer operation delivers the end marker and resolves the operation with
`FZ_REPLY_OK` if and only if no total size was declared or the received byte count equals
it; otherwise the operation is reset with the disconnect error. -/
theorem OnClose_identity (env : Env) (s : CHttpControlSocket) (pData : CHttpFileTransferOpData)
    (hC : s.pConnect = none) (hT : s.pTransfer = some pData)
    (hH : pData.m_gotHeader = true)
    (hE : pData.m_transferEncoding ≠ transferEncodings.chunked) :
    (OnClose env s 0).map (fun s' => (s'.pTransfer, s'.trace)) =
      some (none, s.trace ++
        (if pData.m_totalSize = -1 ∨ pData.m_receivedData = pData.m_totalSize then
          [Event.ProcessData none, Event.ResetSocket, Event.ResetOperation FZ_REPLY_OK]
        else [Event.ResetSocket, Event.ResetOperation FZ_REPLY_ERROR_DISCONNECTED])) := by
  by_cases h : pData.m_totalSize = -1 ∨ pData.m_receivedData = pData.m_totalSize
  · have h' : ¬ (pData.m_totalSize ≠ -1 ∧ pData.m_receivedData ≠ pData.m_totalSize) := by
      rcases h with h | h <;> simp [h]
    simp [OnClose, hC, hT, hH, hE, h, h', ProcessData, FileTransferParseResponse, ResetOperation,
      CControlSocket_ResetOperation, ResetSocket, CHttpControlSocket.emit]
  · have h' : pData.m_totalSize ≠ -1 ∧ pData.m_receivedData ≠ pData.m_totalSize := by
      simp only [not_or] at h
      exact h
    simp [OnClose, hC, hT, hH, hE, h, h', ResetOperation,
      CControlSocket_ResetOperation, ResetSocket]

set_option maxRecDepth 100000 in
/-- Instance of `OnClose_identity`: with `Content-Length: 100`, closing after 50 body bytes
fails with the disconnect error and closing after the 100th byte succeeds. -/
theorem OnClose_identity_witness :
    feed exampleEnv exampleSocket [contentLength100 50] = some (receivedBody 50) ∧
    (OnClose exampleEnv (receivedBody 50) 0).map (fun s' => (s'.pTransfer, s'.trace)) =
      some (none, [Event.ProcessData (some (List.replicate 50 120)), Event.ResetSocket,
        Event.ResetOperation FZ_REPLY_ERROR_DISCONNECTED]) ∧
    feed exampleEnv exampleSocket [contentLength100 100] = some (receivedBody 100) ∧
    (OnClose exampleEnv (receivedBody 100) 0).map (fun s' => (s'.pTransfer, s'.trace)) =
      some (none, [Event.ProcessData (some (List.replicate 100 120)), Event.ProcessData none,
        Event.ResetSocket, Event.ResetOperation FZ_REPLY_OK]) :=
  ⟨by decide,
   OnClose_identity exampleEnv (receivedBody 50) _ rfl rfl rfl (by decide),
   by decide,
   OnClose_identity exampleEnv (receivedBody 100) _ rfl rfl rfl (by decide)⟩

set_option maxRecDepth 100000 in
/-- C7. With `Content-Length: 100` and 50 body bytes received, a zero-length read in
`DoReceive` delivers the end marker and resolves the operation with `FZ_REPLY_OK`, while
`OnClose` in the same state resets it with the disconnect error. -/
theorem zero_length_read_accepts_truncated_body :
    feed exampleEnv exampleSocket [contentLength100 50] = some (receivedBody 50) ∧
    (DoReceive exampleEnv (receivedBody 50) [ReadResult.bytes []]).map
        (fun r => (r.2.pTransfer, r.2.trace)) =
      some (none, [Event.ProcessData (some (List.replicate 50 120)), Event.ProcessData none,
        Event.ResetSocket, Event.ResetOperation FZ_REPLY_OK]) ∧
    (OnClose exampleEnv (receivedBody 50) 0).map (fun s' => (s'.pTransfer, s'.trace)) =
      some (none, [Event.ProcessData (some (List.replicate 50 120)), Event.ResetSocket,
        Event.ResetOperation FZ_REPLY_ERROR_DISCONNECTED]) := by
  decide

/-- C8, counterexample. After the zero-size chunk line has been read and before the blank
line that ends the trailer arrives, a clean close delivers the end marker and resolves the
operation with `FZ_REPLY_OK`. -/
theorem close_before_trailer_end_succeeds :
    feed exampleEnv exampleSocket
        [str "HTTP/1.1 200 OK\r\nTransfer-Encoding: chunked\r\n\r\n5\r\nhello\r\n0\r\n"] =
      some (chunkedBody { getTrailer := true } 5 [Event.ProcessData (some (str "hello"))]) ∧
    (OnClose exampleEnv
        (chunkedBody { getTrailer := true } 5 [Event.ProcessData (some (str "hello"))]) 0).map
        (fun s' => (s'.pTransfer, s'.trace)) =
      some (none, [Event.ProcessData (some (str "hello")), Event.ProcessData none,
        Event.ResetSocket, Event.ResetOperation FZ_REPLY_OK]) := by
  decide

/-- C8, amended. For a chunked response whose header is complete, a clean close on the
top-level transfer operation resets the operation with the disconnect error when no
zero-size chunk line has been read yet (`getTrailer` is false); once the zero-size chunk
line has been read it delivers the end marker and resolves the operation with
`FZ_REPLY_OK`, whether or not the blank line that ends the trailer has been read. -/
theorem OnClose_chunked (env : Env) (s : CHttpControlSocket) (pData : CHttpFileTransferOpData)
    (hC : s.pConnect = none) (hT : s.pTransfer = some pData)
    (hH : pData.m_gotHeader = true)
    (hE : pData.m_transferEncoding = transferEncodings.chunked) :
    (OnClose env s 0).map (fun s' => (s'.pTransfer, s'.trace)) =
      some (none, s.trace ++
        (if pData.m_chunkData.getTrailer = false then
          [Event.ResetSocket, Event.ResetOperation FZ_REPLY_ERROR_DISCONNECTED]
        else [Event.ProcessData none, Event.ResetSocket, Event.ResetOperation FZ_REPLY_OK])) := by
  by_cases h : pData.m_chunkData.getTrailer = false
  · simp [OnClose, hC, hT, hH, hE, h, ResetOperation, CControlSocket_ResetOperation, ResetSocket]
  · simp [OnClose, hC, hT, hH, hE, h, ProcessData, FileTransferParseResponse, ResetOperation,
      CControlSocket_ResetOperation, ResetSocket, CHttpControlSocket.emit]

/-- Instance of `OnClose_chunked`: a close in the middle of a chunk fails, a close after
the zero-size chunk line succeeds. -/
theorem OnClose_chunked_witness :
    feed exampleEnv exampleSocket
        [str "HTTP/1.1 200 OK\r\nTransfer-Encoding: chunked\r\n\r\n5\r\nhel"] =
      some (chunkedBody { size := 2 } 3 [Event.ProcessData (some (str "hel"))]) ∧
    (OnClose exampleEnv (chunkedBody { size := 2 } 3 [Event.ProcessData (some (str "hel"))]) 0).map
        (fun s' => (s'.pTransfer, s'.trace)) =
      some (none, [Event.ProcessData (some (str "hel")), Event.ResetSocket,
        Event.ResetOperation FZ_REPLY_ERROR_DISCONNECTED]) ∧
    (OnClose exampleEnv (chunkedBody { getTrailer := true } 0 []) 0).map
        (fun s' => (s'.pTransfer, s'.trace)) =
      some (none, [Event.ProcessData none, Event.ResetSocket, Event.ResetOperation FZ_REPLY_OK]) :=
  ⟨by decide,
   OnClose_chunked exampleEnv (chunkedBody { size := 2 } 3 [Event.ProcessData (some (str "hel"))])
     _ rfl rfl rfl rfl,
   OnClose_chunked exampleEnv (chunkedBody { getTrailer := true } 0 []) _ rfl rfl rfl rfl⟩

/-! ## Request -/

theorem requestCommand_eq_wireRequest (env : Env) (u : uri) (resume : Bool) (localFileSize : Int) :
    requestCommand env u resume localFileSize =
      wireRequest (env.uri_get_request u) (env.uri_get_authority u) env.PACKAGE_STRING
        (if resume then some (env.sprintf_d localFileSize) else none) := by
  have h : str " HTTP/1.1\r\nHost: " = str " HTTP/1.1" ++ str "\r\nHost: " := by decide
  cases resume <;> simp [requestCommand, wireRequest, h, List.append_assoc]

/-- C10. With a transfer operation as the current operation: when the current URI is
valid, every command `FileTransferSend` passes to `Send` is the wire request of the
specification, with the `Range` line exactly when the resume flag of the operation is set,
and when the operation does not wait for the file-exists answer that command is sent (and
nothing else happens); when the URI is not valid, the operation is reset with an internal
error, `FZ_REPLY_ERROR` is returned and nothing is sent. -/
theorem FileTransferSend_command (env : Env) (s : CHttpControlSocket)
    (pData : CHttpFileTransferOpData) (hC : s.pConnect = none) (hT : s.pTransfer = some pData) :
    ((s.m_current_uri.scheme_ ≠ [] ∧ s.m_current_uri.host_ ≠ [] ∧
        env.uri_is_absolute s.m_current_uri = true) →
      ∃ res s' evs, FileTransferSend env s = some (res, s') ∧ s'.trace = s.trace ++ evs ∧
        s'.m_current_uri = s.m_current_uri ∧
        (∀ c, Event.Send c ∈ evs → ∃ d, s'.pTransfer = some d ∧
          c = wireRequest (env.uri_get_request s.m_current_uri)
                (env.uri_get_authority s.m_current_uri) env.PACKAGE_STRING
                (if d.resume then some (env.sprintf_d d.localFileSize) else none)) ∧
        (pData.opState ≠ filetransferStates.filetransfer_waitfileexists →
          s'.pTransfer = some pData ∧
          evs = [Event.Send (wireRequest (env.uri_get_request s.m_current_uri)
                (env.uri_get_authority s.m_current_uri) env.PACKAGE_STRING
                (if pData.resume then some (env.sprintf_d pData.localFileSize) else none))])) ∧
    (¬ (s.m_current_uri.scheme_ ≠ [] ∧ s.m_current_uri.host_ ≠ [] ∧
        env.uri_is_absolute s.m_current_uri = true) →
      ∃ s', FileTransferSend env s = some (FZ_REPLY_ERROR, s') ∧
        s'.trace = s.trace ++ [Event.ResetSocket, Event.ResetOperation FZ_REPLY_INTERNALERROR]) := by
  constructor
  · rintro ⟨h1, h2, h3⟩
    by_cases hS : pData.opState = filetransferStates.filetransfer_waitfileexists
    · cases hfo : env.file_open (s.trace ++ [Event.OpenFile pData.resume]) pData.localFile pData.resume
      · simp [FileTransferSend, hC, hT, h1, h2, h3, hS, OpenFile, CHttpControlSocket.emit, hfo,
          CHttpControlSocket.LogMessage, ResetOperation, CControlSocket_ResetOperation, ResetSocket]
        refine ⟨_, _, ⟨rfl, rfl⟩, _, rfl, rfl, ?_⟩
        intro c hc
        simp at hc
      · cases hconn : env.socket_Connect (s.trace ++ [Event.OpenFile pData.resume,
            Event.InternalConnect s.currentServer_.host s.currentServer_.port
              (decide (s.currentServer_.protocol = ServerProtocol.HTTPS))])
            (env.ConvertDomainName s.currentServer_.host) s.currentServer_.port
        · cases hsend : env.Send (s.trace ++ [Event.OpenFile pData.resume,
              Event.InternalConnect s.currentServer_.host s.currentServer_.port
                (decide (s.currentServer_.protocol = ServerProtocol.HTTPS))])
              (requestCommand env s.m_current_uri
                (!decide (env.file_seek_end (s.trace ++ [Event.OpenFile pData.resume]) = 0) && pData.resume)
                (env.get_size (s.trace ++ [Event.OpenFile pData.resume]) pData.localFile))
          all_goals
            simp [FileTransferSend, hC, hT, h1, h2, h3, hS, OpenFile, CHttpControlSocket.emit, hfo,
              InternalConnect, DoInternalConnect, hconn, hsend,
              CHttpControlSocket.LogMessage, ResetOperation, CControlSocket_ResetOperation, ResetSocket]
            refine ⟨_, _, ⟨rfl, rfl⟩, _, rfl, rfl, ?_⟩
            intro c hc
            simp at hc
            subst hc
            refine ⟨_, rfl, ?_⟩
            rw [requestCommand_eq_wireRequest]
        all_goals
          simp [FileTransferSend, hC, hT, h1, h2, h3, hS, OpenFile, CHttpControlSocket.emit, hfo,
            InternalConnect, DoInternalConnect, hconn,
            CHttpControlSocket.LogMessage, ResetOperation, CControlSocket_ResetOperation, ResetSocket]
          refine ⟨_, _, ⟨rfl, rfl⟩, _, rfl, rfl, ?_⟩
          intro c hc
          simp at hc
    · by_cases hsend : env.Send s.trace (requestCommand env s.m_current_uri pData.resume pData.localFileSize)
      · refine ⟨FZ_REPLY_WOULDBLOCK, s.emit (Event.Send (requestCommand env s.m_current_uri pData.resume pData.localFileSize)), _, ?_, rfl, rfl, ?_, ?_⟩
        · simp [FileTransferSend, hC, hT, h1, h2, h3, hS, hsend]
        · intro c hc
          simp at hc
          exact ⟨pData, hT, by rw [hc, requestCommand_eq_wireRequest]⟩
        · intro _
          exact ⟨hT, by rw [requestCommand_eq_wireRequest]⟩
      · refine ⟨FZ_REPLY_ERROR, s.emit (Event.Send (requestCommand env s.m_current_uri pData.resume pData.localFileSize)), _, ?_, rfl, rfl, ?_, ?_⟩
        · simp [FileTransferSend, hC, hT, h1, h2, h3, hS, hsend]
        · intro c hc
          simp at hc
          exact ⟨pData, hT, by rw [hc, requestCommand_eq_wireRequest]⟩
        · intro _
          exact ⟨hT, by rw [requestCommand_eq_wireRequest]⟩
  · intro h
    refine ⟨(ResetOperation s FZ_REPLY_INTERNALERROR).2, ?_, ?_⟩
    · have h' : s.m_current_uri.scheme_ = [] ∨ s.m_current_uri.host_ = [] ∨
          env.uri_is_absolute s.m_current_uri = false := by
        by_contra hn
        simp only [not_or] at hn
        exact h ⟨hn.1, hn.2.1, by simpa using hn.2.2⟩
      simp [FileTransferSend, hC, hT, h']
    · simp [ResetOperation, hC, hT, CControlSocket_ResetOperation, ResetSocket]

/-- Instance of `FileTransferSend_command`: the request for `http://host/file` resumed at
offset 50, and a socket without a current URI. -/
theorem FileTransferSend_command_witness :
    (FileTransferSend exampleEnv resumeSocket).map (fun r => r.2.trace) =
      some [Event.Send (str ("GET /file HTTP/1.1\r\nHost: host\r\nUser-Agent: FileZilla\r\n" ++
        "Connection: close\r\nRange: bytes=50-\r\n\r\n"))] ∧
    (FileTransferSend exampleEnv { exampleSocket with m_current_uri := {} }).map
        (fun r => (r.1, r.2.trace)) =
      some (FZ_REPLY_ERROR, [Event.ResetSocket, Event.ResetOperation FZ_REPLY_INTERNALERROR]) := by
  constructor
  · obtain ⟨res, s', evs, hF, htr, _, _, hev⟩ :=
      (FileTransferSend_command exampleEnv resumeSocket _ rfl rfl).1
        ⟨by decide, by decide, by decide⟩
    rw [hF, Option.map_some', htr, (hev (by decide)).2]
    decide
  · obtain ⟨s', hF, htr⟩ :=
      (FileTransferSend_command exampleEnv { exampleSocket with m_current_uri := {} } _ rfl rfl).2
        (by decide)
    rw [hF, Option.map_some', htr]
    rfl

/-! ## Redirects -/

theorem wrap32_of_small (x : Int) (h1 : -2 ^ 31 ≤ x) (h2 : x < 2 ^ 31) : wrap32 x = x := by
  unfold wrap32
  omega

theorem wrap64_of_small (x : Int) (h1 : -2 ^ 63 ≤ x) (h2 : x < 2 ^ 63) : wrap64 x = x := by
  unfold wrap64
  omega

theorem drop_line (line rest : List Nat) (a b : Nat) :
    (line ++ a :: b :: rest).drop (line.length + 2) = rest := by
  induction line with
  | nil => simp
  | cons c line ih => simp [ih]

theorem parseContentLength_digits (ds r : List Nat) (acc : Int)
    (h : ∀ c ∈ ds, 48 ≤ c ∧ c ≤ 57) :
    ∃ t, parseContentLength (ds ++ 0 :: r) acc = some t := by
  induction ds generalizing acc with
  | nil => exact ⟨acc, by simp [parseContentLength]⟩
  | cons c ds ih =>
    have hc := h c (by simp)
    have hc0 : c ≠ 0 := by omega
    have hcd : ¬ (c < 48 ∨ c > 57) := by omega
    obtain ⟨t, ht⟩ := ih (wrap64 (acc * 10 + (c : Int) - 48)) (fun d hd => h d (by simp [hd]))
    exact ⟨t, by simp [parseContentLength, hc0, hcd, ht]⟩

theorem str_Location_no_zero : ∀ c ∈ str "Location: ", c ≠ 0 := by decide

theorem str_Content_Length_no_zero : ∀ c ∈ str "Content-Length: ", c ≠ 0 := by decide

theorem ParseHeader_loop_succ (env : Env) (fuel : Nat) (s : CHttpControlSocket) :
    ParseHeader_loop env (fuel + 1) s =
      match s.pTransfer with
      | none => none
      | some pData =>
        match findLineEnding s.m_pRecvBuffer with
        | LineEnding.malformed =>
          some (FZ_REPLY_ERROR,
            (ResetOperation (s.LogMessage Msg.Malformed_reply_line_endings) FZ_REPLY_ERROR).2)
        | LineEnding.incomplete =>
          if s.m_pRecvBuffer.length = m_recvBufferLen then
            some (FZ_REPLY_ERROR, (ResetOperation (s.LogMessage Msg.Too_long_header_line) FZ_REPLY_ERROR).2)
          else some (FZ_REPLY_WOULDBLOCK, s)
        | LineEnding.found i =>
          match ParseHeader_line env s pData i with
          | none => none
          | some (HStep.ret res s) => some (res, s)
          | some (HStep.next s) =>
            if (s.m_pRecvBuffer.drop (i + 2)).length = 0 then
              some (FZ_REPLY_WOULDBLOCK, { s with m_pRecvBuffer := s.m_pRecvBuffer.drop (i + 2) })
            else ParseHeader_loop env fuel { s with m_pRecvBuffer := s.m_pRecvBuffer.drop (i + 2) } := by
  rfl

/-- A header line other than `Location` with well-formed content changes at most the
transfer encoding and the declared total size. -/
theorem ParseHeader_field_plain (env : Env) (s : CHttpControlSocket)
    (d : CHttpFileTransferOpData) (h tail : List Nat)
    (hbuf : s.m_pRecvBuffer = h ++ 13 :: 10 :: tail)
    (hloc : h.take 10 ≠ str "Location: ")
    (hlen : h.take 16 = str "Content-Length: " → ∀ c ∈ h.drop 16, 48 ≤ c ∧ c ≤ 57)
    (e : transferEncodings) (t : Int) :
    ∃ e' t', ParseHeader_field env { s with pTransfer := some (withBody d e t) } (withBody d e t)
        (s.m_pRecvBuffer.set h.length 0) h.length =
      some (HStep.next { s with pTransfer := some (withBody d e' t') }) := by
  rw [hbuf, set_line_end]
  unfold ParseHeader_field
  have h1 : ¬ ((h ++ 0 :: 10 :: tail).length > 12 ∧ (h ++ 0 :: 10 :: tail).take 10 = str "Location: ") := by
    rintro ⟨_, hh⟩
    exact hloc (take_eq_inside_line h (10 :: tail) (str "Location: ") str_Location_no_zero hh).2
  rw [if_neg h1]
  split
  · exact ⟨_, t, rfl⟩
  · split
    · rename_i h3
      have hp := take_eq_inside_line h (10 :: tail) (str "Content-Length: ")
        str_Content_Length_no_zero h3.2
      have hl16 : (str "Content-Length: ").length = 16 := by decide
      rw [hl16] at hp
      have hd : (h ++ 0 :: 10 :: tail).drop 16 = h.drop 16 ++ 0 :: 10 :: tail := by
        rw [List.drop_append_of_le_length hp.1]
      obtain ⟨t', ht'⟩ := parseContentLength_digits (h.drop 16) (10 :: tail) 0 (hlen hp.2)
      rw [hd, ht']
      exact ⟨e, t', rfl⟩
    · exact ⟨e, t, rfl⟩

/-- Header lines other than `Location` with well-formed content are consumed one per pass
of the loop of `ParseHeader` and change at most the transfer encoding and the declared total
size. -/
theorem ParseHeader_loop_plain_lines (env : Env) (s : CHttpControlSocket)
    (d : CHttpFileTransferOpData) (hs : List (List Nat)) (rest : List Nat) (n : Nat)
    (hcode : d.m_responseCode ≠ -1)
    (hlines : ∀ h ∈ hs, h ≠ [] ∧ (∀ c ∈ h, c ≠ 13) ∧ h.take 10 ≠ str "Location: " ∧
      (h.take 16 = str "Content-Length: " → ∀ c ∈ h.drop 16, 48 ≤ c ∧ c ≤ 57))
    (e : transferEncodings) (t : Int) :
    ∃ e' t', ParseHeader_loop env (hs.length + (n + 1))
        { s with m_pRecvBuffer := headerLines hs ++ 13 :: 10 :: rest,
                 pTransfer := some (withBody d e t) } =
      ParseHeader_loop env (n + 1)
        { s with m_pRecvBuffer := 13 :: 10 :: rest, pTransfer := some (withBody d e' t') } := by
  induction hs generalizing e t with
  | nil => exact ⟨e, t, by simp [headerLines]⟩
  | cons h hs ih =>
    obtain ⟨hne, hcr, hloc, hlen⟩ := hlines h (by simp)
    have hfuel : (h :: hs).length + (n + 1) = (hs.length + (n + 1)) + 1 := by
      simp only [List.length_cons]; omega
    have hbuf : headerLines (h :: hs) ++ 13 :: 10 :: rest =
        h ++ 13 :: 10 :: (headerLines hs ++ 13 :: 10 :: rest) := by
      simp [headerLines]
    have hi : h.length ≠ 0 := by
      intro h0
      exact hne (List.length_eq_zero.mp h0)
    obtain ⟨e1, t1, hf⟩ := ParseHeader_field_plain env
      { s with m_pRecvBuffer := h ++ 13 :: 10 :: (headerLines hs ++ 13 :: 10 :: rest) } d h
      (headerLines hs ++ 13 :: 10 :: rest) rfl hloc hlen e t
    obtain ⟨e2, t2, hrec⟩ := ih (fun h' hh' => hlines h' (by simp [hh'])) e1 t1
    refine ⟨e2, t2, ?_⟩
    rw [hfuel, ParseHeader_loop_succ, hbuf]
    simp only [findLineEnding_append h _ hcr]
    have hc' : (withBody d e t).m_responseCode ≠ -1 := hcode
    simp only [ParseHeader_line, hc', if_false, hi]
    rw [hf]
    simp only [drop_line]
    rw [if_neg (by simp)]
    exact hrec

theorem headerLines_length (hs : List (List Nat)) : hs.length ≤ (headerLines hs).length := by
  induction hs with
  | nil => simp
  | cons h hs ih => simp [headerLines]; omega

/-! ## Range not satisfiable -/

/-- C9, counterexample. With six redirects followed before, a 416 response to a resumed
request ends in the error `Too many redirects`; and a 416 response that carries a
`Location` header leads to a connection to that location instead of the current URI. -/
theorem range_not_satisfiable_not_always_restarted :
    (ParseHeader exampleEnv
        (resumeSocketWith 6 (str "HTTP/1.1 416 Range Not Satisfiable\r\n\r\n"))).map
        (fun r => (r.1, r.2.trace)) =
      some (FZ_REPLY_ERROR, [Event.OpenFile false, Event.LogError Msg.Too_many_redirects,
        Event.ResetSocket, Event.ResetOperation FZ_REPLY_ERROR]) ∧
    (ParseHeader exampleEnv
        (resumeSocketWith 0 (str
          "HTTP/1.1 416 Range Not Satisfiable\r\nLocation: http://other/x\r\n\r\n"))).map
        (fun r => (r.1, decide (r.2.m_current_uri = resumeSocket.m_current_uri), r.2.trace)) =
      some (FZ_REPLY_WOULDBLOCK_REDIRECTED, false, [Event.OpenFile false, Event.ResetSocket,
        Event.InternalConnect (str "other") 80 false]) := by
  decide

/-- C9, amended. A transfer operation with resume set and fewer than six redirects
followed receives a response whose first line is read as status code 416 and whose other
header lines are free of CR, are not `Location` lines and, when they are `Content-Length`
lines, hold digits only. If the destination file can be reopened, the current URI is a
valid http or https URI and the connection attempt is in progress, then `ParseHeader`
surfaces no error: it reopens the file from scratch, resets the socket and calls
`InternalConnect` for the host and port of the current URI, which stays unchanged; and once
the connection is established the request sent is the wire request for the same URI
without a `Range` line. -/
theorem range_not_satisfiable_restart (env : Env) (s : CHttpControlSocket)
    (pData : CHttpFileTransferOpData) (first : List Nat) (hs : List (List Nat)) (rest : List Nat)
    (hC : s.pConnect = none) (hT : s.pTransfer = some pData)
    (hbuf : s.m_pRecvBuffer = first ++ 13 :: 10 :: (headerLines hs ++ 13 :: 10 :: rest))
    (hfirst : ∀ c ∈ first, c ≠ 13)
    (hstatus : statusCode (s.m_pRecvBuffer.set first.length 0) = Except.ok 416)
    (hunset : pData.m_responseCode = -1)
    (hstate : pData.opState = filetransferStates.filetransfer_transfer)
    (hresume : pData.resume = true)
    (hcount : 0 ≤ pData.m_redirectionCount ∧ pData.m_redirectionCount < 6)
    (hlines : ∀ h ∈ hs, h ≠ [] ∧ (∀ c ∈ h, c ≠ 13) ∧ h.take 10 ≠ str "Location: " ∧
      (h.take 16 = str "Content-Length: " → ∀ c ∈ h.drop 16, 48 ≤ c ∧ c ≤ 57))
    (hopen : ∀ tr, env.file_open tr pData.localFile false = true)
    (hscheme : s.m_current_uri.scheme_ ≠ []) (hhost : s.m_current_uri.host_ ≠ [])
    (habs : env.uri_is_absolute s.m_current_uri = true)
    (hproto : env.GetProtocolFromPrefix s.m_current_uri.scheme_ = ServerProtocol.HTTP ∨
      env.GetProtocolFromPrefix s.m_current_uri.scheme_ = ServerProtocol.HTTPS)
    (hwide : env.to_wstring_from_utf8 s.m_current_uri.host_ ≠ [])
    (hconn : ∀ tr h p, env.socket_Connect tr h p = ConnectResult.EINPROGRESS) :
    ∃ s1 res s2, ParseHeader env s = some (FZ_REPLY_WOULDBLOCK_REDIRECTED, s1) ∧
      s1.m_current_uri = s.m_current_uri ∧
      s1.trace = s.trace ++ [Event.OpenFile false, Event.ResetSocket,
        Event.InternalConnect (env.to_wstring_from_utf8 s.m_current_uri.host_)
          (targetPort env s.m_current_uri)
          (decide (env.GetProtocolFromPrefix s.m_current_uri.scheme_ = ServerProtocol.HTTPS))] ∧
      connectionEstablished env s1 = some (res, s2) ∧
      s2.m_current_uri = s.m_current_uri ∧
      s2.trace = s1.trace ++ [Event.ResetOperation FZ_REPLY_OK,
        Event.Send (wireRequest (env.uri_get_request s.m_current_uri)
          (env.uri_get_authority s.m_current_uri) env.PACKAGE_STRING none)] := by
  have hproto' : ¬ (env.GetProtocolFromPrefix s.m_current_uri.scheme_ ≠ ServerProtocol.HTTP ∧
      env.GetProtocolFromPrefix s.m_current_uri.scheme_ ≠ ServerProtocol.HTTPS) := by
    rcases hproto with h | h <;> simp [h]
  have hc6 : pData.m_redirectionCount ≠ 6 := by omega
  have hw : wrap32 (pData.m_redirectionCount + 1) = pData.m_redirectionCount + 1 :=
    wrap32_of_small _ (by omega) (by omega)
  obtain ⟨n, hn⟩ : ∃ n, s.m_pRecvBuffer.length + 1 = (hs.length + (n + 1)) + 1 := by
    have := headerLines_length hs
    refine ⟨s.m_pRecvBuffer.length - hs.length - 1, ?_⟩
    rw [hbuf]
    simp only [List.length_append, List.length_cons]
    omega
  -- the status line
  have h1 : ParseHeader env s = ParseHeader_loop env (hs.length + (n + 1))
      { s with
        m_pRecvBuffer := headerLines hs ++ 13 :: 10 :: rest
        trace := s.trace ++ [Event.OpenFile false]
        pTransfer := some (withBody
          { pData with
            m_responseString := cstr (s.m_pRecvBuffer.set first.length 0)
            m_responseCode := 300
            m_newLocation := s.m_current_uri
            resume := false
            file_opened := true
            localFileSize := env.get_size (s.trace ++ [Event.OpenFile false]) pData.localFile }
          pData.m_transferEncoding pData.m_totalSize) } := by
    unfold ParseHeader
    rw [hn, ParseHeader_loop_succ, hT]
    simp only [hbuf, findLineEnding_append first _ hfirst]
    simp [ParseHeader_line, hunset, ParseHeader_status, hstatus, hresume, OpenFile,
      CHttpControlSocket.emit, hopen, withBody]
    have hlen0 : ¬ (s.m_pRecvBuffer.length - (first.length + 2) = 0) := by
      rw [hbuf]
      simp only [List.length_append, List.length_cons]
      omega
    rw [if_neg hlen0]
    simp [hbuf, drop_line, set_line_end]
  -- the other header lines
  obtain ⟨e', t', h2⟩ := ParseHeader_loop_plain_lines env
    { s with trace := s.trace ++ [Event.OpenFile false] }
    { pData with
      m_responseString := cstr (s.m_pRecvBuffer.set first.length 0)
      m_responseCode := 300
      m_newLocation := s.m_current_uri
      resume := false
      file_opened := true
      localFileSize := env.get_size (s.trace ++ [Event.OpenFile false]) pData.localFile }
    hs rest n (by show (300 : Int) ≠ -1; decide) hlines pData.m_transferEncoding pData.m_totalSize
  have h12 := h1.trans h2
  -- the blank line, and the connection that follows
  rw [h12]
  simp [ParseHeader_loop, findLineEnding, ParseHeader_line, withBody,
    ParseHeader_end, ParseHeader_redirect, hc6, hw, ResetSocket, ResetHttpData, hscheme, hhost,
    habs, hproto', hwide, InternalConnect, DoInternalConnect, CHttpControlSocket.emit, hconn,
    ResetOperation, CControlSocket_ResetOperation, hC, targetPort,
    connectionEstablished, ParseSubcommandResult, FileTransferSubcommandResult, FileTransferSend,
    hstate, requestCommand_eq_wireRequest]
  generalize env.Send _ _ = b
  cases b <;> simp <;> exact ⟨_, _, ⟨rfl, rfl⟩, rfl, rfl⟩

/-- Instance of `range_not_satisfiable_restart`: a 416 response with two more header
lines, received by `resumeSocket`. -/
theorem range_not_satisfiable_restart_witness :
    ((ParseHeader exampleEnv (resumeSocketWith 0 (str
        "HTTP/1.1 416 Range Not Satisfiable\r\nContent-Length: 0\r\nServer: x\r\n\r\n"))).bind
        (fun r => connectionEstablished exampleEnv r.2)).map
        (fun r => (decide (r.2.m_current_uri = resumeSocket.m_current_uri), r.2.trace)) =
      some (true, [Event.OpenFile false, Event.ResetSocket,
        Event.InternalConnect (str "host") 80 false, Event.ResetOperation FZ_REPLY_OK,
        Event.Send (str ("GET /file HTTP/1.1\r\nHost: host\r\nUser-Agent: FileZilla\r\n" ++
          "Connection: close\r\n\r\n"))]) := by
  obtain ⟨s1, res, s2, h1, _, ht1, h2, hu, ht2⟩ := range_not_satisfiable_restart exampleEnv
    (resumeSocketWith 0 (str
      "HTTP/1.1 416 Range Not Satisfiable\r\nContent-Length: 0\r\nServer: x\r\n\r\n"))
    _ (str "HTTP/1.1 416 Range Not Satisfiable") [str "Content-Length: 0", str "Server: x"] []
    rfl rfl (by decide) (by decide) rfl rfl rfl rfl (by decide) (by decide)
    (fun _ => rfl) (by decide) (by decide) (by decide) (by decide) (by decide)
    (fun _ _ _ => rfl)
  rw [h1, Option.some_bind, h2, Option.map_some', hu, ht2, ht1]
  decide

/-! ## Chunk sizes -/

theorem readChunkSize_hexDigit (d : Nat) (hd : d < 16) (q : List Nat) (v : Int) :
    readChunkSize (hexDigit d :: q) v = readChunkSize q (wrap64 (wrap64 (v * 16) + (d : Int))) := by
  unfold hexDigit
  by_cases h : d < 10
  · have h1 : ¬ (48 + d = 0 ∨ 48 + d = 59 ∨ 48 + d = 32) := by omega
    have h2 : 48 ≤ 48 + d ∧ 48 + d ≤ 57 := by omega
    have h5 : 48 + d - 48 = d := by omega
    rw [if_pos h]
    simp only [readChunkSize, if_neg h1, if_pos h2, h5]
  · have h1 : ¬ (87 + d = 0 ∨ 87 + d = 59 ∨ 87 + d = 32) := by omega
    have h2 : ¬ (48 ≤ 87 + d ∧ 87 + d ≤ 57) := by omega
    have h3 : ¬ (65 ≤ 87 + d ∧ 87 + d ≤ 70) := by omega
    have h4 : 97 ≤ 87 + d ∧ 87 + d ≤ 102 := by omega
    have h5 : 87 + d - 97 + 10 = d := by omega
    rw [if_neg h]
    simp only [readChunkSize, if_neg h1, if_neg h2, if_neg h3, if_pos h4, h5]

theorem hexDigit_ne_cr (d : Nat) : hexDigit d ≠ 13 := by
  unfold hexDigit
  split <;> omega

theorem readChunkSize_hexSizeAux (fuel n : Nat) (acc r : List Nat)
    (hn : n < 16 ^ fuel) (h63 : n < 2 ^ 63) :
    readChunkSize (hexSizeAux fuel n acc ++ r) 0 = readChunkSize (acc ++ r) (n : Int) := by
  induction fuel generalizing n acc with
  | zero =>
    have : n = 0 := by simpa using hn
    subst this
    simp [hexSizeAux]
  | succ fuel ih =>
    unfold hexSizeAux
    by_cases h : n < 16
    · have e : wrap64 (wrap64 ((0 : Int) * 16) + (n : Int)) = (n : Int) := by
        rw [wrap64_of_small ((0 : Int) * 16) (by omega) (by omega),
          wrap64_of_small _ (by omega) (by omega)]
        omega
      rw [if_pos h, List.cons_append, readChunkSize_hexDigit n h, e]
    · rw [if_neg h]
      have hdiv : n / 16 < 16 ^ fuel := by
        rw [Nat.div_lt_iff_lt_mul (by norm_num)]
        rw [pow_succ] at hn
        exact hn
      have e : wrap64 (wrap64 (((n / 16 : Nat) : Int) * 16) + ((n % 16 : Nat) : Int)) = (n : Int) := by
        rw [wrap64_of_small (((n / 16 : Nat) : Int) * 16) (by omega) (by omega),
          wrap64_of_small _ (by omega) (by omega)]
        omega
      rw [ih (n / 16) _ hdiv (by omega), List.cons_append,
        readChunkSize_hexDigit (n % 16) (Nat.mod_lt _ (by norm_num)), e]

theorem hexSizeAux_no_cr (fuel n : Nat) (acc : List Nat) (h : ∀ c ∈ acc, c ≠ 13) :
    ∀ c ∈ hexSizeAux fuel n acc, c ≠ 13 := by
  induction fuel generalizing n acc with
  | zero => simpa [hexSizeAux] using h
  | succ fuel ih =>
    unfold hexSizeAux
    split
    · intro c hc
      simp at hc
      rcases hc with rfl | hc
      · exact hexDigit_ne_cr n
      · exact h c hc
    · apply ih
      intro c hc
      simp at hc
      rcases hc with rfl | hc
      · exact hexDigit_ne_cr _
      · exact h c hc

theorem hexSizeAux_length (fuel n : Nat) (acc : List Nat) :
    (hexSizeAux fuel n acc).length ≤ fuel + acc.length := by
  induction fuel generalizing n acc with
  | zero => simp [hexSizeAux]
  | succ fuel ih =>
    unfold hexSizeAux
    split
    · simp; omega
    · have := ih (n / 16) (hexDigit (n % 16) :: acc)
      simp at this
      omega

theorem readChunkSize_hexSize (n : Nat) (r : List Nat) (h63 : n < 2 ^ 63) :
    readChunkSize (hexSize n ++ 0 :: r) 0 = some (n : Int) := by
  unfold hexSize
  rw [readChunkSize_hexSizeAux 16 n [] _ (by omega) h63]
  simp [readChunkSize]

theorem hexSize_no_cr (n : Nat) : ∀ c ∈ hexSize n, c ≠ 13 :=
  hexSizeAux_no_cr 16 n [] (by simp)

theorem hexSize_length (n : Nat) : (hexSize n).length ≤ 16 := by
  have := hexSizeAux_length 16 n []
  simpa [hexSize] using this

/-! ## Chunk decoder -/

theorem findLineEnding_take (line rest : List Nat) (k : Nat) (hcr : ∀ c ∈ line, c ≠ 13) :
    findLineEnding ((line ++ 13 :: 10 :: rest).take k) =
      if line.length + 2 ≤ k then LineEnding.found line.length else LineEnding.incomplete := by
  induction line generalizing k with
  | nil =>
    match k with
    | 0 => simp [findLineEnding]
    | 1 => simp [findLineEnding]
    | k + 2 => simp [findLineEnding]
  | cons c line ih =>
    have hc : c ≠ 13 := hcr c (by simp)
    have ih' := fun k => ih k (fun d hd => hcr d (by simp [hd]))
    match k with
    | 0 => simp [findLineEnding]
    | k + 1 =>
      rw [List.cons_append, List.take_succ_cons]
      have hk := ih' k
      cases hX : (line ++ 13 :: 10 :: rest).take k with
      | nil =>
        have : k = 0 := by
          by_contra hk0
          have hlen := congrArg List.length hX
          simp at hlen
          omega
        subst this
        simp [findLineEnding]
      | cons d X =>
        rw [hX] at hk
        simp only [findLineEnding, hc, if_false, hk]
        by_cases h2 : line.length + 2 ≤ k
        · simp [h2]
        · simp [h2]

theorem ProcessData_slice (env : Env) (s0 : CHttpControlSocket) (d0 : CHttpFileTransferOpData)
    (cd : t_chunkData) (rcv : Int) (sl : List (List Nat)) (buf data : List Nat)
    (hsink : sinkAccepts env d0) :
    ProcessData env (chunkState s0 d0 cd rcv sl buf) (some data) =
      some (FZ_REPLY_WOULDBLOCK, chunkState s0 d0 cd rcv (sl ++ [data]) buf) := by
  rcases hsink with h | h
  · simp [ProcessData, chunkState, CHttpControlSocket.emit, FileTransferParseResponse, h,
      sliceEvents]
  · by_cases hl : d0.localFile = []
    · simp [ProcessData, chunkState, CHttpControlSocket.emit, FileTransferParseResponse, hl,
        sliceEvents]
    · simp [ProcessData, chunkState, CHttpControlSocket.emit, FileTransferParseResponse, hl, h,
        sliceEvents]

theorem ProcessData_end (env : Env) (s0 : CHttpControlSocket) (d0 : CHttpFileTransferOpData)
    (cd : t_chunkData) (rcv : Int) (sl : List (List Nat)) (buf : List Nat) :
    ProcessData env (chunkState s0 d0 cd rcv sl buf) none =
      some (FZ_REPLY_OK, doneState s0 sl) := by
  simp [ProcessData, chunkState, CHttpControlSocket.emit, FileTransferParseResponse,
    ResetOperation, CControlSocket_ResetOperation, ResetSocket, doneState]

theorem OnChunkedData_data_skip (env : Env) (s0 : CHttpControlSocket)
    (d0 : CHttpFileTransferOpData) (cd : t_chunkData) (rcv : Int) (sl : List (List Nat))
    (buf p : List Nat) (h : cd.size = 0) :
    OnChunkedData_data env (chunkState s0 d0 cd rcv sl buf) p =
      some (Step.next (chunkState s0 d0 cd rcv sl buf) p) := by
  simp [OnChunkedData_data, chunkState, h]

/-- The buffered bytes all belong to the current chunk. -/
theorem OnChunkedData_data_all (env : Env) (s0 : CHttpControlSocket)
    (d0 : CHttpFileTransferOpData) (rcv : Int) (sl : List (List Nat)) (buf p : List Nat)
    (n : Nat) (hsink : sinkAccepts env d0) (hp : 0 < p.length) (hn : p.length ≤ n)
    (h63 : n < 2 ^ 63) :
    OnChunkedData_data env (chunkState s0 d0 { size := n } rcv sl buf) p =
      some (Step.brk (chunkState s0 d0
        { size := ((n - p.length : Nat) : Int), terminateChunk := decide (n = p.length) }
        (wrap64 (rcv + (p.length : Int))) (sl ++ [p]) buf) []) := by
  have hn0 : (n : Int) ≠ 0 := by omega
  have hlt : ¬ ((n : Int) < (p.length : Int)) := by omega
  have hw : wrap64 ((n : Int) - (p.length : Int)) = ((n - p.length : Nat) : Int) := by
    rw [wrap64_of_small _ (by omega) (by omega)]
    omega
  have hps := ProcessData_slice env s0 d0 { size := n } (wrap64 (rcv + (p.length : Int))) sl buf p hsink
  unfold OnChunkedData_data
  simp only [chunkState] at hps ⊢
  simp only [hn0, ne_eq, not_false_eq_true, if_true, hlt, if_false, lt_self_iff_false,
    List.take_length, hps, not_true_eq_false, hw, List.drop_length, List.length_nil]
  by_cases he : n = p.length
  · simp [he]
  · have : ¬ (n - p.length = 0) := by omega
    simp [he, this]

/-- The current chunk ends inside the buffered bytes. -/
theorem OnChunkedData_data_part (env : Env) (s0 : CHttpControlSocket)
    (d0 : CHttpFileTransferOpData) (rcv : Int) (sl : List (List Nat)) (buf p : List Nat)
    (n : Nat) (hsink : sinkAccepts env d0) (hn0 : 0 < n) (hn : n < p.length)
    (hcap : p.length ≤ m_recvBufferLen) :
    OnChunkedData_data env (chunkState s0 d0 { size := n } rcv sl buf) p =
      some (Step.next (chunkState s0 d0 { size := 0, terminateChunk := true }
        (wrap64 (rcv + (n : Int))) (sl ++ [p.take n]) buf) (p.drop n)) := by
  have hcap' : p.length ≤ 4096 := hcap
  have hne : (n : Int) ≠ 0 := by omega
  have hlt : (n : Int) < (p.length : Int) := by omega
  have hmod : ((n : Int) % 2 ^ 32).toNat = n := by omega
  have hle : ¬ (p.length < n) := by omega
  have hw : wrap64 ((n : Int) - (n : Int)) = 0 := by
    rw [wrap64_of_small _ (by omega) (by omega)]
    omega
  have hps := ProcessData_slice env s0 d0 { size := n } (wrap64 (rcv + (n : Int))) sl buf
    (p.take n) hsink
  have hd : ¬ ((p.drop n).length = 0) := by
    rw [List.length_drop]
    omega
  unfold OnChunkedData_data
  simp only [chunkState] at hps ⊢
  simp only [hne, ne_eq, not_false_eq_true, if_true, hlt, hmod, hle, if_false, hps,
    not_true_eq_false, hw, hd]

theorem OnChunkedData_line_incomplete (env : Env) (s0 : CHttpControlSocket)
    (d0 : CHttpFileTransferOpData) (cd : t_chunkData) (rcv : Int) (sl : List (List Nat))
    (buf p : List Nat) (h : findLineEnding p = LineEnding.incomplete)
    (hlen : p.length ≠ m_recvBufferLen) :
    OnChunkedData_line env (chunkState s0 d0 cd rcv sl buf) p =
      some (Step.brk (chunkState s0 d0 cd rcv sl buf) p) := by
  simp [OnChunkedData_line, chunkState, h, hlen]

theorem OnChunkedData_line_term (env : Env) (s0 : CHttpControlSocket)
    (d0 : CHttpFileTransferOpData) (rcv : Int) (sl : List (List Nat))
    (buf p : List Nat) (h : findLineEnding p = LineEnding.found 0) :
    OnChunkedData_line env (chunkState s0 d0 { terminateChunk := true } rcv sl buf) p =
      some (if (p.drop 2).length = 0 then Step.brk (chunkState s0 d0 {} rcv sl buf) (p.drop 2)
            else Step.next (chunkState s0 d0 {} rcv sl buf) (p.drop 2)) := by
  by_cases hd : p.length - 2 = 0 <;> simp [OnChunkedData_line, chunkState, h, hd]

theorem OnChunkedData_line_trailer_end (env : Env) (s0 : CHttpControlSocket)
    (d0 : CHttpFileTransferOpData) (rcv : Int) (sl : List (List Nat))
    (buf p : List Nat) (h : findLineEnding p = LineEnding.found 0) :
    OnChunkedData_line env (chunkState s0 d0 { getTrailer := true } rcv sl buf) p =
      some (Step.ret FZ_REPLY_OK (doneState s0 sl)) := by
  have hpe := ProcessData_end env s0 d0 { getTrailer := true } rcv sl buf
  simp only [chunkState] at hpe
  simp [OnChunkedData_line, chunkState, h, hpe]

theorem OnChunkedData_line_size (env : Env) (s0 : CHttpControlSocket)
    (d0 : CHttpFileTransferOpData) (rcv : Int) (sl : List (List Nat))
    (buf p : List Nat) (i n : Nat) (h : findLineEnding p = LineEnding.found i)
    (hsize : readChunkSize (p.set i 0) 0 = some (n : Int)) :
    OnChunkedData_line env (chunkState s0 d0 {} rcv sl buf) p =
      some (if (p.drop (i + 2)).length = 0 then
              Step.brk (chunkState s0 d0 { size := n, getTrailer := decide (n = 0) } rcv sl buf)
                (p.drop (i + 2))
            else
              Step.next (chunkState s0 d0 { size := n, getTrailer := decide (n = 0) } rcv sl buf)
                (p.drop (i + 2))) := by
  by_cases hn : n = 0 <;> by_cases hd : p.length - (i + 2) = 0 <;>
    simp [OnChunkedData_line, chunkState, h, hsize, hn, hd]

theorem OnChunkedData_loop_succ (env : Env) (fuel : Nat) (s : CHttpControlSocket) (p : List Nat) :
    OnChunkedData_loop env (fuel + 1) s p =
      match OnChunkedData_iter env s p with
      | some (Step.next s p) => OnChunkedData_loop env fuel s p
      | r => r := rfl

theorem OnChunkedData_iter_skip (env : Env) (s0 : CHttpControlSocket)
    (d0 : CHttpFileTransferOpData) (cd : t_chunkData) (rcv : Int) (sl : List (List Nat))
    (buf p : List Nat) (h : cd.size = 0) :
    OnChunkedData_iter env (chunkState s0 d0 cd rcv sl buf) p =
      OnChunkedData_line env (chunkState s0 d0 cd rcv sl buf) p := by
  simp [OnChunkedData_iter, OnChunkedData_data_skip env s0 d0 cd rcv sl buf p h]

theorem LoopResult_of_sub (s0 : CHttpControlSocket) (d0 : CHttpFileTransferOpData)
    (sl sl1 : List (List Nat)) (buf R out R' out' : List Nat) (k k' : Nat) (res : Option Step)
    (h : LoopResult s0 d0 (sl ++ sl1) buf R' out' k' res)
    (hk : k ≤ R.length) (hdrop : R'.drop k' = R.drop k) (hle : k' ≤ k)
    (hout : sl1.flatten ++ out' = out) :
    LoopResult s0 d0 sl buf R out k res := by
  rcases h with ⟨hend, sl', hres, hfl⟩ | ⟨hlt, cd', rcv', sl', R'', out'', k'', hres, hex, hk'', hd'', hcap, hle'', hfl⟩
  · left
    have : R.drop k = [] := by rw [← hdrop, hend]; simp
    have hkl : R.length ≤ k := by simpa using this
    refine ⟨by omega, sl1 ++ sl', ?_, ?_⟩
    · rw [hres, List.append_assoc]
    · rw [List.flatten_append, hfl, hout]
  · right
    have hne : R.drop k ≠ [] := by
      rw [← hdrop]
      intro h0
      have : R'.length ≤ k' := by simpa using h0
      omega
    have hkl : k < R.length := by
      by_contra hc
      exact hne (by simp; omega)
    refine ⟨hkl, cd', rcv', sl1 ++ sl', R'', out'', k'', ?_, hex, hk'', ?_, hcap, by omega, ?_⟩
    · rw [hres, List.append_assoc]
    · rw [hd'', hdrop]
    · rw [List.flatten_append, List.append_assoc, hfl, hout]

/-- No complete line is buffered: the loop stops and leaves the state as it is. -/
theorem OnChunkedData_loop_stay (env : Env) (s0 : CHttpControlSocket)
    (d0 : CHttpFileTransferOpData) (cd : t_chunkData) (rcv : Int) (sl : List (List Nat))
    (buf R out : List Nat) (k fuel : Nat) (hex : Expect cd R out) (hsize : cd.size = 0)
    (hline : findLineEnding (R.take k) = LineEnding.incomplete)
    (hk : k < R.length) (hcap : k ≤ 17) :
    LoopResult s0 d0 sl buf R out k
      (OnChunkedData_loop env (fuel + 1) (chunkState s0 d0 cd rcv sl buf) (R.take k)) := by
  right
  refine ⟨hk, cd, rcv, [], R, out, k, ?_, hex, by omega, rfl, hcap, le_refl _, by simp⟩
  have hlen : (R.take k).length ≠ m_recvBufferLen := by
    rw [List.length_take]
    show min k R.length ≠ 4096
    omega
  rw [OnChunkedData_loop_succ, OnChunkedData_iter_skip env s0 d0 cd rcv sl buf _ hsize,
    OnChunkedData_line_incomplete env s0 d0 cd rcv sl buf _ hline hlen]
  simp

theorem take_drop_line (line rest : List Nat) (a b : Nat) (k : Nat) :
    ((line ++ a :: b :: rest).take k).drop (line.length + 2) = rest.take (k - (line.length + 2)) := by
  rw [List.drop_take, drop_line]

theorem take_set_line (line rest : List Nat) (k : Nat) (hk : line.length + 2 ≤ k) :
    ((line ++ 13 :: 10 :: rest).take k).set line.length 0 =
      line ++ 0 :: (10 :: rest.take (k - (line.length + 2))) := by
  induction line generalizing k with
  | nil =>
    obtain ⟨j, rfl⟩ : ∃ j, k = j + 2 := ⟨k - 2, by simp at hk; omega⟩
    simp
  | cons c line ih =>
    obtain ⟨j, rfl⟩ : ∃ j, k = j + 1 := ⟨k - 1, by simp at hk; omega⟩
    have := ih j (by simp at hk; omega)
    simp only [List.cons_append, List.take_succ_cons, List.length_cons, List.set_cons_succ, this]
    have e : j + 1 - (line.length + 1 + 2) = j - (line.length + 2) := by omega
    rw [e]

/-- The chunk-size line at the start of an encoding, and what the decoder expects after
it. -/
theorem encodeChunks_split (cs : List (List Nat)) (hcs : GoodChunks cs) :
    ∃ hx rest, ∃ n : Nat, encodeChunks cs = hx ++ 13 :: 10 :: rest ∧ (∀ c ∈ hx, c ≠ 13) ∧
      hx.length ≤ 16 ∧ (∀ r, readChunkSize (hx ++ 0 :: r) 0 = some (n : Int)) ∧
      Expect { size := n, getTrailer := decide (n = 0) } rest cs.flatten := by
  cases cs with
  | nil =>
    refine ⟨hexSize 0, [13, 10], 0, by decide, hexSize_no_cr 0, hexSize_length 0,
      fun r => readChunkSize_hexSize 0 r (by norm_num), ?_⟩
    exact Expect.trailer
  | cons c cs =>
    obtain ⟨hc, hlen⟩ := hcs c (by simp)
    have hcs' : GoodChunks cs := fun c' h' => hcs c' (by simp [h'])
    refine ⟨hexSize c.length, c ++ 13 :: 10 :: encodeChunks cs, c.length, rfl,
      hexSize_no_cr _, hexSize_length _, fun r => readChunkSize_hexSize _ r hlen, ?_⟩
    have h0 : decide (c.length = 0) = false := by
      simp [hc]
    rw [h0, List.flatten_cons]
    exact Expect.data c cs hc hlen hcs'

theorem encodeChunks_length (cs : List (List Nat)) : 5 ≤ (encodeChunks cs).length := by
  induction cs with
  | nil => simp [encodeChunks]
  | cons c cs ih => simp [encodeChunks]; omega

theorem Expect_length {cd : t_chunkData} {R out : List Nat} (h : Expect cd R out) :
    2 ≤ R.length := by
  cases h with
  | size cs _ => have := encodeChunks_length cs; omega
  | data d cs _ _ _ => simp; omega
  | term cs _ => simp
  | trailer => simp

/-- The loop of `OnChunkedData` on a prefix of the bytes the decoder expects. -/
theorem OnChunkedData_loop_spec (env : Env) (s0 : CHttpControlSocket)
    (d0 : CHttpFileTransferOpData) (hsink : sinkAccepts env d0) :
    ∀ (k fuel : Nat) (cd : t_chunkData) (rcv : Int) (sl : List (List Nat)) (buf R out : List Nat),
      Expect cd R out → 0 < k → k ≤ R.length → k ≤ m_recvBufferLen → k < fuel →
      LoopResult s0 d0 sl buf R out k
        (OnChunkedData_loop env fuel (chunkState s0 d0 cd rcv sl buf) (R.take k)) := by
  intro k
  induction k using Nat.strong_induction_on with
  | _ k ih =>
  intro fuel cd rcv sl buf R out hex hk0 hkR hcap hfuel
  have hcap' : k ≤ 4096 := hcap
  obtain ⟨f, rfl⟩ : ∃ f, fuel = f + 1 := ⟨fuel - 1, by omega⟩
  cases hex with
  | trailer =>
    have hfl := findLineEnding_take [] [] k (by simp)
    simp only [List.nil_append, List.length_nil, Nat.zero_add] at hfl
    simp only [List.length_cons, List.length_nil] at hkR
    by_cases h2 : 2 ≤ k
    · rw [if_pos h2] at hfl
      left
      refine ⟨by simp; omega, [], ?_, rfl⟩
      rw [OnChunkedData_loop_succ, OnChunkedData_iter_skip env s0 d0 _ rcv sl buf _ rfl,
        OnChunkedData_line_trailer_end env s0 d0 rcv sl buf _ hfl]
      simp
    · rw [if_neg h2] at hfl
      exact OnChunkedData_loop_stay env s0 d0 _ rcv sl buf _ _ k f Expect.trailer rfl hfl
        (by simp; omega) (by omega)
  | term cs hcs =>
    have hfl := findLineEnding_take [] (encodeChunks cs) k (by simp)
    simp only [List.nil_append, List.length_nil, Nat.zero_add] at hfl
    have hlenc := encodeChunks_length cs
    simp only [List.length_cons] at hkR
    by_cases h2 : 2 ≤ k
    · rw [if_pos h2] at hfl
      have hdrop : ((13 :: 10 :: encodeChunks cs).take k).drop 2 = (encodeChunks cs).take (k - 2) := by
        have := take_drop_line [] (encodeChunks cs) 13 10 k
        simpa using this
      rw [OnChunkedData_loop_succ, OnChunkedData_iter_skip env s0 d0 _ rcv sl buf _ rfl,
        OnChunkedData_line_term env s0 d0 rcv sl buf _ hfl, hdrop]
      by_cases hk2 : k = 2
      · subst hk2
        right
        refine ⟨by simp; omega, {}, rcv, [], encodeChunks cs, cs.flatten, 0, ?_,
          Expect.size cs hcs, by omega, by simp, by omega, by omega, by simp⟩
        simp
      · have hne : ¬ (((encodeChunks cs).take (k - 2)).length = 0) := by
          rw [List.length_take]
          omega
        simp only [if_neg hne]
        have hsub := ih (k - 2) (by omega) f {} rcv sl buf (encodeChunks cs) cs.flatten
          (Expect.size cs hcs) (by omega) (by omega) (by show k - 2 ≤ 4096; omega) (by omega)
        refine LoopResult_of_sub s0 d0 sl [] buf (13 :: 10 :: encodeChunks cs) cs.flatten
          (encodeChunks cs) cs.flatten k (k - 2) _ ?_ (by simp; omega) ?_ (by omega) (by simp)
        · simpa using hsub
        · obtain ⟨j, rfl⟩ : ∃ j, k = j + 2 := ⟨k - 2, by omega⟩
          simp
    · rw [if_neg h2] at hfl
      exact OnChunkedData_loop_stay env s0 d0 _ rcv sl buf _ _ k f (Expect.term cs hcs) rfl hfl
        (by simp; omega) (by omega)
  | size cs hcs =>
    obtain ⟨hx, rest, n, henc, hcr, hlen, hread, hexp⟩ := encodeChunks_split cs hcs
    have hfl := findLineEnding_take hx rest k hcr
    rw [← henc] at hfl
    have hRlen : (encodeChunks cs).length = hx.length + (rest.length + 2) := by
      rw [henc]; simp
    have hrest := Expect_length hexp
    by_cases h2 : hx.length + 2 ≤ k
    · rw [if_pos h2] at hfl
      have hset : readChunkSize (((encodeChunks cs).take k).set hx.length 0) 0 = some (n : Int) := by
        rw [henc, take_set_line hx rest k h2]
        exact hread _
      have hdrop : ((encodeChunks cs).take k).drop (hx.length + 2) =
          rest.take (k - (hx.length + 2)) := by
        rw [henc, take_drop_line]
      rw [OnChunkedData_loop_succ, OnChunkedData_iter_skip env s0 d0 _ rcv sl buf _ rfl,
        OnChunkedData_line_size env s0 d0 rcv sl buf _ hx.length n hfl hset, hdrop]
      have hRdrop : rest = (encodeChunks cs).drop (hx.length + 2) := by
        rw [henc, drop_line]
      by_cases hk2 : k = hx.length + 2
      · subst hk2
        right
        refine ⟨by omega, _, rcv, [], rest, cs.flatten, 0, ?_, hexp, by omega, ?_,
          by omega, by omega, by simp⟩
        · simp
        · rw [List.drop_zero, hRdrop]
      · have hne : ¬ ((rest.take (k - (hx.length + 2))).length = 0) := by
          rw [List.length_take]
          omega
        simp only [if_neg hne]
        have hsub := ih (k - (hx.length + 2)) (by omega) f _ rcv sl buf rest cs.flatten
          hexp (by omega) (by omega) (by show k - (hx.length + 2) ≤ 4096; omega) (by omega)
        refine LoopResult_of_sub s0 d0 sl [] buf (encodeChunks cs) cs.flatten rest cs.flatten
          k (k - (hx.length + 2)) _ ?_ hkR ?_ (by omega) (by simp)
        · simpa using hsub
        · rw [hRdrop, List.drop_drop]
          congr 1
          omega
    · rw [if_neg h2] at hfl
      exact OnChunkedData_loop_stay env s0 d0 _ rcv sl buf _ _ k f (Expect.size cs hcs) rfl hfl
        (by omega) (by omega)
  | data d cs hd hlen hcs =>
    have hdpos : 0 < d.length := List.length_pos.mpr hd
    have hRlen : (d ++ 13 :: 10 :: encodeChunks cs).length = d.length + ((encodeChunks cs).length + 2) := by
      simp
    have hplen : ((d ++ 13 :: 10 :: encodeChunks cs).take k).length = k := by
      rw [List.length_take]
      omega
    by_cases hkn : k ≤ d.length
    · have hp : (d ++ 13 :: 10 :: encodeChunks cs).take k = d.take k :=
        List.take_append_of_le_length hkn
      have hdata := OnChunkedData_data_all env s0 d0 rcv sl buf
        ((d ++ 13 :: 10 :: encodeChunks cs).take k) d.length hsink (by omega) (by omega) hlen
      rw [hplen, hp] at hdata
      right
      refine ⟨by omega,
        { size := ((d.length - k : Nat) : Int), terminateChunk := decide (d.length = k) },
        wrap64 (rcv + (k : Int)), [d.take k], (d ++ 13 :: 10 :: encodeChunks cs).drop k,
        d.drop k ++ cs.flatten, 0, ?_, ?_, by omega, by simp, by omega, by omega, ?_⟩
      · rw [OnChunkedData_loop_succ, hp]
        simp only [OnChunkedData_iter, hdata, List.take_zero]
      · rw [List.drop_append_of_le_length hkn]
        by_cases he : d.length = k
        · have h1 : d.length - k = 0 := by omega
          have h2 : d.drop k = [] := by simp; omega
          rw [h1, h2]
          simp only [he, decide_True, List.nil_append, Nat.cast_zero]
          exact Expect.term cs hcs
        · have h1 : decide (d.length = k) = false := by simp [he]
          have h2 : (d.drop k).length = d.length - k := List.length_drop _ _
          have h3 : d.drop k ≠ [] := by
            intro h0
            rw [h0] at h2
            simp at h2
            omega
          rw [h1, ← h2]
          exact Expect.data (d.drop k) cs h3 (by rw [h2]; omega) hcs
      · simp only [List.flatten_cons, List.flatten_nil, List.append_nil]
        rw [← List.append_assoc, List.take_append_drop]
    · have hkn' : d.length < k := Nat.lt_of_not_le hkn
      have hdata := OnChunkedData_data_part env s0 d0 rcv sl buf
        ((d ++ 13 :: 10 :: encodeChunks cs).take k) d.length hsink hdpos (by omega)
        (by rw [hplen]; exact hcap)
      have htake : ((d ++ 13 :: 10 :: encodeChunks cs).take k).take d.length = d := by
        rw [List.take_take, Nat.min_eq_left (by omega), List.take_left]
      have hdrop : ((d ++ 13 :: 10 :: encodeChunks cs).take k).drop d.length =
          (13 :: 10 :: encodeChunks cs).take (k - d.length) := by
        rw [List.drop_take, List.drop_left]
      rw [htake, hdrop] at hdata
      have hloop : OnChunkedData_loop env (f + 1)
          (chunkState s0 d0 { size := (d.length : Int) } rcv sl buf)
          ((d ++ 13 :: 10 :: encodeChunks cs).take k) =
          OnChunkedData_loop env (f + 1)
            (chunkState s0 d0 { size := 0, terminateChunk := true }
              (wrap64 (rcv + (d.length : Int))) (sl ++ [d]) buf)
            ((13 :: 10 :: encodeChunks cs).take (k - d.length)) := by
        rw [OnChunkedData_loop_succ env f _ ((13 :: 10 :: encodeChunks cs).take (k - d.length)),
          OnChunkedData_iter_skip env s0 d0 { size := 0, terminateChunk := true } _ _ buf _ rfl,
          OnChunkedData_loop_succ]
        simp only [OnChunkedData_iter, hdata]
      rw [hloop]
      have hsub := ih (k - d.length) (by omega) (f + 1) { size := 0, terminateChunk := true }
        (wrap64 (rcv + (d.length : Int))) (sl ++ [d]) buf (13 :: 10 :: encodeChunks cs)
        cs.flatten (Expect.term cs hcs) (by omega) (by simp; omega)
        (by show k - d.length ≤ 4096; omega) (by omega)
      refine LoopResult_of_sub s0 d0 sl [d] buf (d ++ 13 :: 10 :: encodeChunks cs)
        (d ++ cs.flatten) (13 :: 10 :: encodeChunks cs) cs.flatten k (k - d.length) _ hsub hkR ?_
        (by omega) (by simp)
      have hk : k = d.length + (k - d.length) := by omega
      conv_rhs => rw [hk]
      rw [List.drop_append]

/-! ## The loop consumes the buffer from the front -/

/-- The bytes a step leaves for the next one. -/
theorem OnChunkedData_data_suffix (env : Env) (s : CHttpControlSocket) (p : List Nat) (st : Step)
    (h : OnChunkedData_data env s p = some st) :
    match st with
    | Step.ret _ _ => True
    | Step.brk _ p' => ∃ n, p' = p.drop n
    | Step.next _ p' => ∃ n, p' = p.drop n := by
  unfold OnChunkedData_data at h
  dsimp only at h
  repeat' (split at h)
  all_goals
    cases h
  all_goals
    first
    | trivial
    | exact ⟨0, rfl⟩
    | exact ⟨_, rfl⟩

theorem OnChunkedData_line_suffix (env : Env) (s : CHttpControlSocket) (p : List Nat) (st : Step)
    (h : OnChunkedData_line env s p = some st) :
    match st with
    | Step.ret _ _ => True
    | Step.brk _ p' => ∃ n, p' = p.drop n
    | Step.next _ p' => ∃ n, p' = p.drop n := by
  unfold OnChunkedData_line at h
  dsimp only at h
  repeat' (split at h)
  all_goals
    cases h
  all_goals
    first
    | trivial
    | exact ⟨0, rfl⟩
    | exact ⟨_, rfl⟩

theorem OnChunkedData_iter_suffix (env : Env) (s : CHttpControlSocket) (p : List Nat) (st : Step)
    (h : OnChunkedData_iter env s p = some st) :
    match st with
    | Step.ret _ _ => True
    | Step.brk _ p' => ∃ n, p' = p.drop n
    | Step.next _ p' => ∃ n, p' = p.drop n := by
  unfold OnChunkedData_iter at h
  cases hd : OnChunkedData_data env s p with
  | none => rw [hd] at h; cases h
  | some st1 =>
    have h1 := OnChunkedData_data_suffix env s p st1 hd
    rw [hd] at h
    cases st1 with
    | ret r s1 => cases h; trivial
    | brk s1 p1 => cases h; exact h1
    | next s1 p1 =>
      obtain ⟨n, rfl⟩ := h1
      have h2 := OnChunkedData_line_suffix env s1 _ st h
      cases st with
      | ret r s2 => trivial
      | brk s2 p2 =>
        obtain ⟨m, rfl⟩ := h2
        exact ⟨_, List.drop_drop _ _ _⟩
      | next s2 p2 =>
        obtain ⟨m, rfl⟩ := h2
        exact ⟨_, List.drop_drop _ _ _⟩

theorem OnChunkedData_loop_suffix (env : Env) (fuel : Nat) (s : CHttpControlSocket) (p : List Nat)
    (s' : CHttpControlSocket) (p' : List Nat)
    (h : OnChunkedData_loop env fuel s p = some (Step.brk s' p')) : ∃ n, p' = p.drop n := by
  induction fuel generalizing s p with
  | zero => cases h
  | succ fuel ih =>
    rw [OnChunkedData_loop_succ] at h
    cases hi : OnChunkedData_iter env s p with
    | none => rw [hi] at h; cases h
    | some st =>
      have h1 := OnChunkedData_iter_suffix env s p st hi
      rw [hi] at h
      cases st with
      | ret r s1 => cases h
      | brk s1 p1 => cases h; exact h1
      | next s1 p1 =>
        obtain ⟨n, rfl⟩ := h1
        obtain ⟨m, hm⟩ := ih _ _ h
        exact ⟨_, hm.trans (List.drop_drop _ _ _)⟩

theorem drop_eq_self_of_length (p : List Nat) (n : Nat) (h : (p.drop n).length = p.length) :
    p.drop n = p := by
  rw [List.length_drop] at h
  by_cases hn : n = 0
  · subst hn; rfl
  · have : p.length = 0 := by omega
    have hp : p = [] := List.length_eq_zero.mp this
    subst hp
    simp

/-! ## Chunk round trip -/

/-- One call of `OnChunkedData` with the first `k` of the expected bytes buffered. -/
theorem OnChunkedData_spec (env : Env) (s0 : CHttpControlSocket) (d0 : CHttpFileTransferOpData)
    (hsink : sinkAccepts env d0) (cd : t_chunkData) (rcv : Int) (sl : List (List Nat))
    (R out : List Nat) (k : Nat) (hex : Expect cd R out) (hk0 : 0 < k) (hkR : k ≤ R.length)
    (hcap : k ≤ m_recvBufferLen) :
    (k = R.length ∧ ∃ sl', OnChunkedData env (chunkState s0 d0 cd rcv sl (R.take k)) =
        some (FZ_REPLY_OK, doneState s0 (sl ++ sl')) ∧ sl'.flatten = out) ∨
    (k < R.length ∧ ∃ cd' rcv' sl' R' out' k',
        OnChunkedData env (chunkState s0 d0 cd rcv sl (R.take k)) =
          some (FZ_REPLY_WOULDBLOCK, chunkState s0 d0 cd' rcv' (sl ++ sl') (R'.take k')) ∧
        Expect cd' R' out' ∧ k' ≤ R'.length ∧ R'.drop k' = R.drop k ∧ k' ≤ 17 ∧
        sl'.flatten ++ out' = out) := by
  have hlen : (R.take k).length = k := by
    rw [List.length_take]; omega
  have hloop := OnChunkedData_loop_spec env s0 d0 hsink k (k + 1) cd rcv sl (R.take k) R out hex
    hk0 hkR hcap (by omega)
  have hbuf : (chunkState s0 d0 cd rcv sl (R.take k)).m_pRecvBuffer = R.take k := rfl
  unfold OnChunkedData
  rw [hbuf, hlen]
  rcases hloop with ⟨hend, sl', hres, hfl⟩ | ⟨hlt, cd', rcv', sl', R', out', k', hres, hex', hk', hd', hcap', _, hfl⟩
  · left
    refine ⟨hend, sl', ?_, hfl⟩
    rw [hres]
  · right
    refine ⟨hlt, cd', rcv', sl', R', out', k', ?_, hex', hk', hd', hcap', hfl⟩
    obtain ⟨n, hn⟩ := OnChunkedData_loop_suffix env _ _ _ _ _ hres
    rw [hres]
    dsimp only
    have hbuf' : (chunkState s0 d0 cd' rcv' (sl ++ sl') (R.take k)).m_pRecvBuffer = R.take k := rfl
    rw [hbuf']
    by_cases hl : (R'.take k').length = (R.take k).length
    · have : R'.take k' = R.take k := by
        rw [hn] at hl ⊢
        exact drop_eq_self_of_length _ _ hl
      rw [if_neg (not_not.mpr hl), this]
    · rw [if_pos hl]
      rfl

theorem OnReceive_chunkState (env : Env) (s0 : CHttpControlSocket) (d0 : CHttpFileTransferOpData)
    (hgot : d0.m_gotHeader = true) (hchunked : d0.m_transferEncoding = transferEncodings.chunked)
    (cd : t_chunkData) (rcv : Int) (sl : List (List Nat)) (B data : List Nat)
    (hdata : data ≠ []) (hfit : data.length ≤ m_recvBufferLen - B.length) :
    OnReceive env (chunkState s0 d0 cd rcv sl B) data =
      (OnChunkedData env (chunkState s0 d0 cd rcv sl (B ++ data))).map Prod.snd := by
  have h1 : ¬ (m_recvBufferLen - B.length < data.length) := by omega
  have h2 : data.length ≠ 0 := by
    intro h0
    exact hdata (List.length_eq_zero.mp h0)
  simp only [OnReceive, DoReceive, DoReceive_iter, chunkState, h1, if_false, hgot, hchunked, h2]
  cases OnChunkedData env _ with
  | none => simp
  | some r => simp

theorem OnReceive_doneState (env : Env) (s0 : CHttpControlSocket) (sl : List (List Nat))
    (data : List Nat) (hfit : data.length ≤ m_recvBufferLen) :
    OnReceive env (doneState s0 sl) data = some (doneState s0 sl) := by
  have h1 : ¬ (m_recvBufferLen < data.length) := by omega
  simp [OnReceive, DoReceive, DoReceive_iter, doneState, h1]

theorem feedStream_doneState (env : Env) (s0 : CHttpControlSocket) (sl : List (List Nat))
    (sizes : List Nat) (stream : List Nat) :
    feedStream env sizes stream (doneState s0 sl) = some (doneState s0 sl) := by
  induction sizes generalizing stream with
  | nil => rfl
  | cons n sizes ih =>
    unfold feedStream
    have hfit : (stream.take (min n (m_recvBufferLen - (doneState s0 sl).m_pRecvBuffer.length))).length
        ≤ m_recvBufferLen := by
      rw [List.length_take]
      omega
    simp only [OnReceive_doneState env s0 sl _ hfit]
    exact ih _

/-- The decoder is fed the rest of the expected bytes in reads of any positive sizes. -/
theorem feedStream_spec (env : Env) (s0 : CHttpControlSocket) (d0 : CHttpFileTransferOpData)
    (hsink : sinkAccepts env d0) (hgot : d0.m_gotHeader = true)
    (hchunked : d0.m_transferEncoding = transferEncodings.chunked) :
    ∀ (sizes : List Nat) (cd : t_chunkData) (rcv : Int) (sl : List (List Nat)) (R out : List Nat)
      (k : Nat), Expect cd R out → k < R.length → k ≤ 17 →
      (∀ n ∈ sizes, 0 < n) →
      R.length - k ≤ (sizes.map (fun n => min n (m_recvBufferLen - 17))).sum →
      ∃ sl', feedStream env sizes (R.drop k) (chunkState s0 d0 cd rcv sl (R.take k)) =
          some (doneState s0 (sl ++ sl')) ∧ sl'.flatten = out := by
  intro sizes
  have hcapv : m_recvBufferLen = 4096 := rfl
  induction sizes with
  | nil =>
    intro cd rcv sl R out k _ hk _ _ hlen
    simp at hlen
    omega
  | cons n sizes ih =>
    intro cd rcv sl R out k hex hk hcap hpos hlen
    have hn : 0 < n := hpos n (by simp)
    have htk : (R.take k).length = k := by
      rw [List.length_take]; omega
    have hbuflen : (chunkState s0 d0 cd rcv sl (R.take k)).m_pRecvBuffer.length = k := htk
    unfold feedStream
    rw [hbuflen]
    generalize hkk : min n (m_recvBufferLen - k) = kk
    have hkk1 : 0 < kk := by omega
    have hkk2 : kk ≤ m_recvBufferLen - k := by omega
    have hkk3 : min n (m_recvBufferLen - 17) ≤ kk := by omega
    have hdl : ((R.drop k).take kk).length = min kk (R.length - k) := by
      rw [List.length_take, List.length_drop]
    have hdata : (R.drop k).take kk ≠ [] := by
      intro h0
      rw [h0] at hdl
      simp at hdl
      omega
    dsimp only
    rw [OnReceive_chunkState env s0 d0 hgot hchunked cd rcv sl _ _ hdata (by rw [htk, hdl]; omega)]
    have hjoin : R.take k ++ (R.drop k).take kk = R.take (min (k + kk) R.length) := by
      rw [← List.take_add]
      by_cases hle : k + kk ≤ R.length
      · rw [Nat.min_eq_left hle]
      · rw [Nat.min_eq_right (by omega), List.take_length, List.take_of_length_le (by omega)]
    have hrest : (R.drop k).drop kk = R.drop (min (k + kk) R.length) := by
      rw [List.drop_drop]
      by_cases hle : k + kk ≤ R.length
      · rw [Nat.min_eq_left hle]
      · rw [Nat.min_eq_right (by omega), List.drop_length, List.drop_of_length_le (by omega)]
    rw [hjoin, hrest]
    generalize hk2 : min (k + kk) R.length = k2
    have hk2a : k < k2 := by omega
    have hk2b : k2 ≤ R.length := by omega
    have hk2c : k2 ≤ m_recvBufferLen := by omega
    rcases OnChunkedData_spec env s0 d0 hsink cd rcv sl R out k2 hex (by omega) hk2b hk2c with
      ⟨hend, sl', hres, hfl⟩ | ⟨hlt, cd', rcv', sl', R', out', k', hres, hex', hk', hd', hcap2, hfl⟩
    · refine ⟨sl', ?_, hfl⟩
      rw [hres]
      simp only [Option.map_some']
      exact feedStream_doneState env s0 _ sizes _
    · have hlen' : (R'.drop k').length = (R.drop k2).length := by rw [hd']
      rw [List.length_drop, List.length_drop] at hlen'
      simp only [List.map_cons, List.sum_cons] at hlen
      obtain ⟨sl'', hfeed, hfl''⟩ := ih cd' rcv' (sl ++ sl') R' out' k' hex' (by omega) hcap2
        (fun m hm => hpos m (by simp [hm])) (by omega)
      refine ⟨sl' ++ sl'', ?_, ?_⟩
      · rw [hres]
        simp only [Option.map_some']
        rw [← hd', hfeed, List.append_assoc]
      · rw [List.flatten_append, hfl'', hfl]

theorem processDataCalls_append (a b : List Event) :
    processDataCalls (a ++ b) = processDataCalls a ++ processDataCalls b := by
  induction a with
  | nil => rfl
  | cons e a ih => cases e <;> simp [processDataCalls, ih]

theorem processDataCalls_sliceEvents (sl : List (List Nat)) :
    processDataCalls (sliceEvents sl) = sl.map some := by
  induction sl with
  | nil => rfl
  | cons x sl ih =>
    simp only [sliceEvents, List.map_cons, processDataCalls] at ih ⊢
    rw [ih]

/-- C2. Chunk round-trip. A byte sequence is cut into chunks of positive size (each shorter
than `2 ^ 63` bytes, as a 64-bit size is) and encoded as `<hex size>` CRLF `<data>` CRLF per
chunk, then `0` CRLF and the empty trailer CRLF. The socket is in the body of a chunked
response with a fresh chunk decoder and an empty buffer, and its sink takes every slice. The
encoding arrives in reads of any positive sizes that cover it (a read takes what fits into
the buffer, of which at most 17 bytes are in use between reads). Then the reads succeed,
the calls of `ProcessData` are the slices, whose concatenation is the byte sequence, followed
by exactly one end-of-body call `ProcessData(0, 0)`, and the transfer is complete. -/
theorem chunk_round_trip (env : Env) (s : CHttpControlSocket) (d : CHttpFileTransferOpData)
    (chunks : List (List Nat)) (sizes : List Nat)
    (hC : s.pConnect = none) (hT : s.pTransfer = some d) (hgot : d.m_gotHeader = true)
    (hchunked : d.m_transferEncoding = transferEncodings.chunked)
    (hcd : d.m_chunkData = {}) (hbuf : s.m_pRecvBuffer = []) (hsink : sinkAccepts env d)
    (hchunks : GoodChunks chunks) (hsizes : ∀ n ∈ sizes, 0 < n)
    (hlen : (encodeChunks chunks).length ≤
      (sizes.map (fun n => min n (m_recvBufferLen - 17))).sum) :
    ∃ (slices : List (List Nat)) (s' : CHttpControlSocket),
      feedStream env sizes (encodeChunks chunks) s = some s' ∧
      processDataCalls s'.trace = processDataCalls s.trace ++ (slices.map some ++ [none]) ∧
      slices.flatten = chunks.flatten ∧ s'.pTransfer = none := by
  have hs : chunkState s d {} d.m_receivedData [] [] = s := by
    cases s
    cases d
    simp_all [chunkState, sliceEvents]
  have hpos : 0 < (encodeChunks chunks).length := by
    cases chunks <;> simp [encodeChunks]
  obtain ⟨sl, hfeed, hfl⟩ := feedStream_spec env s d hsink hgot hchunked sizes {}
    d.m_receivedData [] (encodeChunks chunks) chunks.flatten 0 (Expect.size chunks hchunks)
    hpos (by omega) hsizes (by omega)
  rw [List.take_zero, List.drop_zero, hs, List.nil_append] at hfeed
  refine ⟨sl, doneState s sl, hfeed, ?_, hfl, rfl⟩
  simp [doneState, processDataCalls_append, processDataCalls_sliceEvents, processDataCalls]

/-- The chunks `hel` and `lo` arrive in reads of 3, 1, 4, 1, 5 and 6 bytes. -/
theorem chunk_round_trip_witness :
    GoodChunks [str "hel", str "lo"] ∧
    (encodeChunks [str "hel", str "lo"]).length ≤
      ([3, 1, 4, 1, 5, 6].map (fun n => min n (m_recvBufferLen - 17))).sum ∧
    ∃ (slices : List (List Nat)) (s' : CHttpControlSocket),
      feedStream exampleEnv [3, 1, 4, 1, 5, 6] (encodeChunks [str "hel", str "lo"])
        (chunkedBody {} 0 []) = some s' ∧
      processDataCalls s'.trace =
        processDataCalls (chunkedBody {} 0 []).trace ++ (slices.map some ++ [none]) ∧
      slices.flatten = [str "hel", str "lo"].flatten ∧ s'.pTransfer = none :=
  ⟨by decide, by decide,
    chunk_round_trip exampleEnv (chunkedBody {} 0 []) _ [str "hel", str "lo"] [3, 1, 4, 1, 5, 6]
      rfl rfl rfl rfl rfl rfl (Or.inl rfl) (by decide) (by decide) (by decide)⟩

/-! ## Completion of a body of declared length -/

/-- C11, counterexample. The response declares `Content-Length: 2` and its two body bytes
arrive: the slice is handed to `ProcessData`, and then the operation is still there with
both counts at 2, no completion marker was delivered and the operation was not reset. -/
theorem declared_length_reached_not_completed :
    (feed exampleEnv exampleSocket
        [str "HTTP/1.1 200 OK\r\nContent-Length: 2\r\n\r\n", str "hi"]).map
        (fun s => (s.pTransfer.map (fun d => (d.m_gotHeader, d.m_totalSize, d.m_receivedData)),
          s.trace)) =
      some (some (true, 2, 2), [Event.ProcessData (some (str "hi"))]) := by
  decide

/-- C11, amended. In the body of a non-chunked response with a declared total, the read
that brings the last declared byte hands its bytes to `ProcessData` and leaves the operation
in place, with the received count equal to the total; no completion marker is delivered.
When the peer then closes the connection cleanly, `OnClose` delivers the completion marker
`ProcessData(0, 0)` and the operation is reset with `FZ_REPLY_OK`. -/
theorem declared_length_completes_on_close (env : Env) (s : CHttpControlSocket)
    (d : CHttpFileTransferOpData) (data : List Nat)
    (hC : s.pConnect = none) (hT : s.pTransfer = some d) (hgot : d.m_gotHeader = true)
    (hid : d.m_transferEncoding ≠ transferEncodings.chunked) (hbuf : s.m_pRecvBuffer = [])
    (hdata : data ≠ []) (hfit : data.length ≤ m_recvBufferLen) (hsink : sinkAccepts env d)
    (h0 : 0 ≤ d.m_receivedData) (hN : d.m_receivedData + (data.length : Int) = d.m_totalSize)
    (h63 : d.m_totalSize < 2 ^ 63) :
    ∃ s1, OnReceive env s data = some s1 ∧
      s1.pTransfer = some { d with m_receivedData := d.m_totalSize } ∧
      s1.trace = s.trace ++ [Event.ProcessData (some data)] ∧
      ∃ s2, OnClose env s1 0 = some s2 ∧ s2.pTransfer = none ∧
        s2.trace = s1.trace ++
          [Event.ProcessData none, Event.ResetSocket, Event.ResetOperation FZ_REPLY_OK] := by
  have hlen : data.length ≠ 0 := by
    intro h
    exact hdata (List.length_eq_zero.mp h)
  have hw : wrap64 (d.m_receivedData + (data.length : Int)) = d.m_totalSize := by
    rw [hN]
    exact wrap64_of_small _ (by omega) h63
  have hfit' : ¬ (m_recvBufferLen < data.length) := by omega
  rcases hsink with hl | hw'
  · simp [OnReceive, DoReceive, DoReceive_iter, hC, hT, hgot, hid, hbuf, hlen, hfit', hw,
      ProcessData, FileTransferParseResponse, CHttpControlSocket.emit, hl, OnClose,
      ResetOperation, ResetSocket, CControlSocket_ResetOperation]
  · by_cases hl : d.localFile = []
    · simp [OnReceive, DoReceive, DoReceive_iter, hC, hT, hgot, hid, hbuf, hlen, hfit', hw,
        ProcessData, FileTransferParseResponse, CHttpControlSocket.emit, hl, OnClose,
        ResetOperation, ResetSocket, CControlSocket_ResetOperation]
    · simp [OnReceive, DoReceive, DoReceive_iter, hC, hT, hgot, hid, hbuf, hlen, hfit', hw,
        ProcessData, FileTransferParseResponse, CHttpControlSocket.emit, hl, hw', OnClose,
        ResetOperation, ResetSocket, CControlSocket_ResetOperation]

/-- The last 60 bytes of a body of 100 arrive, then the peer closes the connection. -/
theorem declared_length_completes_on_close_witness :
    ∃ s1, OnReceive exampleEnv { receivedBody 40 with m_pRecvBuffer := [] }
        (List.replicate 60 120) = some s1 ∧
      s1.pTransfer.map (fun d => d.m_receivedData) = some 100 ∧
      ∃ s2, OnClose exampleEnv s1 0 = some s2 ∧ s2.pTransfer = none ∧
        processDataCalls s2.trace =
          [some (List.replicate 40 120), some (List.replicate 60 120), none] := by
  obtain ⟨s1, h1, hT1, htr1, s2, h2, hT2, htr2⟩ :=
    declared_length_completes_on_close exampleEnv { receivedBody 40 with m_pRecvBuffer := [] }
      _ (List.replicate 60 120) rfl rfl rfl (by decide) rfl (by decide) (by decide)
      (Or.inl rfl) (by decide) (by decide) (by decide)
  refine ⟨s1, h1, ?_, s2, h2, hT2, ?_⟩
  · rw [hT1]
    rfl
  · rw [htr2, htr1]
    rfl

/-! ## Redirect without a Location header -/

set_option maxRecDepth 100000 in
/-- C12. A `302` response without a `Location` header is rejected when it answers the first
request of the operation. After a `302` response with `Location: https://other/next` the
header state is reset but `m_newLocation` still holds that target (`ResetHttpData` runs
before the target is used and nothing clears it afterwards). A `302` response without a
`Location` header that answers the next request is therefore not rejected: `ParseHeader`
connects to `other:443` a second time. -/
theorem redirect_without_location_reuses_old_target :
    (feed exampleEnv exampleSocket [str "HTTP/1.1 302 Found\r\n\r\n"]).map
        (fun s => (s.pTransfer, s.trace)) =
      some (none, [Event.ResetSocket,
        Event.LogError Msg.Redirection_to_invalid_or_unsupported_URI,
        Event.ResetSocket, Event.ResetOperation FZ_REPLY_ERROR]) ∧
    (OnReceive exampleEnv exampleSocket redirectResponse).map
        (fun s => s.pTransfer.map (fun d => (d.m_responseCode, d.m_newLocation))) =
      some (some (-1, exampleUri (str "https://other/next"))) ∧
    ((redirectRound exampleEnv exampleSocket redirectResponse).bind
        (fun s => OnReceive exampleEnv s (str "HTTP/1.1 302 Found\r\n\r\n"))).map
        (fun s => (s.pConnect, s.pTransfer.map (fun d => d.m_redirectionCount), s.trace)) =
      some (some { host := str "other", port := 443, tls := true }, some 2,
        [Event.ResetSocket, Event.InternalConnect (str "other") 443 true,
         Event.ResetOperation FZ_REPLY_OK,
         Event.Send (wireRequest (str "/next") (str "other") (str "FileZilla") none),
         Event.ResetSocket, Event.InternalConnect (str "other") 443 true]) := by
  refine ⟨?_, ?_, ?_⟩ <;> decide

/-! ## Content-Length -/

theorem wrap64_add_mul (x m : Int) : wrap64 (x + 2 ^ 64 * m) = wrap64 x := by
  unfold wrap64
  have e : x + 2 ^ 64 * m + 2 ^ 63 = x + 2 ^ 63 + 2 ^ 64 * m := by ring
  rw [e, Int.add_mul_emod_self_left]

/-- Reducing an intermediate result does not change the reduced result. -/
theorem wrap64_mul_add (a k b : Int) : wrap64 (wrap64 a * k + b) = wrap64 (a * k + b) := by
  have h : wrap64 a = a + 2 ^ 64 * (-((a + 2 ^ 63) / 2 ^ 64)) := by
    unfold wrap64
    rw [Int.emod_def]
    ring
  rw [h]
  have e : (a + 2 ^ 64 * (-((a + 2 ^ 63) / 2 ^ 64))) * k + b =
      a * k + b + 2 ^ 64 * (-((a + 2 ^ 63) / 2 ^ 64) * k) := by ring
  rw [e, wrap64_add_mul]

theorem parseContentLength_digit (c : Nat) (p : List Nat) (acc : Int) (hc : 48 ≤ c ∧ c ≤ 57) :
    parseContentLength (c :: p) acc = parseContentLength p (wrap64 (acc * 10 + (c : Int) - 48)) := by
  have hc0 : c ≠ 0 := by omega
  have hcd : ¬ (c < 48 ∨ c > 57) := by omega
  simp [parseContentLength, hc0, hcd]

/-- The loop over the digits of `Content-Length` computes their value, reduced to 64 bits. -/
theorem parseContentLength_value (ds r : List Nat) (h : ∀ c ∈ ds, 48 ≤ c ∧ c ≤ 57) (n : Nat) :
    parseContentLength (ds ++ 0 :: r) (wrap64 n) = some (wrap64 (decimalValueFrom n ds)) := by
  induction ds generalizing n with
  | nil =>
    rw [List.nil_append]
    unfold parseContentLength
    rw [if_pos rfl]
    rfl
  | cons c ds ih =>
    have hc := h c (by simp)
    have e : wrap64 (wrap64 (n : Int) * 10 + (c : Int) - 48) =
        wrap64 ((n * 10 + (c - 48) : Nat) : Int) := by
      have e2 : ((n * 10 + (c - 48) : Nat) : Int) = (n : Int) * 10 + ((c : Int) - 48) := by omega
      rw [Int.add_sub_assoc, wrap64_mul_add, e2]
    rw [List.cons_append, parseContentLength_digit c _ _ hc, e]
    exact ih (fun d hd => h d (by simp [hd])) _

/-- A character that is neither a digit nor NUL ends the loop in the error branch. -/
theorem parseContentLength_bad (ds r : List Nat) (acc : Int) (hnz : ∀ c ∈ ds, c ≠ 0)
    (hbad : ∃ c ∈ ds, c < 48 ∨ 57 < c) : parseContentLength (ds ++ r) acc = none := by
  induction ds generalizing acc with
  | nil => simp at hbad
  | cons c ds ih =>
    have hc0 : c ≠ 0 := hnz c (by simp)
    by_cases hcd : c < 48 ∨ c > 57
    · simp [parseContentLength, hc0, hcd]
    · simp only [List.cons_append, parseContentLength, hc0, hcd, if_false]
      apply ih _ (fun d hd => hnz d (by simp [hd]))
      obtain ⟨x, hx, hxb⟩ := hbad
      rcases List.mem_cons.mp hx with rfl | hx'
      · exact absurd hxb (by omega)
      · exact ⟨x, hx', hxb⟩

/-- A C string ends at its first NUL or at the NUL that follows it. -/
theorem cstr_split (sv r : List Nat) : ∃ r', sv ++ 0 :: r = cstr sv ++ 0 :: r' := by
  induction sv with
  | nil => exact ⟨r, rfl⟩
  | cons c sv ih =>
    by_cases hc : c = 0
    · subst hc
      exact ⟨sv ++ 0 :: r, by simp [cstr]⟩
    · obtain ⟨r', hr'⟩ := ih
      refine ⟨r', ?_⟩
      have hb : (c != 0) = true := by simp [hc]
      have : cstr (c :: sv) = c :: cstr sv := by simp [cstr, List.takeWhile_cons, hb]
      rw [this, List.cons_append, List.cons_append, hr']

theorem cstr_no_zero (sv : List Nat) : ∀ c ∈ cstr sv, c ≠ 0 := by
  intro c hc
  have := List.mem_takeWhile_imp hc
  simpa using this

/-- The header line `Content-Length: <sv>` reaches the loop over the digits. -/
theorem ParseHeader_field_content_length (env : Env) (s : CHttpControlSocket)
    (pData : CHttpFileTransferOpData) (sv tail : List Nat) (hne : sv ≠ []) :
    ParseHeader_field env s pData (str "Content-Length: " ++ (sv ++ 0 :: tail))
        (16 + sv.length) =
      match parseContentLength (sv ++ 0 :: tail) 0 with
      | none =>
        some (HStep.ret FZ_REPLY_ERROR
          (ResetOperation ({ s with pTransfer := some { pData with m_totalSize := 0 } }.LogMessage
            Msg.Invalid_Content_Length) FZ_REPLY_ERROR).2)
      | some total =>
        some (HStep.next { s with pTransfer := some { pData with m_totalSize := total } }) := by
  have hs : str "Content-Length: " =
      [67, 111, 110, 116, 101, 110, 116, 45, 76, 101, 110, 103, 116, 104, 58, 32] := by decide
  have hl : str "Location: " = [76, 111, 99, 97, 116, 105, 111, 110, 58, 32] := by decide
  have ht : str "Transfer-Encoding: " =
      [84, 114, 97, 110, 115, 102, 101, 114, 45, 69, 110, 99, 111, 100, 105, 110, 103, 58, 32] := by
    decide
  have hpos : 0 < sv.length := List.length_pos.mpr hne
  unfold ParseHeader_field
  rw [hs, hl, ht]
  simp only [List.cons_append, List.nil_append, List.take_succ_cons, List.take_zero,
    List.drop_succ_cons, List.drop_zero, List.cons.injEq]
  simp [hpos]

/-- C13, counterexample. In the line `Content-Length: 5` NUL `x` the value contains the
characters NUL and `x`, which are not digits; the loop over the digits stops at the NUL, and
`ParseHeader` accepts the header with a declared total of 5. -/
theorem content_length_with_nul_accepted :
    (feed exampleEnv exampleSocket
        [str "HTTP/1.1 200 OK\r\nContent-Length: 5" ++ [0, 120] ++ str "\r\n\r\n"]).map
        (fun s => (s.pTransfer.map (fun d => (d.m_gotHeader, d.m_totalSize)), s.trace)) =
      some (some (true, 5), []) := by
  decide

/-- C13, amended. For a header line `Content-Length: <sv>` with `sv` not empty, let `ds` be
the characters of `sv` before its first NUL (all of `sv` when it has none). If every
character of `ds` is a decimal digit and their value is below `2 ^ 63`, the declared total
becomes that value and parsing goes on; if `ds` has a character that is not a digit,
`ParseHeader` logs `Invalid Content-Length`, resets the operation and returns an error. -/
theorem content_length_line (env : Env) (s : CHttpControlSocket)
    (pData : CHttpFileTransferOpData) (sv rest : List Nat)
    (hcode : pData.m_responseCode ≠ -1)
    (hbuf : s.m_pRecvBuffer = str "Content-Length: " ++ sv ++ 13 :: 10 :: rest)
    (hne : sv ≠ []) (hcr : ∀ c ∈ sv, c ≠ 13) :
    findLineEnding s.m_pRecvBuffer = LineEnding.found (16 + sv.length) ∧
    ((∀ c ∈ cstr sv, 48 ≤ c ∧ c ≤ 57) → decimalValue (cstr sv) < 2 ^ 63 →
      ParseHeader_line env s pData (16 + sv.length) =
        some (HStep.next { s with pTransfer := some { pData with
          m_totalSize := (decimalValue (cstr sv) : Nat) } })) ∧
    ((∃ c ∈ cstr sv, c < 48 ∨ 57 < c) →
      ParseHeader_line env s pData (16 + sv.length) =
        some (HStep.ret FZ_REPLY_ERROR
          (ResetOperation ({ s with pTransfer := some { pData with m_totalSize := 0 } }.LogMessage
            Msg.Invalid_Content_Length) FZ_REPLY_ERROR).2)) := by
  have hl16 : (str "Content-Length: " ++ sv).length = 16 + sv.length := by
    rw [List.length_append]
    rfl
  have hpos : 0 < sv.length := List.length_pos.mpr hne
  have hi0 : 16 + sv.length ≠ 0 := by omega
  have hset : s.m_pRecvBuffer.set (16 + sv.length) 0 =
      str "Content-Length: " ++ (sv ++ 0 :: 10 :: rest) := by
    rw [hbuf, ← hl16, set_line_end, List.append_assoc]
  have hline : ParseHeader_line env s pData (16 + sv.length) =
      ParseHeader_field env s pData (str "Content-Length: " ++ (sv ++ 0 :: 10 :: rest))
        (16 + sv.length) := by
    unfold ParseHeader_line
    simp only [hset, if_neg hcode, if_neg hi0]
  obtain ⟨r', hr'⟩ := cstr_split sv (10 :: rest)
  have hw0 : wrap64 ((0 : Nat) : Int) = 0 := wrap64_of_small _ (by norm_num) (by norm_num)
  refine ⟨?_, ?_, ?_⟩
  · rw [hbuf, ← hl16]
    apply findLineEnding_append
    intro c hc
    have hnc : ∀ c ∈ str "Content-Length: ", c ≠ 13 := by decide
    rcases List.mem_append.mp hc with h | h
    · exact hnc c h
    · exact hcr c h
  · intro hdig h63
    rw [hline, ParseHeader_field_content_length env s pData sv _ hne, hr', ← hw0,
      parseContentLength_value _ _ hdig 0]
    have : wrap64 ((decimalValueFrom 0 (cstr sv) : Nat) : Int) = (decimalValue (cstr sv) : Nat) := by
      apply wrap64_of_small
      · have : (0 : Int) ≤ (decimalValueFrom 0 (cstr sv) : Nat) := Int.ofNat_nonneg _
        omega
      · have : (decimalValueFrom 0 (cstr sv) : Int) < ((2 ^ 63 : Nat) : Int) := by
          exact_mod_cast h63
        simpa using this
    simp only [this]
  · intro hbad
    rw [hline, ParseHeader_field_content_length env s pData sv _ hne, hr',
      parseContentLength_bad _ _ _ (cstr_no_zero sv) hbad]

/-- The lines `Content-Length: 100` and `Content-Length: 12 ` (with a trailing blank). -/
theorem content_length_line_witness :
    ParseHeader_line exampleEnv
        { (receivedBody 0) with m_pRecvBuffer := str "Content-Length: 100\r\n\r\n" }
        { m_responseCode := 200 } 19 =
      some (HStep.next { (receivedBody 0) with
        m_pRecvBuffer := str "Content-Length: 100\r\n\r\n"
        pTransfer := some { m_responseCode := 200, m_totalSize := 100 } }) ∧
    ParseHeader_line exampleEnv
        { exampleSocket with m_pRecvBuffer := str "Content-Length: 12 \r\n\r\n" }
        { m_responseCode := 200 } 19 =
      some (HStep.ret FZ_REPLY_ERROR
        { exampleSocket with
          pTransfer := none
          trace := [Event.LogError Msg.Invalid_Content_Length, Event.ResetSocket,
            Event.ResetOperation FZ_REPLY_ERROR] }) :=
  ⟨(content_length_line exampleEnv
      { (receivedBody 0) with m_pRecvBuffer := str "Content-Length: 100\r\n\r\n" }
      { m_responseCode := 200 } (str "100") (str "\r\n") (by decide) rfl (by decide)
      (by decide)).2.1 (by decide) (by decide),
   (content_length_line exampleEnv
      { exampleSocket with m_pRecvBuffer := str "Content-Length: 12 \r\n\r\n" }
      { m_responseCode := 200 } (str "12 ") (str "\r\n") (by decide) rfl (by decide)
      (by decide)).2.2 (by decide)⟩

/-! ## Chunk-size lines -/

theorem wrap64_add (a b : Int) : wrap64 (wrap64 a + b) = wrap64 (a + b) := by
  have h := wrap64_mul_add a 1 b
  rwa [mul_one, mul_one] at h

theorem readChunkSize_hex (c : Nat) (q : List Nat) (size : Int) (h : isHexDigit c) :
    readChunkSize (c :: q) size =
      readChunkSize q (wrap64 (wrap64 (size * 16) + (hexDigitValue c : Nat))) := by
  unfold isHexDigit at h
  have h0 : ¬ (c = 0 ∨ c = 59 ∨ c = 32) := by omega
  rcases h with h | h | h
  · have e : hexDigitValue c = c - 48 := by unfold hexDigitValue; rw [if_pos (by omega)]
    simp [readChunkSize, h0, h, e]
  · have h1 : ¬ (48 ≤ c ∧ c ≤ 57) := by omega
    have e : hexDigitValue c = c - 65 + 10 := by
      unfold hexDigitValue
      rw [if_neg (by omega), if_pos (by omega)]
      omega
    simp [readChunkSize, h0, h1, h, e]
  · have h1 : ¬ (48 ≤ c ∧ c ≤ 57) := by omega
    have h2 : ¬ (65 ≤ c ∧ c ≤ 70) := by omega
    have e : hexDigitValue c = c - 97 + 10 := by
      unfold hexDigitValue
      rw [if_neg (by omega), if_neg (by omega)]
      omega
    simp [readChunkSize, h0, h1, h2, h, e]

theorem readChunkSize_stop (c : Nat) (q : List Nat) (size : Int) (h : endsChunkSize c) :
    readChunkSize (c :: q) size = some size := by
  unfold endsChunkSize at h
  simp [readChunkSize, h]

/-- The loop over the digits of a chunk-size line computes their value, reduced to 64
bits. -/
theorem readChunkSize_value (ds : List Nat) (stop : Nat) (r : List Nat)
    (hds : ∀ c ∈ ds, isHexDigit c) (hstop : endsChunkSize stop) (n : Nat) :
    readChunkSize (ds ++ stop :: r) (wrap64 n) = some (wrap64 (hexValueFrom n ds)) := by
  induction ds generalizing n with
  | nil =>
    rw [List.nil_append, readChunkSize_stop _ _ _ hstop]
    rfl
  | cons c ds ih =>
    have e : wrap64 (wrap64 (wrap64 (n : Int) * 16) + (hexDigitValue c : Nat)) =
        wrap64 ((n * 16 + hexDigitValue c : Nat) : Int) := by
      rw [wrap64_add, wrap64_mul_add]
      congr 1
    rw [List.cons_append, readChunkSize_hex c _ _ (hds c (by simp)), e]
    exact ih (fun d hd => hds d (by simp [hd])) _

/-- A character that is neither a hexadecimal digit nor an end of the digits leads to the
branch `Invalid chunk size`. -/
theorem readChunkSize_bad (ds : List Nat) (c : Nat) (r : List Nat) (size : Int)
    (hds : ∀ c ∈ ds, isHexDigit c) (hc : ¬ isHexDigit c) (he : ¬ endsChunkSize c) :
    readChunkSize (ds ++ c :: r) size = none := by
  induction ds generalizing size with
  | nil =>
    unfold isHexDigit at hc
    unfold endsChunkSize at he
    have h1 : ¬ (48 ≤ c ∧ c ≤ 57) := fun h => hc (Or.inl h)
    have h2 : ¬ (65 ≤ c ∧ c ≤ 70) := fun h => hc (Or.inr (Or.inl h))
    have h3 : ¬ (97 ≤ c ∧ c ≤ 102) := fun h => hc (Or.inr (Or.inr h))
    simp only [List.nil_append, readChunkSize, if_neg he, if_neg h1, if_neg h2, if_neg h3]
  | cons d ds ih =>
    rw [List.cons_append, readChunkSize_hex d _ _ (hds d (by simp))]
    exact ih _ (fun x hx => hds x (by simp [hx]))

/-- A line read while the decoder expects a chunk size goes through the loop over its
digits. -/
theorem OnChunkedData_line_chunk_size (env : Env) (s : CHttpControlSocket)
    (pData : CHttpFileTransferOpData) (line rest : List Nat)
    (hT : s.pTransfer = some pData) (hterm : pData.m_chunkData.terminateChunk = false)
    (htrail : pData.m_chunkData.getTrailer = false) (hsize : pData.m_chunkData.size = 0)
    (hcr : ∀ c ∈ line, c ≠ 13) :
    OnChunkedData_line env s (line ++ 13 :: 10 :: rest) =
      match readChunkSize (line ++ 0 :: 10 :: rest) 0 with
      | none =>
        some (Step.ret FZ_REPLY_ERROR
          (ResetOperation (s.LogMessage Msg.Invalid_chunk_size) FZ_REPLY_ERROR).2)
      | some size =>
        some ((if rest.length = 0 then Step.brk else Step.next)
          { s with pTransfer := some { pData with
              m_chunkData := { getTrailer := decide (size = 0), terminateChunk := false,
                               size := size } } } rest) := by
  unfold OnChunkedData_line
  simp only [hT, findLineEnding_append _ _ hcr, set_line_end, drop_line, hterm, htrail, hsize]
  cases readChunkSize (line ++ 0 :: 10 :: rest) 0 with
  | none => simp
  | some size =>
    by_cases h0 : size = 0 <;> by_cases hr : rest.length = 0 <;> simp [h0, hr]

/-- C14, counterexample. In the chunk-size line `1` NUL `Z` the characters NUL and `Z` come
before any `;` or space and are not hexadecimal digits; the loop over the digits stops at
the NUL, and `OnChunkedData` stores the chunk size 1 without an error. -/
theorem chunk_size_with_nul_accepted :
    (OnReceive exampleEnv (chunkedBody {} 0 []) (str "1" ++ [0, 90] ++ str "\r\n")).map
        (fun s => (s.pTransfer.map (fun d => d.m_chunkData), s.trace)) =
      some (some { size := 1 }, []) := by
  decide

/-- C14, amended. While the decoder expects a chunk size: a line of hexadecimal digits
(upper or lower case) of value below `2 ^ 63`, optionally followed by `;`, a space or NUL
and arbitrary text, sets the remaining chunk size to the value of the digits; a line in
which the digits are followed by a character that is neither a hexadecimal digit nor `;`, a
space or NUL makes `OnChunkedData` log `Invalid chunk size`, reset the operation and return
an error. -/
theorem chunk_size_line (env : Env) (s : CHttpControlSocket)
    (pData : CHttpFileTransferOpData) (line rest : List Nat)
    (hT : s.pTransfer = some pData) (hterm : pData.m_chunkData.terminateChunk = false)
    (htrail : pData.m_chunkData.getTrailer = false) (hsize : pData.m_chunkData.size = 0)
    (hcr : ∀ c ∈ line, c ≠ 13) :
    (∀ ds ext : List Nat, line = ds ++ ext → (∀ c ∈ ds, isHexDigit c) →
      (∀ c, ext.head? = some c → endsChunkSize c) → hexValue ds < 2 ^ 63 →
      OnChunkedData_line env s (line ++ 13 :: 10 :: rest) =
        some ((if rest.length = 0 then Step.brk else Step.next)
          { s with pTransfer := some { pData with
              m_chunkData := { getTrailer := decide (hexValue ds = 0), terminateChunk := false,
                               size := (hexValue ds : Nat) } } } rest)) ∧
    (∀ (ds : List Nat) (c : Nat) (more : List Nat), line = ds ++ c :: more →
      (∀ c ∈ ds, isHexDigit c) → ¬ isHexDigit c → ¬ endsChunkSize c →
      OnChunkedData_line env s (line ++ 13 :: 10 :: rest) =
        some (Step.ret FZ_REPLY_ERROR
          (ResetOperation (s.LogMessage Msg.Invalid_chunk_size) FZ_REPLY_ERROR).2)) := by
  have hw0 : wrap64 ((0 : Nat) : Int) = 0 := wrap64_of_small _ (by norm_num) (by norm_num)
  constructor
  · intro ds ext hline hds hext h63
    have hsplit : ∃ stop r, endsChunkSize stop ∧
        line ++ 0 :: 10 :: rest = ds ++ stop :: r := by
      cases ext with
      | nil => exact ⟨0, 10 :: rest, Or.inl rfl, by rw [hline, List.append_nil]⟩
      | cons c e =>
        exact ⟨c, e ++ 0 :: 10 :: rest, hext c rfl, by rw [hline]; simp⟩
    obtain ⟨stop, r, hstop, hr⟩ := hsplit
    have hval : wrap64 ((hexValueFrom 0 ds : Nat) : Int) = (hexValue ds : Nat) := by
      apply wrap64_of_small
      · have : (0 : Int) ≤ (hexValueFrom 0 ds : Nat) := Int.ofNat_nonneg _
        omega
      · have : (hexValueFrom 0 ds : Int) < ((2 ^ 63 : Nat) : Int) := by
          exact_mod_cast h63
        simpa using this
    have hrc := readChunkSize_value ds stop r hds hstop 0
    rw [hw0, hval] at hrc
    rw [OnChunkedData_line_chunk_size env s pData line rest hT hterm htrail hsize hcr, hr, hrc]
    simp
  · intro ds c more hline hds hc he
    rw [OnChunkedData_line_chunk_size env s pData line rest hT hterm htrail hsize hcr, hline,
      List.append_assoc, List.cons_append, readChunkSize_bad ds c _ 0 hds hc he]

/-- The chunk-size lines `1aF;ext` and `1g`. -/
theorem chunk_size_line_witness :
    OnChunkedData_line exampleEnv (chunkedBody {} 0 []) (str "1aF;ext\r\nxyz") =
      some (Step.next (chunkedBody { size := 431 } 0 []) (str "xyz")) ∧
    OnChunkedData_line exampleEnv (chunkedBody {} 0 []) (str "1g\r\nxyz") =
      some (Step.ret FZ_REPLY_ERROR
        { exampleSocket with
          pTransfer := none
          trace := [Event.LogError Msg.Invalid_chunk_size, Event.ResetSocket,
            Event.ResetOperation FZ_REPLY_ERROR] }) :=
  ⟨(chunk_size_line exampleEnv (chunkedBody {} 0 []) _ (str "1aF;ext") (str "xyz") rfl rfl rfl
      rfl (by decide)).1 (str "1aF") (str ";ext") (by decide) (by decide) (by decide)
      (by decide),
   (chunk_size_line exampleEnv (chunkedBody {} 0 []) _ (str "1g") (str "xyz") rfl rfl rfl
      rfl (by decide)).2 (str "1") 103 [] (by decide) (by decide) (by decide) (by decide)⟩

/-! ## Line-length bound -/

/-- Without a CR before its last byte the buffer has no line ending yet. -/
theorem findLineEnding_incomplete (buf : List Nat) (h : ∀ c ∈ buf.dropLast, c ≠ 13) :
    findLineEnding buf = LineEnding.incomplete := by
  induction buf with
  | nil => rfl
  | cons c buf ih =>
    cases buf with
    | nil => rfl
    | cons d rest =>
      have hc : c ≠ 13 := h c (by simp [List.dropLast])
      have ih' := ih (fun x hx => h x (by simp [List.dropLast, hx]))
      simp [findLineEnding, hc, ih']

/-- C15, counterexample. The buffer `a` CR `b` holds no CRLF-terminated line and is not
full, and neither `ParseHeader` nor `OnChunkedData` returns would-block: the CR is followed
by another byte than LF, which is the line-ending error of each. -/
theorem bare_cr_is_not_would_block :
    (ParseHeader exampleEnv { exampleSocket with m_pRecvBuffer := str "a\rb" }).map
        (fun r => (r.1, r.2.trace)) =
      some (FZ_REPLY_ERROR, [Event.LogError Msg.Malformed_reply_line_endings,
        Event.ResetSocket, Event.ResetOperation FZ_REPLY_ERROR]) ∧
    (OnChunkedData exampleEnv { chunkedBody {} 0 [] with m_pRecvBuffer := str "a\rb" }).map
        (fun r => (r.1, r.2.trace)) =
      some (FZ_REPLY_ERROR, [Event.LogError Msg.Wrong_line_endings,
        Event.ResetSocket, Event.ResetOperation FZ_REPLY_ERROR]) := by
  constructor <;> decide

/-- C15, amended. When the buffer holds no CR before its last byte (so no complete line and
no CR followed by another byte than LF), `ParseHeader`, and `OnChunkedData` while it expects
a line, return would-block and leave the socket as it is if the buffer holds fewer than
4096 bytes, and fail with the too-long-line error when it holds 4096. When the buffer
starts with a line that ends in CRLF, the search for the line ending finds it wherever it
lies, and the result of `ParseHeader` is the one its line handler gives for that line. -/
theorem line_length_bound (env : Env) (s : CHttpControlSocket) (d : CHttpFileTransferOpData)
    (hT : s.pTransfer = some d) :
    ((∀ c ∈ s.m_pRecvBuffer.dropLast, c ≠ 13) →
      ParseHeader env s =
        some (if s.m_pRecvBuffer.length = m_recvBufferLen then
            (FZ_REPLY_ERROR,
              (ResetOperation (s.LogMessage Msg.Too_long_header_line) FZ_REPLY_ERROR).2)
          else (FZ_REPLY_WOULDBLOCK, s)) ∧
      (d.m_chunkData.size = 0 →
        OnChunkedData env s =
          some (if s.m_pRecvBuffer.length = m_recvBufferLen then
              (FZ_REPLY_ERROR,
                (ResetOperation (s.LogMessage Msg.Line_length_exceeded) FZ_REPLY_ERROR).2)
            else (FZ_REPLY_WOULDBLOCK, s)))) ∧
    (∀ line rest : List Nat, s.m_pRecvBuffer = line ++ 13 :: 10 :: rest →
      (∀ c ∈ line, c ≠ 13) →
      findLineEnding s.m_pRecvBuffer = LineEnding.found line.length ∧
      (∀ res s', ParseHeader_line env s d line.length = some (HStep.ret res s') →
        ParseHeader env s = some (res, s')) ∧
      (∀ s', ParseHeader_line env s d line.length = some (HStep.next s') →
        ParseHeader env s =
          if (s'.m_pRecvBuffer.drop (line.length + 2)).length = 0 then
            some (FZ_REPLY_WOULDBLOCK,
              { s' with m_pRecvBuffer := s'.m_pRecvBuffer.drop (line.length + 2) })
          else
            ParseHeader_loop env (line.length + 2 + rest.length)
              { s' with m_pRecvBuffer := s'.m_pRecvBuffer.drop (line.length + 2) })) := by
  constructor
  · intro hcr
    have hinc := findLineEnding_incomplete _ hcr
    constructor
    · unfold ParseHeader
      rw [ParseHeader_loop_succ]
      simp only [hT, hinc]
      split <;> rfl
    · intro hsize
      unfold OnChunkedData
      rw [OnChunkedData_loop_succ]
      have hdata : OnChunkedData_data env s s.m_pRecvBuffer =
          some (Step.next s s.m_pRecvBuffer) := by
        unfold OnChunkedData_data
        simp [hT, hsize]
      have hline : OnChunkedData_line env s s.m_pRecvBuffer =
          if s.m_pRecvBuffer.length = m_recvBufferLen then
            some (Step.ret FZ_REPLY_ERROR
              (ResetOperation (s.LogMessage Msg.Line_length_exceeded) FZ_REPLY_ERROR).2)
          else some (Step.brk s s.m_pRecvBuffer) := by
        unfold OnChunkedData_line
        simp only [hT, hinc]
      unfold OnChunkedData_iter
      simp only [hdata, hline]
      by_cases hfull : s.m_pRecvBuffer.length = m_recvBufferLen
      · simp [hfull]
      · simp [hfull]
  · intro line rest hbuf hcr
    have hfound : findLineEnding s.m_pRecvBuffer = LineEnding.found line.length := by
      rw [hbuf]
      exact findLineEnding_append line rest hcr
    have hlen : s.m_pRecvBuffer.length = line.length + 2 + rest.length := by
      rw [hbuf]
      simp
      omega
    refine ⟨hfound, ?_, ?_⟩
    · intro res s' hl
      unfold ParseHeader
      rw [ParseHeader_loop_succ]
      simp only [hT, hfound, hl]
    · intro s' hl
      unfold ParseHeader
      rw [ParseHeader_loop_succ, hlen]
      simp only [hT, hfound, hl]

/-- A buffer with a part of a status line, a full buffer without CR, and a full buffer that
holds a line of 4094 bytes and its CRLF. -/
theorem line_length_bound_witness :
    ParseHeader exampleEnv { exampleSocket with m_pRecvBuffer := str "HTTP/1.1 200" } =
      some (FZ_REPLY_WOULDBLOCK, { exampleSocket with m_pRecvBuffer := str "HTTP/1.1 200" }) ∧
    (ParseHeader exampleEnv { exampleSocket with m_pRecvBuffer := List.replicate 4096 120 }).map
        (fun r => (r.1, r.2.trace)) =
      some (FZ_REPLY_ERROR, [Event.LogError Msg.Too_long_header_line, Event.ResetSocket,
        Event.ResetOperation FZ_REPLY_ERROR]) ∧
    findLineEnding (List.replicate 4094 120 ++ 13 :: 10 :: []) = LineEnding.found 4094 := by
  have h1 := (line_length_bound exampleEnv
    { exampleSocket with m_pRecvBuffer := str "HTTP/1.1 200" } _ rfl).1 (by decide)
  have h2 := (line_length_bound exampleEnv
    { exampleSocket with m_pRecvBuffer := List.replicate 4096 120 } _ rfl).1
    (fun c hc => by
      have := List.eq_of_mem_replicate (List.mem_of_mem_dropLast hc)
      omega)
  have h3 := (line_length_bound exampleEnv
    { exampleSocket with m_pRecvBuffer := List.replicate 4094 120 ++ 13 :: 10 :: [] } _ rfl).2
    (List.replicate 4094 120) [] rfl
    (fun c hc => by
      have := List.eq_of_mem_replicate hc
      omega)
  have hfull : ({ exampleSocket with m_pRecvBuffer := List.replicate 4096 120 } :
      CHttpControlSocket).m_pRecvBuffer.length = m_recvBufferLen := List.length_replicate _ _
  refine ⟨?_, ?_, ?_⟩
  · rw [h1.1]
    rfl
  · rw [h2.1, if_pos hfull]
    rfl
  · have h := h3.1
    rw [List.length_replicate] at h
    exact h

/-! ## Status codes -/

/-- C16, counterexample. A 416 response answers a resumed request and the destination file
cannot be opened again: `ParseHeader` fails at the status line and resets the operation. -/
theorem range_not_satisfiable_fails_without_file :
    (feed noFileEnv resumeSocket [str "HTTP/1.1 416 Range Not Satisfiable\r\n"]).map
        (fun s => (s.pTransfer, s.trace)) =
      some (none, [Event.OpenFile false, Event.LogError Msg.Failed_to_open_for_writing,
        Event.ResetSocket, Event.ResetOperation FZ_REPLY_ERROR]) := by
  decide

/-- C16, amended. On a well-formed status line with code `c`, `ParseHeader` returns an
error and resets the operation if and only if `c = 305`, or `c ≥ 400` and it is not the case
that `c = 416` with resume requested, or `c = 416` with resume requested and the destination
file cannot be opened again; for every other code parsing continues with the header
lines. -/
theorem status_code_failure (env : Env) (s : CHttpControlSocket)
    (pData : CHttpFileTransferOpData) (buf : List Nat) (c : Int)
    (hC : s.pConnect = none) (hcode : statusCode buf = Except.ok c) :
    (failsAtStatusLine env s pData c →
      ∃ s', ParseHeader_status env s pData buf = some (HStep.ret FZ_REPLY_ERROR s') ∧
        s'.pTransfer = none ∧ Event.ResetOperation FZ_REPLY_ERROR ∈ s'.trace) ∧
    (¬ failsAtStatusLine env s pData c →
      ∃ s' d', ParseHeader_status env s pData buf = some (HStep.next s') ∧
        s'.pTransfer = some d' ∧ d'.m_responseCode = (if c = 416 then 300 else c) ∧
        (s'.trace = s.trace ∨ s'.trace = s.trace ++ [Event.OpenFile false])) := by
  unfold failsAtStatusLine
  by_cases h416 : c = 416 ∧ pData.resume = true
  · obtain ⟨hc, hr⟩ := h416
    subst hc
    by_cases hopen : env.file_open (s.trace ++ [Event.OpenFile false]) pData.localFile false = false
    · constructor
      · intro _
        simp [ParseHeader_status, hcode, hr, OpenFile, CHttpControlSocket.emit, hopen,
          ResetOperation, hC, CControlSocket_ResetOperation, ResetSocket,
          CHttpControlSocket.LogMessage]
      · intro hn
        exact absurd (Or.inr (Or.inr ⟨rfl, hr, hopen⟩)) hn
    · constructor
      · intro hf
        rcases hf with hf | hf | hf
        · omega
        · exact absurd ⟨rfl, hr⟩ hf.2
        · exact absurd hf.2.2 hopen
      · intro _
        simp at hopen
        simp [ParseHeader_status, hcode, hr, OpenFile, CHttpControlSocket.emit, hopen]
  · have hafter : ¬ (c = 416 ∧ pData.resume = true) := h416
    by_cases h400 : c ≥ 400
    · constructor
      · intro _
        simp [ParseHeader_status, hcode, hafter, h400, ResetOperation, hC,
          CControlSocket_ResetOperation, ResetSocket]
      · intro hn
        exact absurd (Or.inr (Or.inl ⟨h400, h416⟩)) hn
    · by_cases h305 : c = 305
      · constructor
        · intro _
          simp [ParseHeader_status, hcode, hafter, h400, h305, ResetOperation, hC,
            CControlSocket_ResetOperation, ResetSocket, CHttpControlSocket.LogMessage,
            CHttpControlSocket.emit]
        · intro hn
          exact absurd (Or.inl h305) hn
      · constructor
        · intro hf
          rcases hf with hf | hf | hf
          · exact absurd hf h305
          · exact absurd hf.1 h400
          · exact absurd ⟨hf.1, hf.2.1⟩ h416
        · intro _
          have hne : c ≠ 416 := by omega
          simp [ParseHeader_status, hcode, hafter, h400, h305, hne]

/-- The status lines `HTTP/1.1 404 Not Found` and `HTTP/1.1 200 OK`. -/
theorem status_code_failure_witness :
    (∃ s', ParseHeader_status exampleEnv exampleSocket {} (str "HTTP/1.1 404 Not Found" ++ [0, 10]) =
        some (HStep.ret FZ_REPLY_ERROR s') ∧
      s'.pTransfer = none ∧ Event.ResetOperation FZ_REPLY_ERROR ∈ s'.trace) ∧
    (∃ s' d', ParseHeader_status exampleEnv exampleSocket {} (str "HTTP/1.1 200 OK" ++ [0, 10, 13, 10]) =
        some (HStep.next s') ∧
      s'.pTransfer = some d' ∧ d'.m_responseCode = (if (200 : Int) = 416 then 300 else 200) ∧
      (s'.trace = exampleSocket.trace ∨
        s'.trace = exampleSocket.trace ++ [Event.OpenFile false])) :=
  ⟨(status_code_failure exampleEnv exampleSocket {} (str "HTTP/1.1 404 Not Found" ++ [0, 10]) 404
      rfl (by rfl)).1 (by decide),
   (status_code_failure exampleEnv exampleSocket {} (str "HTTP/1.1 200 OK" ++ [0, 10, 13, 10]) 200
      rfl (by rfl)).2 (by decide)⟩

/-! ## Replies to asynchronous requests -/

/-- C17. The transfer operation is parked on the question whether the local file may be
overwritten, and `SendNextCommand` returns would-block without a change. A certificate
reply arrives while there is no TLS socket: `SetAsyncRequestReply` returns `false`, but it
has already cleared `waitForAsyncRequest`. The next `SendNextCommand` no longer waits for
the answer: it opens the local file for writing and starts the connection. -/
theorem mismatched_reply_unparks_operation :
    SendNextCommand exampleEnv parkedSocket = some (FZ_REPLY_WOULDBLOCK, parkedSocket) ∧
    (SetAsyncRequestReply (fun s _ => (true, s)) none parkedSocket
        { requestID := RequestId.reqId_certificate }).1 = false ∧
    (SetAsyncRequestReply (fun s _ => (true, s)) none parkedSocket
        { requestID := RequestId.reqId_certificate }).2.pTransfer.map
        (fun d => d.waitForAsyncRequest) = some false ∧
    (SendNextCommand exampleEnv
        (SetAsyncRequestReply (fun s _ => (true, s)) none parkedSocket
          { requestID := RequestId.reqId_certificate }).2).map
        (fun r => (r.1, r.2.pTransfer.map (fun d => d.opState), r.2.trace)) =
      some (FZ_REPLY_WOULDBLOCK, some filetransferStates.filetransfer_transfer,
        [Event.OpenFile false, Event.InternalConnect (str "host") 80 false]) := by
  refine ⟨?_, ?_, ?_, ?_⟩ <;> decide

/-! ## Sign of the remaining chunk size -/

theorem SizeOK_ResetOperation (s : CHttpControlSocket) (e : Reply) (h : SizeOK s) :
    SizeOK (ResetOperation s e).2 := by
  intro d' hd'
  unfold ResetOperation at hd'
  cases hc : s.pConnect <;> cases ht : s.pTransfer <;>
    simp [hc, ht, CControlSocket_ResetOperation, ResetSocket] at hd'
  all_goals
    rename_i t
    subst hd'
    exact h t ht

theorem ProcessData_data_cases (env : Env) (s : CHttpControlSocket)
    (d : CHttpFileTransferOpData) (data : List Nat) (hT : s.pTransfer = some d) :
    ∃ res s2, ProcessData env s (some data) = some (res, s2) ∧
      (res = FZ_REPLY_WOULDBLOCK → s2.pTransfer = some d) ∧ (SizeOK s → SizeOK s2) := by
  unfold ProcessData
  have he : (s.emit (Event.ProcessData (some data))).pTransfer = some d := hT
  cases hc : s.pConnect with
  | some c =>
    have hc' : (s.emit (Event.ProcessData (some data))).pConnect = some c := hc
    simp only [hc', he]
    exact ⟨_, _, rfl, by simp, fun h => SizeOK_ResetOperation _ _ h⟩
  | none =>
    have hc' : (s.emit (Event.ProcessData (some data))).pConnect = none := hc
    simp only [hc', he]
    unfold FileTransferParseResponse
    simp only [hc', he]
    split
    · exact ⟨_, _, rfl, fun _ => he, fun h => h⟩
    · split
      · exact ⟨_, _, rfl, fun _ => he, fun h => h⟩
      · exact ⟨_, _, rfl, by simp, fun h => SizeOK_ResetOperation _ _ h⟩

theorem ProcessData_end_cases (env : Env) (s : CHttpControlSocket)
    (d : CHttpFileTransferOpData) (hT : s.pTransfer = some d) :
    ∃ res s2, ProcessData env s none = some (res, s2) ∧ (SizeOK s → SizeOK s2) := by
  unfold ProcessData
  have he : (s.emit (Event.ProcessData none)).pTransfer = some d := hT
  cases hc : s.pConnect with
  | some c =>
    have hc' : (s.emit (Event.ProcessData none)).pConnect = some c := hc
    simp only [hc', he]
    exact ⟨_, _, rfl, fun h => SizeOK_ResetOperation _ _ h⟩
  | none =>
    have hc' : (s.emit (Event.ProcessData none)).pConnect = none := hc
    simp only [hc', he]
    unfold FileTransferParseResponse
    simp only [hc', he]
    exact ⟨_, _, rfl, fun h => SizeOK_ResetOperation _ _ h⟩

theorem wrap64_range (x : Int) : -2 ^ 63 ≤ wrap64 x ∧ wrap64 x < 2 ^ 63 := by
  unfold wrap64
  have h1 := Int.emod_nonneg (x + 2 ^ 63) (by norm_num : (2 ^ 64 : Int) ≠ 0)
  have h2 := Int.emod_lt_of_pos (x + 2 ^ 63) (by norm_num : (0 : Int) < 2 ^ 64)
  constructor <;> omega

theorem readChunkSize_range (q : List Nat) (acc v : Int) (h : readChunkSize q acc = some v)
    (hacc : acc < 2 ^ 63) : v < 2 ^ 63 := by
  induction q generalizing acc with
  | nil =>
    simp only [readChunkSize, Option.some.injEq] at h
    omega
  | cons c q ih =>
    unfold readChunkSize at h
    split at h
    · simp only [Option.some.injEq] at h
      omega
    · split at h
      · exact ih _ h (wrap64_range _).2
      · split at h
        · exact ih _ h (wrap64_range _).2
        · split at h
          · exact ih _ h (wrap64_range _).2
          · cases h

theorem SizeLinesFit_drop (p : List Nat) (m : Nat) (h : SizeLinesFit p) :
    SizeLinesFit (p.drop m) := by
  intro k i v h1 h2
  rw [List.drop_drop] at h1 h2
  exact h _ i v h1 h2

theorem StepOK_drop (p : List Nat) (m : Nat) (st : Step) (h : StepOK (p.drop m) st) :
    StepOK p st := by
  cases st with
  | ret r s => exact h
  | brk s p' => exact h
  | next s p' =>
    obtain ⟨hd, hs, ⟨m', hm'⟩, hlen⟩ := h
    refine ⟨hd, hs, ⟨m + m', ?_⟩, ?_⟩
    · rw [hm', List.drop_drop]
    · have : (p.drop m).length ≤ p.length := by
        rw [List.length_drop]
        omega
      omega

/-- A pass through the second half of the loop body, from a chunk size of zero. -/
theorem OnChunkedData_line_StepOK (env : Env) (s : CHttpControlSocket)
    (d : CHttpFileTransferOpData) (p : List Nat) (hT : s.pTransfer = some d)
    (hsize : d.m_chunkData.size = 0) (hfit : SizeLinesFit p) :
    ∃ st, OnChunkedData_line env s p = some st ∧ StepOK p st := by
  have hok : SizeOK s := by
    intro d' hd'
    rw [hT] at hd'
    cases hd'
    rw [hsize]
    norm_num
  unfold OnChunkedData_line
  simp only [hT]
  cases hf : findLineEnding p with
  | malformed => exact ⟨_, rfl, SizeOK_ResetOperation _ _ hok⟩
  | incomplete =>
    simp only
    split
    · exact ⟨_, rfl, SizeOK_ResetOperation _ _ hok⟩
    · exact ⟨_, rfl, hok⟩
  | found i =>
    obtain ⟨line, rest, hp, hi, _⟩ := findLineEnding_found hf
    have hshort : (p.drop (i + 2)).length < p.length := by
      rw [List.length_drop, hp]
      simp
    have hadv : ∀ s' : CHttpControlSocket, (∃ d', s'.pTransfer = some d') → SizeOK s' →
        ∃ st, (if (p.drop (i + 2)).length = 0 then some (Step.brk s' (p.drop (i + 2)))
          else some (Step.next s' (p.drop (i + 2)))) = some st ∧ StepOK p st := by
      intro s' hd' hs'
      split
      · exact ⟨_, rfl, hs'⟩
      · exact ⟨_, rfl, hd', hs', ⟨i + 2, rfl⟩, hshort⟩
    simp only
    split
    · split
      · exact ⟨_, rfl, SizeOK_ResetOperation _ _ hok⟩
      · apply hadv _ ⟨_, rfl⟩
        intro d' hd'
        simp only [Option.some.injEq] at hd'
        subst hd'
        simp only [hsize]
        norm_num
    · split
      · split
        · obtain ⟨res, s2, h2, hs2⟩ := ProcessData_end_cases env s d hT
          rw [h2]
          exact ⟨_, rfl, hs2 hok⟩
        · exact hadv s ⟨d, hT⟩ hok
      · rw [hsize]
        cases hr : readChunkSize (p.set i 0) 0 with
        | none => exact ⟨_, rfl, SizeOK_ResetOperation _ _ hok⟩
        | some v =>
          simp only
          apply hadv _ ⟨_, rfl⟩
          intro d' hd'
          simp only [Option.some.injEq] at hd'
          subst hd'
          have h0 := hfit 0 i v (by rw [List.drop_zero]; exact hf)
            (by rw [List.drop_zero]; exact hr)
          exact ⟨h0, readChunkSize_range _ _ _ hr (by norm_num)⟩

/-- A pass through the body of the loop of `OnChunkedData`. -/
theorem OnChunkedData_iter_StepOK (env : Env) (s : CHttpControlSocket)
    (d : CHttpFileTransferOpData) (p : List Nat) (hT : s.pTransfer = some d)
    (h0 : 0 ≤ d.m_chunkData.size) (h63 : d.m_chunkData.size < 2 ^ 63)
    (hlen : p.length ≤ m_recvBufferLen) (hfit : SizeLinesFit p) :
    ∃ st, OnChunkedData_iter env s p = some st ∧ StepOK p st := by
  have hcap : m_recvBufferLen = 4096 := rfl
  unfold OnChunkedData_iter
  by_cases hz : d.m_chunkData.size = 0
  · have hdata : OnChunkedData_data env s p = some (Step.next s p) := by
      unfold OnChunkedData_data
      simp [hT, hz]
    rw [hdata]
    exact OnChunkedData_line_StepOK env s d p hT hz hfit
  · -- the data of a chunk: `dataLen` bytes are handed to `ProcessData`
    obtain ⟨n, hn, hnlen, hnpos, hdl⟩ : ∃ n : Nat, (n : Int) ≤ d.m_chunkData.size ∧
        n ≤ p.length ∧ (p.length ≠ 0 → 0 < n) ∧
        (if d.m_chunkData.size < (p.length : Int) then (d.m_chunkData.size % 2 ^ 32).toNat
          else p.length) = n ∧ (n < p.length → (n : Int) = d.m_chunkData.size) := by
      by_cases hlt : d.m_chunkData.size < (p.length : Int)
      · have hm : d.m_chunkData.size % 2 ^ 32 = d.m_chunkData.size :=
          Int.emod_eq_of_lt h0 (by omega)
        refine ⟨d.m_chunkData.size.toNat, by omega, by omega, by omega, ?_, by omega⟩
        rw [if_pos hlt, hm]
      · exact ⟨p.length, by omega, le_refl _, by omega, by rw [if_neg hlt], by omega⟩
    obtain ⟨hdl, hdeq⟩ := hdl
    obtain ⟨res, s2, hpd, hwb, hs2⟩ := ProcessData_data_cases env
      { s with pTransfer := some { d with
          m_receivedData := wrap64 (d.m_receivedData + (n : Int)) } }
      { d with m_receivedData := wrap64 (d.m_receivedData + (n : Int)) } (p.take n) rfl
    have hok1 : SizeOK { s with pTransfer := some { d with
        m_receivedData := wrap64 (d.m_receivedData + (n : Int)) } } := by
      intro d' hd'
      simp only [Option.some.injEq] at hd'
      subst hd'
      exact ⟨h0, h63⟩
    have hw : wrap64 (d.m_chunkData.size - (n : Int)) = d.m_chunkData.size - (n : Int) :=
      wrap64_of_small _ (by omega) (by omega)
    by_cases hres : res ≠ FZ_REPLY_WOULDBLOCK
    · have hdata : OnChunkedData_data env s p = some (Step.ret res s2) := by
        unfold OnChunkedData_data
        simp only [hT, hz, ne_eq, not_false_eq_true, if_true, hdl,
          if_neg (Nat.not_lt.mpr hnlen), hpd, hres]
      rw [hdata]
      exact ⟨_, rfl, hs2 hok1⟩
    · have hres' : res = FZ_REPLY_WOULDBLOCK := not_not.mp hres
      subst hres'
      have h2 := hwb rfl
      have hdata : OnChunkedData_data env s p =
          if (p.drop n).length = 0 then
            some (Step.brk { s2 with pTransfer := some { d with
              m_receivedData := wrap64 (d.m_receivedData + (n : Int))
              m_chunkData := { d.m_chunkData with
                size := d.m_chunkData.size - (n : Int)
                terminateChunk := if d.m_chunkData.size - (n : Int) = 0 then true
                  else d.m_chunkData.terminateChunk } } } (p.drop n))
          else
            some (Step.next { s2 with pTransfer := some { d with
              m_receivedData := wrap64 (d.m_receivedData + (n : Int))
              m_chunkData := { d.m_chunkData with
                size := d.m_chunkData.size - (n : Int)
                terminateChunk := if d.m_chunkData.size - (n : Int) = 0 then true
                  else d.m_chunkData.terminateChunk } } } (p.drop n)) := by
        unfold OnChunkedData_data
        simp only [hT, hz, ne_eq, not_false_eq_true, if_true, hdl,
          if_neg (Nat.not_lt.mpr hnlen), hpd, not_true_eq_false, if_false, h2, hw]
      rw [hdata]
      by_cases hr : (p.drop n).length = 0
      · rw [if_pos hr]
        refine ⟨_, rfl, ?_⟩
        intro d' hd'
        simp only [Option.some.injEq] at hd'
        subst hd'
        exact ⟨by simp only; omega, by simp only; omega⟩
      · rw [if_neg hr]
        rw [List.length_drop] at hr
        have hnl : n < p.length := by omega
        have hsz : d.m_chunkData.size - (n : Int) = 0 := by
          have := hdeq hnl
          omega
        obtain ⟨st, hst, hstep⟩ := OnChunkedData_line_StepOK env
          { s2 with pTransfer := some { d with
              m_receivedData := wrap64 (d.m_receivedData + (n : Int))
              m_chunkData := { d.m_chunkData with
                size := d.m_chunkData.size - (n : Int)
                terminateChunk := if d.m_chunkData.size - (n : Int) = 0 then true
                  else d.m_chunkData.terminateChunk } } } _ (p.drop n) rfl hsz
          (SizeLinesFit_drop p n hfit)
        exact ⟨st, hst, StepOK_drop p n st hstep⟩

/-- The loop of `OnChunkedData` ends, and the remaining chunk size is not negative then. -/
theorem OnChunkedData_loop_SizeOK (env : Env) :
    ∀ (fuel : Nat) (s : CHttpControlSocket) (d : CHttpFileTransferOpData) (p : List Nat),
      p.length < fuel → s.pTransfer = some d → 0 ≤ d.m_chunkData.size →
      d.m_chunkData.size < 2 ^ 63 → p.length ≤ m_recvBufferLen → SizeLinesFit p →
      ∃ st, OnChunkedData_loop env fuel s p = some st ∧
        ((∃ r s', st = Step.ret r s' ∧ SizeOK s') ∨ (∃ s' p', st = Step.brk s' p' ∧ SizeOK s')) := by
  intro fuel
  induction fuel with
  | zero =>
    intro s d p hp
    omega
  | succ fuel ih =>
    intro s d p hp hT h0 h63 hlen hfit
    obtain ⟨st, hst, hok⟩ := OnChunkedData_iter_StepOK env s d p hT h0 h63 hlen hfit
    rw [OnChunkedData_loop_succ, hst]
    cases st with
    | ret r s' => exact ⟨_, rfl, Or.inl ⟨r, s', rfl, hok⟩⟩
    | brk s' p' => exact ⟨_, rfl, Or.inr ⟨s', p', rfl, hok⟩⟩
    | next s' p' =>
      obtain ⟨⟨d', hd'⟩, hs', ⟨m, hm⟩, hshort⟩ := hok
      have hd := hs' d' hd'
      exact ih s' d' p' (by omega) hd' hd.1 hd.2 (by omega)
        (by rw [hm]; exact SizeLinesFit_drop p m hfit)

theorem hexDigitValue_le (c : Nat) (h : isHexDigit c) : hexDigitValue c ≤ 15 := by
  unfold isHexDigit at h
  unfold hexDigitValue
  split
  · omega
  · split <;> omega

/-- A chunk-size line of at most 15 characters has a value that is not negative. -/
theorem readChunkSize_short (pre post : List Nat) (n a : Nat) (v : Int) (hn : n < 16 ^ a)
    (ha : a + pre.length ≤ 15) (h : readChunkSize (pre ++ 0 :: post) (n : Int) = some v) :
    0 ≤ v := by
  induction pre generalizing n a with
  | nil =>
    rw [List.nil_append, readChunkSize_stop _ _ _ (Or.inl rfl)] at h
    cases h
    exact Int.ofNat_nonneg n
  | cons c pre ih =>
    rw [List.cons_append] at h
    by_cases he : endsChunkSize c
    · rw [readChunkSize_stop _ _ _ he] at h
      cases h
      exact Int.ofNat_nonneg n
    · by_cases hh : isHexDigit c
      · rw [readChunkSize_hex c _ _ hh] at h
        have hv := hexDigitValue_le c hh
        have hpow : 16 ^ (a + 1) ≤ 16 ^ 15 :=
          Nat.pow_le_pow_right (by norm_num) (by simp only [List.length_cons] at ha; omega)
        have hps : 16 ^ (a + 1) = 16 ^ a * 16 := pow_succ 16 a
        have h15 : (16 : Nat) ^ 15 = 1152921504606846976 := by norm_num
        have hn' : n * 16 + hexDigitValue c < 16 ^ (a + 1) := by omega
        have e : wrap64 (wrap64 ((n : Int) * 16) + (hexDigitValue c : Nat)) =
            ((n * 16 + hexDigitValue c : Nat) : Int) := by
          rw [wrap64_add]
          have : (n : Int) * 16 + (hexDigitValue c : Nat) = ((n * 16 + hexDigitValue c : Nat) : Int) := by
            push_cast
            ring
          rw [this]
          apply wrap64_of_small
          · have := Int.ofNat_nonneg (n * 16 + hexDigitValue c)
            omega
          · have : n * 16 + hexDigitValue c < 1152921504606846976 := by omega
            omega
        rw [e] at h
        exact ih _ (a + 1) hn' (by simp only [List.length_cons] at ha; omega) h
      · have hb := readChunkSize_bad [] c (pre ++ 0 :: post) (n : Int) (by simp) hh he
        rw [List.nil_append] at hb
        rw [hb] at h
        cases h

/-- A buffer of at most 17 bytes has no chunk-size line of more than 15 characters. -/
theorem SizeLinesFit_of_short (p : List Nat) (hp : p.length ≤ 17) : SizeLinesFit p := by
  intro k i v h1 h2
  obtain ⟨line, rest, hd, hi, _⟩ := findLineEnding_found h1
  have hl : (p.drop k).length ≤ 17 := by
    rw [List.length_drop]
    omega
  rw [hd] at hl h2
  simp only [List.length_append, List.length_cons] at hl
  rw [← hi, set_line_end] at h2
  exact readChunkSize_short line (10 :: rest) 0 0 v (by norm_num) (by omega)
    (by exact_mod_cast h2)

set_option maxRecDepth 100000 in
/-- C18. The remaining chunk size can become negative. The chunk-size line
`8000000000000000` has the value `2 ^ 63`, which does not fit in 64 signed bits, yet
`OnChunkedData` does not reject it: it returns would-block with the remaining chunk size
`-2 ^ 63` stored and nothing logged. The largest value that fits, `7FFFFFFFFFFFFFFF`, is
stored as it is, and a line with a character that is not a hexadecimal digit is rejected
with `Invalid chunk size`: the loop over the digits checks every character and never the
range of the value. -/
theorem chunk_size_overflow_stored :
    (OnChunkedData exampleEnv
        { chunkedBody {} 0 [] with m_pRecvBuffer := str "8000000000000000\r\n" }).map
        (fun r => (r.1, r.2.pTransfer.map (fun d => d.m_chunkData.size), r.2.trace)) =
      some (FZ_REPLY_WOULDBLOCK, some (-9223372036854775808), []) ∧
    (OnReceive exampleEnv (chunkedBody {} 0 []) (str "8000000000000000\r\n")).map
        (fun s => (s.pTransfer.map (fun d => d.m_chunkData.size), s.trace)) =
      some (some (-9223372036854775808), []) ∧
    (OnChunkedData exampleEnv
        { chunkedBody {} 0 [] with m_pRecvBuffer := str "7FFFFFFFFFFFFFFF\r\n" }).map
        (fun r => (r.1, r.2.pTransfer.map (fun d => d.m_chunkData.size), r.2.trace)) =
      some (FZ_REPLY_WOULDBLOCK, some 9223372036854775807, []) ∧
    (OnChunkedData exampleEnv
        { chunkedBody {} 0 [] with m_pRecvBuffer := str "G\r\n" }).map
        (fun r => (r.1, r.2.pTransfer.map (fun d => d.m_chunkData.size), r.2.trace)) =
      some (FZ_REPLY_ERROR, none,
        [Event.LogError Msg.Invalid_chunk_size, Event.ResetSocket,
         Event.ResetOperation FZ_REPLY_ERROR]) := by
  refine ⟨by decide, by decide, by decide, by decide⟩

/-- A sufficient condition for the remaining chunk size to stay in range. A call of
`OnChunkedData` that starts with a remaining chunk size from 0 to `2 ^ 63 - 1` returns, and
the remaining chunk size is in that range again afterwards, when no line of the buffer, at
whatever offset it starts and read as a chunk-size line, has a value that the 64-bit
arithmetic turns negative (no line of at most 15 characters has). -/
theorem chunk_size_stays_nonnegative (env : Env) (s : CHttpControlSocket)
    (d : CHttpFileTransferOpData) (hT : s.pTransfer = some d)
    (h0 : 0 ≤ d.m_chunkData.size) (h63 : d.m_chunkData.size < 2 ^ 63)
    (hlen : s.m_pRecvBuffer.length ≤ m_recvBufferLen) (hfit : SizeLinesFit s.m_pRecvBuffer) :
    ∃ res s', OnChunkedData env s = some (res, s') ∧
      ∀ d', s'.pTransfer = some d' → 0 ≤ d'.m_chunkData.size ∧ d'.m_chunkData.size < 2 ^ 63 := by
  obtain ⟨st, hst, hok⟩ := OnChunkedData_loop_SizeOK env (s.m_pRecvBuffer.length + 1) s d
    s.m_pRecvBuffer (by omega) hT h0 h63 hlen hfit
  unfold OnChunkedData
  rw [hst]
  rcases hok with ⟨r, s', rfl, hs'⟩ | ⟨s', p', rfl, hs'⟩
  · exact ⟨r, s', rfl, hs'⟩
  · simp only
    split
    · exact ⟨_, _, rfl, hs'⟩
    · exact ⟨_, _, rfl, hs'⟩

/-- The decoder receives the chunk `abc` with its size line and terminator. -/
theorem chunk_size_stays_nonnegative_witness :
    SizeLinesFit (str "3\r\nabc\r\n") ∧
    ∃ res s', OnChunkedData exampleEnv
        { chunkedBody {} 0 [] with m_pRecvBuffer := str "3\r\nabc\r\n" } = some (res, s') ∧
      ∀ d', s'.pTransfer = some d' → 0 ≤ d'.m_chunkData.size ∧ d'.m_chunkData.size < 2 ^ 63 :=
  ⟨SizeLinesFit_of_short _ (by decide),
    chunk_size_stays_nonnegative exampleEnv
      { chunkedBody {} 0 [] with m_pRecvBuffer := str "3\r\nabc\r\n" } _ rfl (by decide)
      (by decide) (by decide) (SizeLinesFit_of_short _ (by decide))⟩

/-! ## Sign of the declared total size -/

/-- The header line `Content-Length: <sv>` is handled by the loop over the digits. -/
theorem ParseHeader_line_content_length (env : Env) (s : CHttpControlSocket)
    (pData : CHttpFileTransferOpData) (sv rest : List Nat)
    (hcode : pData.m_responseCode ≠ -1)
    (hbuf : s.m_pRecvBuffer = str "Content-Length: " ++ sv ++ 13 :: 10 :: rest) :
    ParseHeader_line env s pData (16 + sv.length) =
      ParseHeader_field env s pData (str "Content-Length: " ++ (sv ++ 0 :: 10 :: rest))
        (16 + sv.length) := by
  have hl16 : (str "Content-Length: " ++ sv).length = 16 + sv.length := by
    rw [List.length_append]
    rfl
  have hi0 : 16 + sv.length ≠ 0 := by omega
  have hset : s.m_pRecvBuffer.set (16 + sv.length) 0 =
      str "Content-Length: " ++ (sv ++ 0 :: 10 :: rest) := by
    rw [hbuf, ← hl16, set_line_end, List.append_assoc]
  unfold ParseHeader_line
  simp only [hset, if_neg hcode, if_neg hi0]

theorem decimalValueFrom_lt (ds : List Nat) (n a : Nat) (hn : n < 10 ^ a)
    (h : ∀ c ∈ ds, 48 ≤ c ∧ c ≤ 57) : decimalValueFrom n ds < 10 ^ (a + ds.length) := by
  induction ds generalizing n a with
  | nil => exact hn
  | cons c ds ih =>
    have hc := h c (by simp)
    have hps : 10 ^ (a + 1) = 10 ^ a * 10 := pow_succ 10 a
    have hn' : n * 10 + (c - 48) < 10 ^ (a + 1) := by omega
    have := ih (n * 10 + (c - 48)) (a + 1) hn' (fun d hd => h d (by simp [hd]))
    have e : a + (c :: ds).length = a + 1 + ds.length := by
      simp only [List.length_cons]
      omega
    rw [e]
    exact this

set_option maxRecDepth 100000 in
/-- C19. The declared total size can be negative after an accepted `Content-Length` header.
The header `Content-Length: 18446744073709551615` is accepted and leaves the declared total
`-1`, the value that stands for an unknown size. The check of the received bytes against
the declared total when the server closes the connection is then skipped: a body of three
bytes followed by a clean close ends the transfer with `FZ_REPLY_OK`, where the same body
under `Content-Length: 100` ends it with an error. -/
theorem content_length_overflow_is_unknown :
    (feed exampleEnv exampleSocket
        [str "HTTP/1.1 200 OK\r\nContent-Length: 18446744073709551615\r\n\r\n"]).map
        (fun s => (s.pTransfer.map (fun d => (d.m_gotHeader, d.m_totalSize)), s.trace)) =
      some (some (true, -1), []) ∧
    ((feed exampleEnv exampleSocket
        [str "HTTP/1.1 200 OK\r\nContent-Length: 18446744073709551615\r\n\r\n",
         str "abc"]).bind (fun s => OnClose exampleEnv s 0)).map
        (fun s => (s.pTransfer, s.trace)) =
      some (none, [Event.ProcessData (some (str "abc")), Event.ProcessData none,
        Event.ResetSocket, Event.ResetOperation FZ_REPLY_OK]) ∧
    ((feed exampleEnv exampleSocket
        [str "HTTP/1.1 200 OK\r\nContent-Length: 100\r\n\r\n",
         str "abc"]).bind (fun s => OnClose exampleEnv s 0)).map
        (fun s => (s.pTransfer, s.trace)) =
      some (none, [Event.ProcessData (some (str "abc")), Event.ResetSocket,
        Event.ResetOperation FZ_REPLY_ERROR_DISCONNECTED]) := by
  refine ⟨by decide, by decide, by decide⟩

/-- The value the loop over the digits of `Content-Length` computes. For every non-empty
string `sv` of decimal digits the line `Content-Length: <sv>` is accepted and the declared
total becomes the value of `sv` reduced to the signed 64-bit range; for a string of at most
18 digits this is the value itself, which is not negative and so differs from `-1`. -/
theorem content_length_total (env : Env) (s : CHttpControlSocket)
    (pData : CHttpFileTransferOpData) (sv rest : List Nat)
    (hcode : pData.m_responseCode ≠ -1)
    (hbuf : s.m_pRecvBuffer = str "Content-Length: " ++ sv ++ 13 :: 10 :: rest)
    (hne : sv ≠ []) (hdig : ∀ c ∈ sv, 48 ≤ c ∧ c ≤ 57) :
    ParseHeader_line env s pData (16 + sv.length) =
      some (HStep.next { s with pTransfer := some { pData with
        m_totalSize := wrap64 (decimalValue sv : Nat) } }) ∧
    (sv.length ≤ 18 →
      wrap64 (decimalValue sv : Nat) = (decimalValue sv : Nat) ∧
      (0 : Int) ≤ wrap64 (decimalValue sv : Nat)) := by
  have hw0 : wrap64 ((0 : Nat) : Int) = 0 := wrap64_of_small _ (by norm_num) (by norm_num)
  constructor
  · have hv := parseContentLength_value sv (10 :: rest) hdig 0
    rw [hw0] at hv
    rw [ParseHeader_line_content_length env s pData sv rest hcode hbuf,
      ParseHeader_field_content_length env s pData sv _ hne, hv]
    rfl
  · intro h18
    have hlt := decimalValueFrom_lt sv 0 0 (by norm_num) hdig
    have hpow : 10 ^ (0 + sv.length) ≤ 10 ^ 18 := Nat.pow_le_pow_right (by norm_num) (by omega)
    have h18v : (10 : Nat) ^ 18 = 1000000000000000000 := by norm_num
    have hsmall : wrap64 (decimalValue sv : Nat) = (decimalValue sv : Nat) := by
      apply wrap64_of_small
      · have := Int.ofNat_nonneg (decimalValue sv)
        omega
      · have : decimalValue sv < 1000000000000000000 := by
          unfold decimalValue
          omega
        omega
    rw [hsmall]
    exact ⟨rfl, Int.ofNat_nonneg _⟩

/-- The line `Content-Length: 100`. -/
theorem content_length_total_witness :
    ParseHeader_line exampleEnv
        { exampleSocket with m_pRecvBuffer := str "Content-Length: 100\r\n\r\n" }
        { m_responseCode := 200 } 19 =
      some (HStep.next { exampleSocket with
        m_pRecvBuffer := str "Content-Length: 100\r\n\r\n"
        pTransfer := some { m_responseCode := 200,
                            m_totalSize := wrap64 (decimalValue (str "100") : Nat) } }) ∧
    wrap64 (decimalValue (str "100") : Nat) = (decimalValue (str "100") : Nat) ∧
    (0 : Int) ≤ wrap64 (decimalValue (str "100") : Nat) :=
  ⟨(content_length_total exampleEnv
      { exampleSocket with m_pRecvBuffer := str "Content-Length: 100\r\n\r\n" }
      { m_responseCode := 200 } (str "100") (str "\r\n") (by decide) rfl (by decide)
      (by decide)).1,
   (content_length_total exampleEnv
      { exampleSocket with m_pRecvBuffer := str "Content-Length: 100\r\n\r\n" }
      { m_responseCode := 200 } (str "100") (str "\r\n") (by decide) rfl (by decide)
      (by decide)).2 (by decide)⟩

/-! ## ResetHttpData -/

/-- C20, counterexample. After `ResetHttpData` on the header state of a `302` response with
a `Location` header, the status reason text and the parsed redirect target are not
empty. -/
theorem ResetHttpData_keeps_reason_and_target :
    (ResetHttpData
        { m_responseCode := 302
          m_responseString := str "HTTP/1.1 302 Found"
          m_newLocation := exampleUri (str "https://other/next") }).m_responseString ≠ [] ∧
    (ResetHttpData
        { m_responseCode := 302
          m_responseString := str "HTTP/1.1 302 Found"
          m_newLocation := exampleUri (str "https://other/next") }).m_newLocation ≠ {} := by
  constructor <;> decide

/-- C20, amended. After `ResetHttpData` the header-complete flag is false, the status code
is unset (`-1`), the transfer encoding is unknown, the declared total is `-1`, the received
byte count is 0, and the chunk size, awaiting-trailer and awaiting-terminator fields are 0
and false. The redirect counter, the status reason text and the parsed redirect target are
kept, and so are the members of the transfer operation. -/
theorem ResetHttpData_effect (pData : CHttpFileTransferOpData) :
    (ResetHttpData pData).m_gotHeader = false ∧
    (ResetHttpData pData).m_responseCode = -1 ∧
    (ResetHttpData pData).m_transferEncoding = transferEncodings.unknown ∧
    (ResetHttpData pData).m_totalSize = -1 ∧
    (ResetHttpData pData).m_receivedData = 0 ∧
    (ResetHttpData pData).m_chunkData.size = 0 ∧
    (ResetHttpData pData).m_chunkData.getTrailer = false ∧
    (ResetHttpData pData).m_chunkData.terminateChunk = false ∧
    (ResetHttpData pData).m_redirectionCount = pData.m_redirectionCount ∧
    (ResetHttpData pData).m_responseString = pData.m_responseString ∧
    (ResetHttpData pData).m_newLocation = pData.m_newLocation ∧
    (ResetHttpData pData).localFile = pData.localFile ∧
    (ResetHttpData pData).localFileSize = pData.localFileSize ∧
    (ResetHttpData pData).resume = pData.resume ∧
    (ResetHttpData pData).opState = pData.opState ∧
    (ResetHttpData pData).waitForAsyncRequest = pData.waitForAsyncRequest ∧
    (ResetHttpData pData).file_opened = pData.file_opened :=
  ⟨rfl, rfl, rfl, rfl, rfl, rfl, rfl, rfl, rfl, rfl, rfl, rfl, rfl, rfl, rfl, rfl, rfl⟩

/-! ## Chunk terminator -/

/-- A slice that the sink takes is recorded and nothing else changes. -/
theorem ProcessData_accepts (env : Env) (s : CHttpControlSocket) (d : CHttpFileTransferOpData)
    (data : List Nat) (hC : s.pConnect = none) (hT : s.pTransfer = some d)
    (hsink : sinkAccepts env d) :
    ProcessData env s (some data) =
      some (FZ_REPLY_WOULDBLOCK, s.emit (Event.ProcessData (some data))) := by
  unfold ProcessData
  have he : (s.emit (Event.ProcessData (some data))).pTransfer = some d := hT
  have hc' : (s.emit (Event.ProcessData (some data))).pConnect = none := hC
  simp only [hc', he]
  unfold FileTransferParseResponse
  simp only [hc', he]
  rcases hsink with hl | hw
  · rw [if_pos hl]
  · by_cases hl : d.localFile = []
    · rw [if_pos hl]
    · rw [if_neg hl, if_pos (hw _ _)]

/-- C21. The data that completes a chunk are handed to `ProcessData`, the remaining size
becomes zero and the decoder awaits the chunk terminator. The next line must then be empty:
a line with content makes the decoder log `Chunk data improperly terminated`, reset the
operation and return an error; an empty line clears the awaiting-terminator flag and the
decoder goes on behind it, with no call of `ProcessData`. -/
theorem chunk_terminator (env : Env) (s : CHttpControlSocket) (pData : CHttpFileTransferOpData)
    (hT : s.pTransfer = some pData) :
    (∀ (p : List Nat) (n : Nat), pData.m_chunkData.size = (n : Int) → 0 < n → n ≤ p.length →
      p.length ≤ m_recvBufferLen → s.pConnect = none → sinkAccepts env pData →
      OnChunkedData_data env s p =
        some ((if (p.drop n).length = 0 then Step.brk else Step.next)
          { s with
            pTransfer := some { pData with
              m_receivedData := wrap64 (pData.m_receivedData + (n : Int))
              m_chunkData := { pData.m_chunkData with size := 0, terminateChunk := true } }
            trace := s.trace ++ [Event.ProcessData (some (p.take n))] }
          (p.drop n))) ∧
    (∀ line rest : List Nat, pData.m_chunkData.terminateChunk = true → (∀ c ∈ line, c ≠ 13) →
      (line ≠ [] →
        OnChunkedData_line env s (line ++ 13 :: 10 :: rest) =
          some (Step.ret FZ_REPLY_ERROR
            (ResetOperation (s.LogMessage Msg.Chunk_data_improperly_terminated)
              FZ_REPLY_ERROR).2)) ∧
      (line = [] →
        OnChunkedData_line env s (line ++ 13 :: 10 :: rest) =
          some ((if rest.length = 0 then Step.brk else Step.next)
            { s with pTransfer := some { pData with
                m_chunkData := { pData.m_chunkData with terminateChunk := false } } }
            rest))) := by
  constructor
  · intro p n hsize hn hnp hcap hC hsink
    have hcap' : m_recvBufferLen = 4096 := rfl
    have hz : pData.m_chunkData.size ≠ 0 := by omega
    have hdl : (if pData.m_chunkData.size < (p.length : Int) then
        (pData.m_chunkData.size % 2 ^ 32).toNat else p.length) = n := by
      by_cases hlt : pData.m_chunkData.size < (p.length : Int)
      · rw [if_pos hlt, hsize]
        omega
      · rw [if_neg hlt]
        omega
    have hpd := ProcessData_accepts env
      { s with pTransfer := some { pData with
          m_receivedData := wrap64 (pData.m_receivedData + (n : Int)) } }
      { pData with m_receivedData := wrap64 (pData.m_receivedData + (n : Int)) } (p.take n)
      hC rfl hsink
    have hw : wrap64 (pData.m_chunkData.size - (n : Int)) = 0 := by
      rw [hsize, sub_self]
      exact wrap64_of_small _ (by norm_num) (by norm_num)
    unfold OnChunkedData_data
    simp only [hT, hz, ne_eq, not_false_eq_true, if_true, hdl, if_neg (Nat.not_lt.mpr hnp),
      hpd, not_true_eq_false, if_false, CHttpControlSocket.emit, hw]
    by_cases hr : (p.drop n).length = 0
    · simp only [hr, if_true]
    · simp only [hr, if_false]
  · intro line rest hterm hcr
    constructor
    · intro hne
      have hlen : line.length ≠ 0 := fun h => hne (List.length_eq_zero.mp h)
      unfold OnChunkedData_line
      simp only [hT, findLineEnding_append _ _ hcr, hterm, if_true, ne_eq, hlen,
        not_false_eq_true]
    · intro hnil
      subst hnil
      unfold OnChunkedData_line
      simp only [hT, List.nil_append, findLineEnding, if_true, hterm, ne_eq, List.length_nil,
        not_true_eq_false, if_false, List.drop_succ_cons, List.drop_zero]
      by_cases hr : rest.length = 0
      · simp only [hr, if_true]
      · simp only [hr, if_false]

set_option maxRecDepth 100000 in
/-- The chunk `abc` is followed by `x` instead of CRLF, or by CRLF and the next chunk-size
line. -/
theorem chunk_terminator_witness :
    (OnReceive exampleEnv (chunkedBody { size := 3 } 0 []) (str "abcx\r\n")).map
        (fun s => (s.pTransfer, s.trace)) =
      some (none, [Event.ProcessData (some (str "abc")),
        Event.LogError Msg.Chunk_data_improperly_terminated, Event.ResetSocket,
        Event.ResetOperation FZ_REPLY_ERROR]) ∧
    OnChunkedData_data exampleEnv (chunkedBody { size := 3 } 0 []) (str "abc\r\n2\r\n") =
      some (Step.next (chunkedBody { size := 0, terminateChunk := true } 3
        [Event.ProcessData (some (str "abc"))]) (str "\r\n2\r\n")) ∧
    OnChunkedData_line exampleEnv (chunkedBody { size := 0, terminateChunk := true } 3
        [Event.ProcessData (some (str "abc"))]) (str "\r\n2\r\n") =
      some (Step.next (chunkedBody {} 3 [Event.ProcessData (some (str "abc"))])
        (str "2\r\n")) := by
  refine ⟨by decide, ?_, ?_⟩
  · exact (chunk_terminator exampleEnv (chunkedBody { size := 3 } 0 []) _ rfl).1
      (str "abc\r\n2\r\n") 3 rfl (by decide) (by decide) (by decide) rfl (Or.inl rfl)
  · exact ((chunk_terminator exampleEnv (chunkedBody { size := 0, terminateChunk := true } 3
      [Event.ProcessData (some (str "abc"))]) _ rfl).2 [] (str "2\r\n") rfl (by decide)).2 rfl

/-! ## Resume fallback at the end of the header -/

/-- A blank line met after the status line ends the header: what `ParseHeader` returns is
what the branch `if (!i)` returns. -/
theorem ParseHeader_blank_line (env : Env) (s : CHttpControlSocket)
    (pData : CHttpFileTransferOpData) (rest : List Nat) (hT : s.pTransfer = some pData)
    (hbuf : s.m_pRecvBuffer = 13 :: 10 :: rest) (hstat : pData.m_responseCode ≠ -1)
    (res : Reply) (s' : CHttpControlSocket)
    (h : ParseHeader_end env s pData = some (HStep.ret res s')) :
    ParseHeader env s = some (res, s') := by
  have hf : findLineEnding s.m_pRecvBuffer = LineEnding.found 0 := by
    rw [hbuf]
    simp [findLineEnding]
  have hl : ParseHeader_line env s pData 0 = ParseHeader_end env s pData := by
    unfold ParseHeader_line
    simp [hstat]
  unfold ParseHeader
  rw [ParseHeader_loop_succ]
  simp only [hT, hf, hl, h]

set_option maxRecDepth 100000 in
/-- C22, counterexample. A resumed download is answered with `200` and a chunked body whose
first chunk-size line is `ZZ`, all in one read, and the destination file can be opened.
`ParseHeader` opens the file anew at the blank line and then reports an error: it returns
`FZ_REPLY_ERROR` from the chunk decoder, to which it hands the bytes after the blank
line. -/
theorem resume_fallback_body_error :
    (ParseHeader exampleEnv
        { resumeSocket with
          m_pRecvBuffer :=
            str "HTTP/1.1 200 OK\r\nTransfer-Encoding: chunked\r\n\r\nZZ\r\n" }).map
        (fun r => (r.1, r.2.pTransfer, r.2.trace)) =
      some (FZ_REPLY_ERROR, none,
        [Event.OpenFile false, Event.LogError Msg.Invalid_chunk_size, Event.ResetSocket,
         Event.ResetOperation FZ_REPLY_ERROR]) := by
  decide

/-- C22, amended. A transfer with resume requested reaches the blank line that ends the
header with a status code below 300. When the code is not 206 and the destination file can
be opened, `ParseHeader` opens the file anew (not as an existing file), clears the resume
flag, marks the header complete and hands the bytes that follow the blank line to the
handling of the body in that state; it returns what that handling returns, and would-block
when no byte follows the blank line. When the code is 206 it does the same with the resume
flag left set and without opening the file again. -/
theorem resume_fallback (env : Env) (s : CHttpControlSocket) (pData : CHttpFileTransferOpData)
    (rest : List Nat) (hT : s.pTransfer = some pData)
    (hbuf : s.m_pRecvBuffer = 13 :: 10 :: rest) (hstat : pData.m_responseCode ≠ -1)
    (hcode : pData.m_responseCode < 300) (hresume : pData.resume = true) :
    (pData.m_responseCode ≠ 206 →
      env.file_open (s.trace ++ [Event.OpenFile false]) pData.localFile false = true →
      ParseHeader_end env s pData =
        ParseHeader_body env
          { s with
            m_pRecvBuffer := rest
            pTransfer := some { pData with
              resume := false
              file_opened := true
              localFileSize := env.get_size (s.trace ++ [Event.OpenFile false]) pData.localFile
              m_gotHeader := true }
            trace := s.trace ++ [Event.OpenFile false] }
          { pData with
            resume := false
            file_opened := true
            localFileSize := env.get_size (s.trace ++ [Event.OpenFile false]) pData.localFile
            m_gotHeader := true } ∧
      (∀ res s', ParseHeader_body env
          { s with
            m_pRecvBuffer := rest
            pTransfer := some { pData with
              resume := false
              file_opened := true
              localFileSize := env.get_size (s.trace ++ [Event.OpenFile false]) pData.localFile
              m_gotHeader := true }
            trace := s.trace ++ [Event.OpenFile false] }
          { pData with
            resume := false
            file_opened := true
            localFileSize := env.get_size (s.trace ++ [Event.OpenFile false]) pData.localFile
            m_gotHeader := true } = some (HStep.ret res s') →
        ParseHeader env s = some (res, s')) ∧
      (rest = [] →
        ParseHeader env s =
          some (FZ_REPLY_WOULDBLOCK,
            { s with
              m_pRecvBuffer := []
              pTransfer := some { pData with
                resume := false
                file_opened := true
                localFileSize :=
                  env.get_size (s.trace ++ [Event.OpenFile false]) pData.localFile
                m_gotHeader := true }
              trace := s.trace ++ [Event.OpenFile false] }))) ∧
    (pData.m_responseCode = 206 →
      ParseHeader_end env s pData =
        ParseHeader_body env
          { s with m_pRecvBuffer := rest, pTransfer := some { pData with m_gotHeader := true } }
          { pData with m_gotHeader := true } ∧
      (∀ res s', ParseHeader_body env
          { s with m_pRecvBuffer := rest, pTransfer := some { pData with m_gotHeader := true } }
          { pData with m_gotHeader := true } = some (HStep.ret res s') →
        ParseHeader env s = some (res, s')) ∧
      (rest = [] →
        ParseHeader env s =
          some (FZ_REPLY_WOULDBLOCK,
            { s with
              m_pRecvBuffer := []
              pTransfer := some { pData with m_gotHeader := true } }))) := by
  have h300 : ¬ (pData.m_responseCode ≥ 300) := by omega
  constructor
  · intro h206 hopen
    have hend : ParseHeader_end env s pData =
        ParseHeader_body env
          { s with
            m_pRecvBuffer := rest
            pTransfer := some { pData with
              resume := false
              file_opened := true
              localFileSize := env.get_size (s.trace ++ [Event.OpenFile false]) pData.localFile
              m_gotHeader := true }
            trace := s.trace ++ [Event.OpenFile false] }
          { pData with
            resume := false
            file_opened := true
            localFileSize := env.get_size (s.trace ++ [Event.OpenFile false]) pData.localFile
            m_gotHeader := true } := by
      unfold ParseHeader_end
      simp [h300, hresume, h206, OpenFile, CHttpControlSocket.emit, hopen, hbuf]
    refine ⟨hend, ?_, ?_⟩
    · intro res s' hb
      exact ParseHeader_blank_line env s pData rest hT hbuf hstat res s' (hend.trans hb)
    · intro hrest
      subst hrest
      apply ParseHeader_blank_line env s pData [] hT hbuf hstat
      rw [hend]
      simp [ParseHeader_body]
  · intro h206
    have hend : ParseHeader_end env s pData =
        ParseHeader_body env
          { s with m_pRecvBuffer := rest, pTransfer := some { pData with m_gotHeader := true } }
          { pData with m_gotHeader := true } := by
      unfold ParseHeader_end
      simp [h300, hresume, h206, hT, hbuf]
    refine ⟨hend, ?_, ?_⟩
    · intro res s' hb
      exact ParseHeader_blank_line env s pData rest hT hbuf hstat res s' (hend.trans hb)
    · intro hrest
      subst hrest
      apply ParseHeader_blank_line env s pData [] hT hbuf hstat
      rw [hend]
      simp [ParseHeader_body]

set_option maxRecDepth 100000 in
/-- The resumed download of `file` is answered with `200` and with `206`, and with `200`
followed by the body `abc`. -/
theorem resume_fallback_witness :
    ParseHeader exampleEnv
        { resumeSocket with
          m_pRecvBuffer := str "\r\n"
          pTransfer := some { localFile := str "file", localFileSize := 50, resume := true,
                              file_opened := true, m_responseCode := 200 } } =
      some (FZ_REPLY_WOULDBLOCK,
        { resumeSocket with
          pTransfer := some { localFile := str "file", localFileSize := 0, resume := false,
                              file_opened := true, m_responseCode := 200, m_gotHeader := true }
          trace := [Event.OpenFile false] }) ∧
    ParseHeader exampleEnv
        { resumeSocket with
          m_pRecvBuffer := str "\r\n"
          pTransfer := some { localFile := str "file", localFileSize := 50, resume := true,
                              file_opened := true, m_responseCode := 206 } } =
      some (FZ_REPLY_WOULDBLOCK,
        { resumeSocket with
          pTransfer := some { localFile := str "file", localFileSize := 50, resume := true,
                              file_opened := true, m_responseCode := 206,
                              m_gotHeader := true } }) ∧
    ParseHeader exampleEnv
        { resumeSocket with
          m_pRecvBuffer := str "\r\nabc"
          pTransfer := some { localFile := str "file", localFileSize := 50, resume := true,
                              file_opened := true, m_responseCode := 200 } } =
      some (FZ_REPLY_WOULDBLOCK,
        { resumeSocket with
          pTransfer := some { localFile := str "file", localFileSize := 0, resume := false,
                              file_opened := true, m_responseCode := 200, m_gotHeader := true,
                              m_receivedData := 3 }
          trace := [Event.OpenFile false, Event.ProcessData (some (str "abc"))] }) :=
  ⟨((resume_fallback exampleEnv
      { resumeSocket with
        m_pRecvBuffer := str "\r\n"
        pTransfer := some { localFile := str "file", localFileSize := 50, resume := true,
                            file_opened := true, m_responseCode := 200 } }
      _ [] rfl rfl (by decide) (by decide) rfl).1 (by decide) rfl).2.2 rfl,
   ((resume_fallback exampleEnv
      { resumeSocket with
        m_pRecvBuffer := str "\r\n"
        pTransfer := some { localFile := str "file", localFileSize := 50, resume := true,
                            file_opened := true, m_responseCode := 206 } }
      _ [] rfl rfl (by decide) (by decide) rfl).2 rfl).2.2 rfl,
   ((resume_fallback exampleEnv
      { resumeSocket with
        m_pRecvBuffer := str "\r\nabc"
        pTransfer := some { localFile := str "file", localFileSize := 50, resume := true,
                            file_opened := true, m_responseCode := 200 } }
      _ (str "abc") rfl rfl (by decide) (by decide) rfl).1 (by decide) rfl).2.1 _ _ (by decide)⟩

/-! ## Consumption of the buffer by the chunk decoder -/

/-- When `dataLen` exceeds the number of unconsumed bytes, the slice handed to `ProcessData`
would leave the receive buffer, and the embedding has no answer. -/
theorem OnChunkedData_data_over_read (env : Env) (s : CHttpControlSocket)
    (d : CHttpFileTransferOpData) (p : List Nat) (hT : s.pTransfer = some d)
    (hsize : d.m_chunkData.size ≠ 0) (hover : p.length < dataLen d.m_chunkData.size p.length) :
    OnChunkedData_data env s p = none := by
  unfold dataLen at hover
  unfold OnChunkedData_data
  simp only [hT, hsize, ne_eq, not_false_eq_true, if_true, hover]

set_option maxRecDepth 100000 in
/-- C24. The decoder expects a chunk size (remaining size zero) and the buffer holds the
line `FFFFFFFFFFFFFFFF` and the three bytes `abc`. The first pass of the loop stores the
remaining size `-1` and leaves 3 unconsumed bytes. In the second pass `dataLen` is
4294967295: the slice handed to `ProcessData` reaches past the 3 unconsumed bytes, and
`len -= dataLen` in `unsigned int` arithmetic leaves 4, more than before. -/
theorem chunk_size_overflow_reads_past_buffer :
    OnChunkedData_iter exampleEnv (chunkedBody {} 0 []) (str "FFFFFFFFFFFFFFFF\r\nabc") =
      some (Step.next (chunkedBody { size := -1 } 0 []) (str "abc")) ∧
    dataLen (-1) 3 = 4294967295 ∧
    (3 + 2 ^ 32 - dataLen (-1) 3) % 2 ^ 32 = 4 ∧
    OnChunkedData_iter exampleEnv (chunkedBody { size := -1 } 0 []) (str "abc") = none ∧
    OnReceive exampleEnv (chunkedBody {} 0 []) (str "FFFFFFFFFFFFFFFF\r\nabc") = none := by
  refine ⟨by decide, by decide, by decide, by decide, by decide⟩

/-! ## Received-bytes counter -/

theorem payload_append (a b : List Event) : payload (a ++ b) = payload a + payload b := by
  induction a with
  | nil => simp [payload]
  | cons e a ih =>
    cases e with
    | ProcessData p =>
      cases p with
      | none => simpa [payload] using ih
      | some q =>
        show (q.length : Int) + payload (a ++ b) = (q.length : Int) + payload a + payload b
        rw [ih]
        ring
    | _ => simpa [payload] using ih

/-- A step that keeps the counter, does not lower the header-complete flag and hands no
payload to `ProcessData` keeps the counter in step with the trace. -/
theorem Counted_update (c : Int) (s s' : CHttpControlSocket) (pData d' : CHttpFileTransferOpData)
    (hT : s.pTransfer = some pData) (hC : Counted c s) (hT' : s'.pTransfer = some d')
    (hrd : d'.m_receivedData = pData.m_receivedData)
    (hg : d'.m_gotHeader = false → pData.m_gotHeader = false)
    (htr : payload s'.trace = payload s.trace) : Counted c s' := by
  intro d hd
  rw [hT'] at hd
  cases hd
  obtain ⟨h1, h2⟩ := hC pData hT
  exact ⟨by rw [hrd, htr, h1], fun h => by rw [hrd]; exact h2 (hg h)⟩

theorem Counted_none (c : Int) (s : CHttpControlSocket) (h : s.pTransfer = none) :
    Counted c s := by
  intro d hd
  rw [h] at hd
  cases hd

theorem Counted_ResetOperation (c : Int) (s : CHttpControlSocket) (e : Reply)
    (h : Counted c s) : Counted c (ResetOperation s e).2 := by
  unfold ResetOperation
  cases hc : s.pConnect <;> cases ht : s.pTransfer
  · exact Counted_none _ _ (by simp [CControlSocket_ResetOperation, ResetSocket, hc])
  · exact Counted_none _ _ (by simp [CControlSocket_ResetOperation, ResetSocket, hc])
  · exact Counted_none _ _ (by simp [CControlSocket_ResetOperation, ResetSocket, hc, ht])
  · rename_i cd t
    exact Counted_update c s _ t t ht h
      (by simp [CControlSocket_ResetOperation, hc, ht]) rfl (fun h => h)
      (by simp [CControlSocket_ResetOperation, hc, payload_append, payload])

theorem Counted_LogMessage (c : Int) (s : CHttpControlSocket) (m : Msg) (h : Counted c s) :
    Counted c (s.LogMessage m) := by
  intro d hd
  have hp : payload (s.LogMessage m).trace = payload s.trace := by
    simp [CHttpControlSocket.LogMessage, CHttpControlSocket.emit, payload_append, payload]
  rw [hp]
  exact h d hd

theorem Counted_OpenFile (c : Int) (env : Env) (s s' : CHttpControlSocket) (r : Reply)
    (h : Counted c s) (ho : OpenFile env s = some (r, s')) : Counted c s' := by
  unfold OpenFile at ho
  cases ht : s.pTransfer with
  | none => simp [ht] at ho
  | some t =>
    simp only [ht] at ho
    split at ho
    · cases ho
      apply Counted_ResetOperation
      apply Counted_LogMessage
      exact Counted_update c s _ t _ ht h rfl rfl (fun h => h)
        (by simp [CHttpControlSocket.emit, payload_append, payload])
    · cases ho
      exact Counted_update c s _ t _ ht h rfl rfl (fun h => h)
        (by simp [CHttpControlSocket.emit, payload_append, payload])

theorem Counted_InternalConnect (c : Int) (env : Env) (s s' : CHttpControlSocket)
    (host : List Nat) (port : Nat) (tls : Bool) (r : Reply)
    (h : Counted c s) (ho : InternalConnect env s host port tls = some (r, s')) :
    Counted c s' := by
  have h1 : Counted c { s.emit (Event.InternalConnect host port tls) with
      pConnect := some { host := env.ConvertDomainName host, port := port, tls := tls } } := by
    intro d hd
    have hp : payload (s.emit (Event.InternalConnect host port tls)).trace = payload s.trace := by
      simp [CHttpControlSocket.emit, payload_append, payload]
    show _ = wrap64 (c + payload (s.emit (Event.InternalConnect host port tls)).trace) ∧ _
    rw [hp]
    exact h d hd
  unfold InternalConnect DoInternalConnect at ho
  simp only at ho
  split at ho
  · cases ho
    exact h1
  · rw [Option.some.injEq] at ho
    have hs := congrArg Prod.snd ho
    simp only at hs
    rw [← hs]
    exact Counted_ResetOperation _ _ _ h1
  · cases ho
    exact h1

theorem Counted_ProcessData_end (c : Int) (env : Env) (s s' : CHttpControlSocket) (r : Reply)
    (h : Counted c s) (ho : ProcessData env s none = some (r, s')) : Counted c s' := by
  have hbase : Counted c (s.emit (Event.ProcessData none)) := by
    intro d hd
    have hp : payload (s.emit (Event.ProcessData none)).trace = payload s.trace := by
      simp [CHttpControlSocket.emit, payload_append, payload]
    rw [hp]
    exact h d hd
  unfold ProcessData at ho
  simp only at ho
  split at ho
  · unfold FileTransferParseResponse at ho
    split at ho
    · cases ho
      exact Counted_ResetOperation _ _ _ hbase
    · cases ho
    · cases ho
      exact Counted_ResetOperation _ _ _ hbase
  · cases ho
    exact Counted_ResetOperation _ _ _ hbase

/-- The counter is raised by the length of a slice, and the slice is handed to
`ProcessData`. -/
theorem Counted_ProcessData_slice (c : Int) (env : Env) (s s' : CHttpControlSocket)
    (d : CHttpFileTransferOpData) (data : List Nat) (n : Nat) (r : Reply)
    (hT : s.pTransfer = some d) (hg : d.m_gotHeader = true) (h : Counted c s)
    (hlen : data.length = n)
    (ho : ProcessData env
      { s with pTransfer := some { d with
          m_receivedData := wrap64 (d.m_receivedData + (n : Int)) } }
      (some data) = some (r, s')) : Counted c s' := by
  subst hlen
  have hbase : Counted c (CHttpControlSocket.emit
      { s with pTransfer := some { d with
          m_receivedData := wrap64 (d.m_receivedData + (data.length : Int)) } }
      (Event.ProcessData (some data))) := by
    intro d' hd'
    have hd'' : some { d with
        m_receivedData := wrap64 (d.m_receivedData + (data.length : Int)) } = some d' := hd'
    cases hd''
    have hp : payload (CHttpControlSocket.emit
        { s with pTransfer := some { d with
            m_receivedData := wrap64 (d.m_receivedData + (data.length : Int)) } }
        (Event.ProcessData (some data))).trace = payload s.trace + (data.length : Int) := by
      simp [CHttpControlSocket.emit, payload_append, payload]
    rw [hp]
    refine ⟨?_, fun hf => ?_⟩
    · show wrap64 (d.m_receivedData + (data.length : Int)) = _
      rw [(h d hT).1, wrap64_add, add_assoc]
    · have hf' : d.m_gotHeader = false := hf
      rw [hg] at hf'
      cases hf'
  unfold ProcessData at ho
  simp only at ho
  split at ho
  · unfold FileTransferParseResponse at ho
    split at ho
    · cases ho
      exact Counted_ResetOperation _ _ _ hbase
    · cases ho
    · simp only at ho
      split at ho
      · cases ho
        exact hbase
      · split at ho
        · cases ho
          exact hbase
        · cases ho
          exact Counted_ResetOperation _ _ _ (Counted_LogMessage _ _ _ hbase)
  · cases ho
    exact Counted_ResetOperation _ _ _ hbase

theorem InBody_ResetOperation (s : CHttpControlSocket) (e : Reply) (h : InBody s) :
    InBody (ResetOperation s e).2 := by
  intro d' hd'
  unfold ResetOperation at hd'
  cases hc : s.pConnect <;> cases ht : s.pTransfer <;>
    simp [hc, ht, CControlSocket_ResetOperation, ResetSocket] at hd'
  all_goals
    rename_i t
    subst hd'
    exact h t ht

theorem InBody_ProcessData (env : Env) (s s' : CHttpControlSocket) (p : Option (List Nat))
    (r : Reply) (h : InBody s) (ho : ProcessData env s p = some (r, s')) : InBody s' := by
  have hbase : InBody (s.emit (Event.ProcessData p)) := h
  unfold ProcessData at ho
  simp only at ho
  split at ho
  · unfold FileTransferParseResponse at ho
    split at ho
    · cases ho
      exact InBody_ResetOperation _ _ hbase
    · cases ho
    · split at ho
      · cases ho
        exact InBody_ResetOperation _ _ hbase
      · split at ho
        · cases ho
          exact hbase
        · split at ho
          · cases ho
            exact hbase
          · cases ho
            exact InBody_ResetOperation _ _ hbase
  · cases ho
    exact InBody_ResetOperation _ _ hbase

/-- The first half of the loop body of `OnChunkedData` keeps the counter in step. -/
theorem OnChunkedData_data_Counted (c : Int) (env : Env) (s : CHttpControlSocket)
    (p : List Nat) (st : Step) (hC : Counted c s) (hB : InBody s)
    (ho : OnChunkedData_data env s p = some st) : StepCounted c st := by
  unfold OnChunkedData_data at ho
  cases ht : s.pTransfer with
  | none => simp [ht] at ho
  | some d =>
    simp only [ht] at ho
    split at ho
    · -- `dataLen` bytes are handed to `ProcessData`
      generalize hn : (if d.m_chunkData.size < (p.length : Int) then
        (d.m_chunkData.size % 2 ^ 32).toNat else p.length) = n at ho
      split at ho
      · cases ho
      · rename_i hle
        have htake : (p.take n).length = n := by
          rw [List.length_take]
          omega
        cases hpd : ProcessData env
            { s with pTransfer := some { d with
                m_receivedData := wrap64 (d.m_receivedData + (n : Int)) } }
            (some (p.take n)) with
        | none => simp [hpd] at ho
        | some rs =>
          obtain ⟨res, s2⟩ := rs
          have hC2 : Counted c s2 :=
            Counted_ProcessData_slice c env s s2 d (p.take n) n res ht (hB d ht) hC htake hpd
          have hB2 : InBody s2 := InBody_ProcessData env _ s2 _ res (by
            intro d' hd'
            have hd'' : some { d with
                m_receivedData := wrap64 (d.m_receivedData + (n : Int)) } = some d' := hd'
            cases hd''
            exact hB d ht) hpd
          simp only [hpd] at ho
          split at ho
          · cases ho
            exact hC2
          · cases ht2 : s2.pTransfer with
            | none => simp [ht2] at ho
            | some d2 =>
              simp only [ht2] at ho
              have hC3 : ∀ cd : t_chunkData,
                  Counted c { s2 with pTransfer := some { d2 with m_chunkData := cd } } :=
                fun cd => Counted_update c s2 _ d2 _ ht2 hC2 rfl rfl (fun h => h) rfl
              split at ho
              · cases ho
                exact hC3 _
              · cases ho
                refine ⟨hC3 _, ?_⟩
                intro d' hd'
                simp only [Option.some.injEq] at hd'
                subst hd'
                exact hB2 d2 ht2
    · cases ho
      exact ⟨hC, hB⟩

/-- The second half of the loop body of `OnChunkedData` keeps the counter in step. -/
theorem OnChunkedData_line_Counted (c : Int) (env : Env) (s : CHttpControlSocket)
    (p : List Nat) (st : Step) (hC : Counted c s) (hB : InBody s)
    (ho : OnChunkedData_line env s p = some st) : StepCounted c st := by
  unfold OnChunkedData_line at ho
  cases ht : s.pTransfer with
  | none => simp [ht] at ho
  | some d =>
    simp only [ht] at ho
    have hupd : ∀ cd : t_chunkData,
        Counted c { s with pTransfer := some { d with m_chunkData := cd } } ∧
        InBody { s with pTransfer := some { d with m_chunkData := cd } } := by
      intro cd
      refine ⟨Counted_update c s _ d _ ht hC rfl rfl (fun h => h) rfl, ?_⟩
      intro d' hd'
      simp only [Option.some.injEq] at hd'
      subst hd'
      exact hB d ht
    have hadv : ∀ (s1 : CHttpControlSocket) (q : List Nat) (st : Step),
        Counted c s1 → InBody s1 →
        (if q.length = 0 then some (Step.brk s1 q) else some (Step.next s1 q)) = some st →
        StepCounted c st := by
      intro s1 q st h1 h2 h
      split at h
      · cases h
        exact h1
      · cases h
        exact ⟨h1, h2⟩
    split at ho
    · cases ho
      exact Counted_ResetOperation _ _ _ (Counted_LogMessage _ _ _ hC)
    · split at ho
      · cases ho
        exact Counted_ResetOperation _ _ _ (Counted_LogMessage _ _ _ hC)
      · cases ho
        exact hC
    · split at ho
      · split at ho
        · cases ho
          exact Counted_ResetOperation _ _ _ (Counted_LogMessage _ _ _ hC)
        · exact hadv _ _ _ (hupd _).1 (hupd _).2 ho
      · split at ho
        · split at ho
          · cases hpd : ProcessData env s none with
            | none => simp [hpd] at ho
            | some rs =>
              obtain ⟨res, s2⟩ := rs
              simp only [hpd, Option.some.injEq] at ho
              subst ho
              exact Counted_ProcessData_end c env s s2 res hC hpd
          · exact hadv _ _ _ hC hB ho
        · split at ho
          · cases ho
            exact Counted_ResetOperation _ _ _ (Counted_LogMessage _ _ _ hC)
          · exact hadv _ _ _ (hupd _).1 (hupd _).2 ho

theorem OnChunkedData_iter_Counted (c : Int) (env : Env) (s : CHttpControlSocket)
    (p : List Nat) (st : Step) (hC : Counted c s) (hB : InBody s)
    (ho : OnChunkedData_iter env s p = some st) : StepCounted c st := by
  unfold OnChunkedData_iter at ho
  cases hd : OnChunkedData_data env s p with
  | none => simp [hd] at ho
  | some st1 =>
    have h1 := OnChunkedData_data_Counted c env s p st1 hC hB hd
    cases st1 with
    | ret r s1 =>
      simp only [hd, Option.some.injEq] at ho
      subst ho
      exact h1
    | brk s1 p1 =>
      simp only [hd, Option.some.injEq] at ho
      subst ho
      exact h1
    | next s1 p1 =>
      simp only [hd] at ho
      exact OnChunkedData_line_Counted c env s1 p1 st h1.1 h1.2 ho

theorem OnChunkedData_loop_Counted (c : Int) (env : Env) :
    ∀ (fuel : Nat) (s : CHttpControlSocket) (p : List Nat) (st : Step),
      Counted c s → InBody s → OnChunkedData_loop env fuel s p = some st → StepCounted c st := by
  intro fuel
  induction fuel with
  | zero =>
    intro s p st _ _ ho
    simp [OnChunkedData_loop] at ho
  | succ fuel ih =>
    intro s p st hC hB ho
    rw [OnChunkedData_loop_succ] at ho
    cases hi : OnChunkedData_iter env s p with
    | none => simp [hi] at ho
    | some st1 =>
      have h1 := OnChunkedData_iter_Counted c env s p st1 hC hB hi
      cases st1 with
      | ret r s1 =>
        simp only [hi, Option.some.injEq] at ho
        subst ho
        exact h1
      | brk s1 p1 =>
        simp only [hi, Option.some.injEq] at ho
        subst ho
        exact h1
      | next s1 p1 =>
        simp only [hi] at ho
        exact ih s1 p1 st h1.1 h1.2 ho

/-- `OnChunkedData` keeps the counter in step with the trace. -/
theorem OnChunkedData_Counted (c : Int) (env : Env) (s s' : CHttpControlSocket) (r : Reply)
    (hC : Counted c s) (hB : InBody s) (ho : OnChunkedData env s = some (r, s')) :
    Counted c s' := by
  unfold OnChunkedData at ho
  cases hl : OnChunkedData_loop env (s.m_pRecvBuffer.length + 1) s s.m_pRecvBuffer with
  | none => simp [hl] at ho
  | some st =>
    have h1 := OnChunkedData_loop_Counted c env _ s _ st hC hB hl
    cases st with
    | ret r1 s1 =>
      simp only [hl, Option.some.injEq, Prod.mk.injEq] at ho
      obtain ⟨_, hs⟩ := ho
      subst hs
      exact h1
    | brk s1 p1 =>
      simp only [hl] at ho
      split at ho
      · cases ho
        exact h1
      · cases ho
        exact h1
    | next s1 p1 => simp [hl] at ho

theorem InHeader_ResetOperation (s : CHttpControlSocket) (e : Reply) (h : InHeader s) :
    InHeader (ResetOperation s e).2 := by
  intro d' hd'
  unfold ResetOperation at hd'
  cases hc : s.pConnect <;> cases ht : s.pTransfer <;>
    simp [hc, ht, CControlSocket_ResetOperation, ResetSocket] at hd'
  all_goals
    rename_i t
    subst hd'
    exact h t ht

theorem InHeader_OpenFile (env : Env) (s s' : CHttpControlSocket) (r : Reply)
    (h : InHeader s) (ho : OpenFile env s = some (r, s')) : InHeader s' := by
  unfold OpenFile at ho
  cases ht : s.pTransfer with
  | none => simp [ht] at ho
  | some t =>
    simp only [ht] at ho
    split at ho
    · cases ho
      apply InHeader_ResetOperation
      intro d' hd'
      have hd'' : some { t with file_opened := false } = some d' := hd'
      cases hd''
      exact h t ht
    · cases ho
      intro d' hd'
      simp only [Option.some.injEq] at hd'
      subst hd'
      exact h t ht

/-- The status line keeps the counter in step with the trace. -/
theorem ParseHeader_status_Counted (c : Int) (env : Env) (s : CHttpControlSocket)
    (pData : CHttpFileTransferOpData) (buf : List Nat) (st : HStep)
    (hT : s.pTransfer = some pData) (hC : Counted c s) (hg : pData.m_gotHeader = false)
    (ho : ParseHeader_status env s pData buf = some st) : HStepCounted c st := by
  have hupd : ∀ (s1 : CHttpControlSocket) (d1 : CHttpFileTransferOpData),
      s1.pTransfer = some d1 → d1.m_receivedData = pData.m_receivedData →
      d1.m_gotHeader = false → payload s1.trace = payload s.trace →
      Counted c s1 ∧ InHeader s1 := by
    intro s1 d1 h1 h2 h3 h4
    refine ⟨Counted_update c s s1 pData d1 hT hC h1 h2 (fun _ => hg) h4, ?_⟩
    intro d hd
    rw [h1] at hd
    cases hd
    exact h3
  have hopen : ∀ (code : Int) (x : Option Reply) (s1 : CHttpControlSocket),
      (∀ (res : Reply) (s2 : CHttpControlSocket),
        OpenFile env { s with pTransfer := some { pData with
          m_responseString := cstr buf, m_responseCode := code, resume := false } } =
          some (res, s2) → Counted c s2 ∧ InHeader s2) := by
    intro code x s1 res s2 h
    have hX := hupd { s with pTransfer := some { pData with
      m_responseString := cstr buf, m_responseCode := code, resume := false } } _ rfl rfl hg rfl
    exact ⟨Counted_OpenFile c env _ s2 res hX.1 h, InHeader_OpenFile env _ s2 res hX.2 h⟩
  unfold ParseHeader_status at ho
  simp only at ho
  split at ho
  · cases ho
    exact Counted_ResetOperation _ _ _ (Counted_LogMessage _ _ _
      (hupd { s with pTransfer := some { pData with m_responseString := cstr buf } } _
        rfl rfl hg rfl).1)
  · rename_i code hcode
    split at ho
    · cases ho
    · rename_i res s1 heq
      cases ho
      split at heq
      · split at heq
        · cases heq
        · rename_i res2 s2 hof
          split at heq
          · cases heq
            exact (hopen code none s1 _ _ hof).1
          · split at heq <;> cases heq
      · cases heq
    · rename_i s1 heq
      have hA : Counted c s1 ∧ InHeader s1 := by
        split at heq
        · split at heq
          · cases heq
          · rename_i res2 s2 hof
            have h2 := hopen code none s1 _ _ hof
            split at heq
            · cases heq
            · split at heq
              · cases heq
              · rename_i pd hpd
                cases heq
                refine ⟨Counted_update c s2 _ pd _ hpd h2.1 rfl rfl (fun h => h) rfl, ?_⟩
                intro d' hd'
                simp only [Option.some.injEq] at hd'
                subst hd'
                exact h2.2 pd hpd
        · cases heq
          exact hupd _ _ rfl rfl hg rfl
      split at ho
      · cases ho
      · split at ho
        · cases ho
          exact Counted_ResetOperation _ _ _ hA.1
        · split at ho
          · cases ho
            exact Counted_ResetOperation _ _ _ (Counted_LogMessage _ _ _ hA.1)
          · cases ho
            exact hA

/-- A header line after the status line keeps the counter in step with the trace. -/
theorem ParseHeader_field_Counted (c : Int) (env : Env) (s : CHttpControlSocket)
    (pData : CHttpFileTransferOpData) (buf : List Nat) (i : Nat) (st : HStep)
    (hT : s.pTransfer = some pData) (hC : Counted c s) (hg : pData.m_gotHeader = false)
    (ho : ParseHeader_field env s pData buf i = some st) : HStepCounted c st := by
  have hupd : ∀ (s1 : CHttpControlSocket) (d1 : CHttpFileTransferOpData),
      s1.pTransfer = some d1 → d1.m_receivedData = pData.m_receivedData →
      d1.m_gotHeader = false → payload s1.trace = payload s.trace →
      Counted c s1 ∧ InHeader s1 := by
    intro s1 d1 h1 h2 h3 h4
    refine ⟨Counted_update c s s1 pData d1 hT hC h1 h2 (fun _ => hg) h4, ?_⟩
    intro d hd
    rw [h1] at hd
    cases hd
    exact h3
  have hs : Counted c s ∧ InHeader s := hupd s pData hT rfl hg rfl
  unfold ParseHeader_field at ho
  split at ho
  · cases ho
    exact hupd _ _ rfl rfl hg rfl
  · split at ho
    · cases ho
      exact hupd _ _ rfl rfl hg rfl
    · split at ho
      · split at ho
        · cases ho
          exact Counted_ResetOperation _ _ _ (Counted_LogMessage _ _ _
            (hupd { s with pTransfer := some { pData with m_totalSize := 0 } } _
              rfl rfl hg rfl).1)
        · cases ho
          exact hupd _ _ rfl rfl hg rfl
      · cases ho
        exact hs

/-- The redirect at the end of the header keeps the counter at zero. -/
theorem ParseHeader_redirect_Counted (c : Int) (env : Env) (s : CHttpControlSocket)
    (pData : CHttpFileTransferOpData) (st : HStep)
    (hT : s.pTransfer = some pData) (hC : Counted c s) (hg : pData.m_gotHeader = false)
    (ho : ParseHeader_redirect env s pData = some st) : HStepCounted c st := by
  have hzero : pData.m_receivedData = 0 := (hC pData hT).2 hg
  have hupd : ∀ (s1 : CHttpControlSocket) (d1 : CHttpFileTransferOpData),
      s1.pTransfer = some d1 → d1.m_receivedData = pData.m_receivedData →
      d1.m_gotHeader = false → payload s1.trace = payload s.trace →
      Counted c s1 := by
    intro s1 d1 h1 h2 h3 h4
    exact Counted_update c s s1 pData d1 hT hC h1 h2 (fun _ => hg) h4
  have hp : payload (s.trace ++ [Event.ResetSocket]) = payload s.trace := by
    simp [payload_append, payload]
  unfold ParseHeader_redirect at ho
  simp only at ho
  split at ho
  · cases ho
    exact Counted_ResetOperation _ _ _ (Counted_LogMessage _ _ _
      (hupd { s with pTransfer := some { pData with
        m_redirectionCount := wrap32 (pData.m_redirectionCount + 1) } } _ rfl rfl hg rfl))
  · have h3 : ∀ u : uri, Counted c
        { (ResetSocket { s with pTransfer := some { pData with
            m_redirectionCount := wrap32 (pData.m_redirectionCount + 1) } }) with
          pTransfer := some (ResetHttpData { pData with
            m_redirectionCount := wrap32 (pData.m_redirectionCount + 1) })
          m_current_uri := u } :=
      fun u => hupd _ _ rfl hzero.symm rfl hp
    split at ho
    · cases ho
      exact Counted_ResetOperation _ _ _ (Counted_LogMessage _ _ _ (h3 _))
    · split at ho
      · cases ho
        exact Counted_ResetOperation _ _ _ (Counted_LogMessage _ _ _ (h3 _))
      · split at ho
        · cases ho
          exact Counted_ResetOperation _ _ _ (Counted_LogMessage _ _ _ (h3 _))
        · split at ho
          · cases ho
          · rename_i res s1 hic
            cases ho
            exact Counted_InternalConnect c env _ s1 _ _ _ res (h3 _) hic

/-- The bytes that follow the blank line are counted as they are handed on. -/
theorem ParseHeader_body_Counted (c : Int) (env : Env) (s : CHttpControlSocket)
    (pData : CHttpFileTransferOpData) (st : HStep)
    (hT : s.pTransfer = some pData) (hC : Counted c s) (hg : pData.m_gotHeader = true)
    (ho : ParseHeader_body env s pData = some st) : HStepCounted c st := by
  have hB : InBody s := by
    intro d hd
    rw [hT] at hd
    cases hd
    exact hg
  unfold ParseHeader_body at ho
  split at ho
  · split at ho
    · split at ho
      · cases ho
      · rename_i res s1 hoc
        cases ho
        exact OnChunkedData_Counted c env s s1 res hC hB hoc
    · simp only at ho
      split at ho
      · cases ho
      · rename_i res s1 hpd
        cases ho
        exact Counted_ProcessData_slice c env s s1 pData s.m_pRecvBuffer _ res hT hg hC rfl hpd
  · cases ho
    exact hC

/-- The end of the header keeps the counter in step with the trace. -/
theorem ParseHeader_end_Counted (c : Int) (env : Env) (s : CHttpControlSocket)
    (pData : CHttpFileTransferOpData) (st : HStep)
    (hT : s.pTransfer = some pData) (hC : Counted c s) (hg : pData.m_gotHeader = false)
    (ho : ParseHeader_end env s pData = some st) : HStepCounted c st := by
  have hX : Counted c { s with pTransfer := some { pData with resume := false } } :=
    Counted_update c s _ pData _ hT hC rfl rfl (fun h => h) rfl
  have hbody : ∀ (s1 : CHttpControlSocket) (pd : CHttpFileTransferOpData),
      Counted c s1 → s1.pTransfer = some pd →
      ParseHeader_body env
        { s1 with pTransfer := some { pd with m_gotHeader := true },
                  m_pRecvBuffer := s1.m_pRecvBuffer.drop 2 }
        { pd with m_gotHeader := true } = some st → HStepCounted c st := by
    intro s1 pd h1 hpd hb
    refine ParseHeader_body_Counted c env _ _ st rfl ?_ rfl hb
    exact Counted_update c s1 _ pd _ hpd h1 rfl rfl (fun h => by cases h) rfl
  unfold ParseHeader_end at ho
  split at ho
  · exact ParseHeader_redirect_Counted c env s pData st hT hC hg ho
  · simp only at ho
    split at ho
    · cases ho
    · rename_i res s1 heq
      cases ho
      split at heq
      · split at heq
        · cases heq
        · rename_i res2 s2 hof
          split at heq
          · cases heq
            exact Counted_OpenFile c env _ _ _ hX hof
          · cases heq
      · cases heq
    · rename_i s1 heq
      have hA : Counted c s1 := by
        split at heq
        · split at heq
          · cases heq
          · rename_i res2 s2 hof
            split at heq
            · cases heq
            · cases heq
              exact Counted_OpenFile c env _ _ _ hX hof
        · cases heq
          exact hC
      split at ho
      · cases ho
      · rename_i pd hpd
        exact hbody s1 pd hA hpd ho

/-- The handling of one line of the header keeps the counter in step with the trace. -/
theorem ParseHeader_line_Counted (c : Int) (env : Env) (s : CHttpControlSocket)
    (pData : CHttpFileTransferOpData) (i : Nat) (st : HStep)
    (hT : s.pTransfer = some pData) (hC : Counted c s) (hg : pData.m_gotHeader = false)
    (ho : ParseHeader_line env s pData i = some st) : HStepCounted c st := by
  unfold ParseHeader_line at ho
  simp only at ho
  split at ho
  · exact ParseHeader_status_Counted c env s pData _ st hT hC hg ho
  · split at ho
    · exact ParseHeader_end_Counted c env s pData st hT hC hg ho
    · exact ParseHeader_field_Counted c env s pData _ i st hT hC hg ho

theorem ParseHeader_loop_Counted (c : Int) (env : Env) :
    ∀ (fuel : Nat) (s s' : CHttpControlSocket) (r : Reply),
      Counted c s → InHeader s → ParseHeader_loop env fuel s = some (r, s') → Counted c s' := by
  intro fuel
  induction fuel with
  | zero =>
    intro s s' r _ _ ho
    simp [ParseHeader_loop] at ho
  | succ fuel ih =>
    intro s s' r hC hH ho
    rw [ParseHeader_loop_succ] at ho
    split at ho
    · cases ho
    · rename_i pData hT
      split at ho
      · cases ho
        exact Counted_ResetOperation _ _ _ (Counted_LogMessage _ _ _ hC)
      · split at ho
        · cases ho
          exact Counted_ResetOperation _ _ _ (Counted_LogMessage _ _ _ hC)
        · cases ho
          exact hC
      · rename_i i hfound
        split at ho
        · cases ho
        · rename_i res s1 hline
          cases ho
          exact ParseHeader_line_Counted c env s pData i _ hT hC (hH pData hT) hline
        · rename_i s1 hline
          have h1 := ParseHeader_line_Counted c env s pData i _ hT hC (hH pData hT) hline
          split at ho
          · cases ho
            exact h1.1
          · exact ih { s1 with m_pRecvBuffer := s1.m_pRecvBuffer.drop (i + 2) } s' r h1.1 h1.2 ho

/-- One pass through the loop of `DoReceive` keeps the counter in step with the trace. -/
theorem DoReceive_iter_Counted (c : Int) (env : Env) (s s' : CHttpControlSocket)
    (rr : ReadResult) (x : Option Reply) (hC : Counted c s)
    (ho : DoReceive_iter env s rr = some (x, s')) : Counted c s' := by
  unfold DoReceive_iter at ho
  split at ho
  · split at ho
    · cases ho
      exact Counted_ResetOperation _ _ _ hC
    · cases ho
      exact hC
  · rename_i data
    split at ho
    · cases ho
    · split at ho
      · rename_i pData hcn hT
        simp only at ho
        split at ho
        · rename_i hg
          split at ho
          · cases ho
            exact Counted_ResetOperation _ _ _ hC
          · split at ho
            · cases ho
            · rename_i res s1 hph
              have h1 : Counted c s1 :=
                ParseHeader_loop_Counted c env _
                  { s with m_pRecvBuffer := s.m_pRecvBuffer ++ data } s1 res hC
                  (fun d hd => by
                    have hd' : s.pTransfer = some d := hd
                    rw [hT] at hd'
                    cases hd'
                    exact hg) hph
              split at ho
              · cases ho
                exact h1
              · split at ho
                · cases ho
                  exact h1
                · cases ho
                  exact h1
        · rename_i hg
          have hg' : pData.m_gotHeader = true := by
            cases hgh : pData.m_gotHeader
            · exact absurd hgh hg
            · rfl
          have hB : InBody { s with m_pRecvBuffer := s.m_pRecvBuffer ++ data } := by
            intro d hd
            have hd' : s.pTransfer = some d := hd
            rw [hT] at hd'
            cases hd'
            exact hg'
          split at ho
          · split at ho
            · cases ho
              exact Counted_ResetOperation _ _ _ hC
            · split at ho
              · cases ho
              · rename_i res s1 hoc
                cases ho
                exact OnChunkedData_Counted c env { s with m_pRecvBuffer := s.m_pRecvBuffer ++ data } _ _
                  hC hB hoc
          · split at ho
            · split at ho
              · cases ho
              · rename_i res s1 hpd
                cases ho
                exact Counted_ProcessData_end c env
                  { s with m_pRecvBuffer := s.m_pRecvBuffer ++ data } _ _ hC hpd
            · split at ho
              · cases ho
              · rename_i res s1 hpd
                have h1 : Counted c s1 := Counted_ProcessData_slice c env
                  { s with m_pRecvBuffer := s.m_pRecvBuffer ++ data } s1 pData
                  (s.m_pRecvBuffer ++ data) _ res hT hg' hC rfl hpd
                cases ho
                exact h1
      · cases ho
        exact hC

theorem DoReceive_Counted (c : Int) (env : Env) :
    ∀ (reads : List ReadResult) (s s' : CHttpControlSocket) (r : Reply),
      Counted c s → DoReceive env s reads = some (r, s') → Counted c s' := by
  intro reads
  induction reads with
  | nil =>
    intro s s' r hC ho
    simp only [DoReceive, Option.some.injEq, Prod.mk.injEq] at ho
    rw [← ho.2]
    exact hC
  | cons rr reads ih =>
    intro s s' r hC ho
    unfold DoReceive at ho
    split at ho
    · cases ho
    · rename_i res s1 hit
      cases ho
      exact DoReceive_iter_Counted c env s _ rr _ hC hit
    · rename_i s1 hit
      exact ih s1 s' r (DoReceive_iter_Counted c env s s1 rr _ hC hit) ho

theorem feed_Counted (c : Int) (env : Env) :
    ∀ (reads : List (List Nat)) (s s' : CHttpControlSocket),
      Counted c s → feed env s reads = some s' → Counted c s' := by
  intro reads
  induction reads with
  | nil =>
    intro s s' hC ho
    simp only [feed, Option.some.injEq] at ho
    rw [← ho]
    exact hC
  | cons data reads ih =>
    intro s s' hC ho
    unfold feed at ho
    split at ho
    · cases ho
    · rename_i s1 hrecv
      unfold OnReceive at hrecv
      cases hdr : DoReceive env s [ReadResult.bytes data] with
      | none => simp [hdr] at hrecv
      | some rs =>
        obtain ⟨r, s2⟩ := rs
        simp only [hdr, Option.map_some', Option.some.injEq] at hrecv
        subst hrecv
        exact ih _ s' (DoReceive_Counted c env _ s _ r hC hdr) ho

/-- C23. The socket handles a sequence of reads, and the transfer operation is still in
place afterwards. Then its received-bytes counter has grown by the number of payload bytes
that were handed to `ProcessData` in the meantime, in 64-bit arithmetic: bytes of the
header, chunk-size lines, chunk terminators and trailer lines are not counted, and every
slice is counted in full, with and without chunked encoding. (Before the header is complete
the counter is zero, as `ResetHttpData` leaves it.) -/
theorem receivedData_counts_payload (env : Env) (s s' : CHttpControlSocket)
    (d d' : CHttpFileTransferOpData) (reads : List (List Nat))
    (hT : s.pTransfer = some d)
    (hlow : -2 ^ 63 ≤ d.m_receivedData) (hhigh : d.m_receivedData < 2 ^ 63)
    (hhdr : d.m_gotHeader = false → d.m_receivedData = 0)
    (hfeed : feed env s reads = some s') (hT' : s'.pTransfer = some d') :
    d'.m_receivedData = wrap64 (d.m_receivedData + (payload s'.trace - payload s.trace)) ∧
    (-2 ^ 63 ≤ d.m_receivedData + (payload s'.trace - payload s.trace) →
      d.m_receivedData + (payload s'.trace - payload s.trace) < 2 ^ 63 →
      d'.m_receivedData = d.m_receivedData + (payload s'.trace - payload s.trace)) := by
  have hC : Counted (d.m_receivedData - payload s.trace) s := by
    intro d0 hd0
    rw [hT] at hd0
    cases hd0
    refine ⟨?_, hhdr⟩
    rw [sub_add_cancel, wrap64_of_small _ hlow hhigh]
  have hC' := feed_Counted _ env reads s s' hC hfeed
  have h1 := (hC' d' hT').1
  have e : d.m_receivedData - payload s.trace + payload s'.trace =
      d.m_receivedData + (payload s'.trace - payload s.trace) := by ring
  rw [e] at h1
  refine ⟨h1, fun hl hh => ?_⟩
  rw [h1, wrap64_of_small _ hl hh]

set_option maxRecDepth 100000 in
/-- A chunked response with the chunks `abc` and `de` arrives in two reads. -/
theorem receivedData_counts_payload_witness :
    feed exampleEnv exampleSocket
        [str "HTTP/1.1 200 OK\r\nTransfer-Encoding: chunked\r\n\r\n3\r\nab",
         str "c\r\n2\r\nde\r\n"] =
      some (chunkedBody {} 5 [Event.ProcessData (some (str "ab")),
        Event.ProcessData (some (str "c")), Event.ProcessData (some (str "de"))]) ∧
    (5 : Int) = wrap64 (0 + (payload [Event.ProcessData (some (str "ab")),
      Event.ProcessData (some (str "c")), Event.ProcessData (some (str "de"))] - payload [])) :=
  ⟨by decide,
    (receivedData_counts_payload exampleEnv exampleSocket
      (chunkedBody {} 5 [Event.ProcessData (some (str "ab")),
        Event.ProcessData (some (str "c")), Event.ProcessData (some (str "de"))]) _ _
      [str "HTTP/1.1 200 OK\r\nTransfer-Encoding: chunked\r\n\r\n3\r\nab",
       str "c\r\n2\r\nde\r\n"] rfl (by decide) (by decide) (fun _ => rfl) (by decide) rfl).1⟩

/-! ## Chunk-size lines without a digit -/

/-- C25. While the decoder expects a chunk size, a line that is empty or begins with `;` or
a space is taken without an error as a chunk of size zero: the decoder switches to trailer
mode and goes on behind the line. The body CRLF CRLF is therefore a complete empty body: the
end marker `ProcessData(0, 0)` is delivered and the operation is reset with
`FZ_REPLY_OK`. -/
theorem chunk_size_line_without_digit (env : Env) (s : CHttpControlSocket)
    (pData : CHttpFileTransferOpData) (hT : s.pTransfer = some pData)
    (hterm : pData.m_chunkData.terminateChunk = false)
    (htrail : pData.m_chunkData.getTrailer = false) (hsize : pData.m_chunkData.size = 0) :
    (∀ line rest : List Nat, (∀ c ∈ line, c ≠ 13) →
      (line = [] ∨ ∃ c more, line = c :: more ∧ (c = 59 ∨ c = 32)) →
      OnChunkedData_line env s (line ++ 13 :: 10 :: rest) =
        some ((if rest.length = 0 then Step.brk else Step.next)
          { s with pTransfer := some { pData with
              m_chunkData := { getTrailer := true, terminateChunk := false, size := 0 } } }
          rest)) ∧
    (s.pConnect = none → s.m_pRecvBuffer = [13, 10, 13, 10] →
      OnChunkedData env s =
        some (FZ_REPLY_OK,
          { s with
            m_pRecvBuffer := []
            pTransfer := none
            trace := s.trace ++
              [Event.ProcessData none, Event.ResetSocket, Event.ResetOperation FZ_REPLY_OK] })) := by
  constructor
  · intro line rest hcr hline
    have hstop : readChunkSize (line ++ 0 :: 10 :: rest) 0 = some 0 := by
      rcases hline with hnil | ⟨c, more, hl, hc⟩
      · subst hnil
        exact readChunkSize_stop 0 _ 0 (Or.inl rfl)
      · subst hl
        exact readChunkSize_stop c _ 0 (Or.inr (by
          rcases hc with h | h
          · exact Or.inl h
          · exact Or.inr h))
    rw [OnChunkedData_line_chunk_size env s pData line rest hT hterm htrail hsize hcr, hstop]
    simp
  · intro hC hbuf
    simp [OnChunkedData, OnChunkedData_loop, OnChunkedData_iter, OnChunkedData_data,
      OnChunkedData_line, hbuf, hT, hsize, hterm, htrail, findLineEnding, readChunkSize,
      ProcessData, FileTransferParseResponse, CHttpControlSocket.emit, hC, ResetOperation,
      ResetSocket, CControlSocket_ResetOperation]

/-- The chunk-size line `;ext`, and the body CRLF CRLF. -/
theorem chunk_size_line_without_digit_witness :
    OnChunkedData_line exampleEnv (chunkedBody {} 0 []) (str ";ext\r\n\r\n") =
      some (Step.next (chunkedBody { getTrailer := true } 0 []) (str "\r\n")) ∧
    OnChunkedData exampleEnv { chunkedBody {} 0 [] with m_pRecvBuffer := str "\r\n\r\n" } =
      some (FZ_REPLY_OK,
        { exampleSocket with
          pTransfer := none
          trace := [Event.ProcessData none, Event.ResetSocket,
            Event.ResetOperation FZ_REPLY_OK] }) :=
  ⟨(chunk_size_line_without_digit exampleEnv (chunkedBody {} 0 []) _ rfl rfl rfl rfl).1
      (str ";ext") (str "\r\n") (by decide) (Or.inr ⟨59, str "ext", rfl, Or.inl rfl⟩),
   (chunk_size_line_without_digit exampleEnv
      { chunkedBody {} 0 [] with m_pRecvBuffer := str "\r\n\r\n" } _ rfl rfl rfl rfl).2
      rfl rfl⟩

end Http
